import Mathlib

/-!
# llvm2c: type lowering, binary promotion and the module passes

A shallow embedding of `Type/TypeHandler.cpp`, of the module-level passes of
`Program.cpp` and of `Func.cpp`, followed by the properties established about them.

Conventions of the embedding.

* A `std::string` is the list of its characters (`Str`), so that `substr`, `erase`
  and `std::replace` are `List.take`, `List.drop` and `List.map`.
* A `std::unique_ptr<T>` or raw pointer that may be null is an `Option`; `none` is `nullptr`.
* An object owned by a vector of the `Program` is referred to by its position in that
  vector; an `llvm::Value*` or `llvm::StructType*` used as a map key is an address (`Nat`).
* A map (`std::map`, `llvm::DenseMap`) is an association list with at most one entry per key.
* A method that reads and writes members of `Program` takes the program state and returns
  the new one. A step whose behaviour is undefined in C++ (dereferencing a null pointer,
  reading an operand that does not exist) makes the enclosing function return `none`.
-/

namespace Llvm2c

/-- A `std::string`: the list of its characters. -/
abbrev Str := List Char

/-! ## Maps -/

/-- Lookup `m.find(k)`: the entry stored under the key, if any. -/
def mapFind {β : Type} (k : Nat) (m : List (Nat × β)) : Option β :=
  List.lookup k m

/-- Assignment `m[k] = v`: replaces the entry under `k` or inserts one. -/
def mapSet {β : Type} (k : Nat) (v : β) (m : List (Nat × β)) : List (Nat × β) :=
  (k, v) :: m.filter (fun e => e.1 != k)

/-! ## IR types and C types -/

/-- An `llvm::Type`, as far as the translator inspects it. A named struct is known by its
name (its elements are listed by the module, see `StructDef`); a struct without a name is
known by its address and carries its elements. `other` stands for every type id that
`TypeHandler::getType` has no case for (half, fp128, vector, label, metadata, ...). -/
inductive LType where
  | array (elementType : LType) (numElements : Nat)
  | void
  | integer (bitWidth : Nat)
  | float
  | double
  | x86_fp80
  | pointer (elementType : LType)
  | namedStruct (name : Str)
  | unnamedStruct (addr : Nat) (elements : List LType)
  | function (returnType : LType) (params : List LType)
  | other

/-- The classes derived from `Type` (the C types). A component held in a
`std::unique_ptr<Type>` is an `Option`, since `getType` can hand a null pointer to the
constructors of `ArrayType`, `PointerType` and `FunctionType`. -/
inductive CType where
  | VoidType
  | CharType (unsignedType : Bool)
  | ShortType (unsignedType : Bool)
  | IntType (unsignedType : Bool)
  | LongType (unsignedType : Bool)
  | UInt128
  | FloatType
  | DoubleType
  | LongDoubleType
  | PointerType (type : Option CType)
  | ArrayType (type : Option CType) (size : Nat)
  | StructType (name : Str)
  | UnnamedStructType (structString : Str)
  | FunctionType (retType : Option CType) (params : List (Option CType))

/-! ## Program state -/

/-- Class `Struct`: its name, the second constructor argument (`false` for every struct of
the module's list, `true` for a struct without a name), the fields in order and the
`isPrinted` flag. -/
structure Struct where
  name : Str
  ctorFlag : Bool
  items : List (Option CType × Str)
  isPrinted : Bool

/-- Modelled from the spec: `Struct::addItem` (expr/Expr.cpp is not among the sources).
The items of a struct are an ordered sequence of (type, field name) pairs in IR layout
order, so an added item goes to the end. -/
def Struct.addItem (s : Struct) (type : Option CType) (name : Str) : Struct :=
  { s with items := s.items ++ [(type, name)] }

/-- Class `GlobalValue`: name, initializer text, type, and the two flags the passes write:
`isStatic` (the `isStatic` member of the type object this global owns) and `init`. The
type is never null in a `GlobalValue` that `parseGlobalVars` got past. Both `init` here and
`isPrinted` of a `Struct` start unset (the constructors are in expr/Expr.cpp, which is not
among the sources; `unsetAllInit` clears both flags before every pass in any case). -/
structure GlobalValue where
  valueName : Str
  value : Str
  type : CType
  isStatic : Bool
  init : Bool

/-- Class `RefExpr` as the module uses it: a reference to a `GlobalValue` owned by
`Program::globalVars`, given by the position of that object in the vector. -/
structure RefExpr where
  expr : Nat

/-- The classes derived from `Expr`, as far as the sources construct them: `Value` (a named
C variable with its type and the `init` flag) and every other node class, which only the
block lowering of core/Block.cpp (not among the sources) makes. -/
inductive Expr where
  | Value (valueName : Str) (type : Option CType) (init : Bool)
  | other (node : Nat)

/-- Class `Block` (core/Block.h): the name, the address of the `llvm::BasicBlock` and the
sequence `expressions`. The containers that own the nodes made by the block lowering are
not modelled. -/
structure Block where
  blockName : Str
  block : Nat
  expressions : List Expr

/-- An `llvm::Argument` of a function: its address (the key of `exprMap`) and its type. -/
structure Argument where
  addr : Nat
  type : LType

/-- An `llvm::BasicBlock` of a function, known by its address (the key of `blockMap`). -/
structure BasicBlock where
  addr : Nat

/-- An `llvm::Function` of the module. The name is empty when `hasName()` is false. -/
structure LFunction where
  name : Str
  isDeclaration : Bool
  hasInternalLinkage : Bool
  returnType : LType
  args : List Argument
  blocks : List BasicBlock

/-- Class `Func`: the members that Func.cpp reads and writes, and the third constructor
argument with which `Program::parseFunctions` makes it. -/
structure Func where
  function : LFunction
  isDeclaration : Bool
  returnType : Option CType
  varCount : Nat
  blockCount : Nat
  exprMap : List (Nat × Expr)
  blockMap : List (Nat × Block)

/-- Class `TypeHandler`: the cache of the types made for structs without a name. -/
structure TypeHandler where
  unnamedStructs : List (Nat × Str)

/-- The members of `Program` that the passes below read or write. -/
structure Program where
  typeHandler : TypeHandler
  structVarCount : Nat
  gvarCount : Nat
  hasVarArg : Bool
  stackIgnored : Bool
  structs : List Struct
  unnamedStructs : List (Nat × Struct)
  globalVars : List GlobalValue
  globalRefs : List (Nat × RefExpr)
  functions : List Func
  declarations : List Func

/-- What the sources leave to code outside them: the text `Struct::toString` gives for a
struct (expr/Expr.cpp), and the order in which the compiler evaluates the two arguments of
`addItem(getType(type), getStructVarName())`, which C++ does not fix. -/
structure Env where
  structToString : Struct → Str
  nameFirst : Bool

/-- Modelled from the spec: the default of the `voidType` parameter of `Program::getType`
(declared in Program.h, which is not among the sources). The void mode is used only for
the declared return type of a function body, so every other call leaves it unset. -/
def voidTypeDefault : Bool := false

/-- Method `Program::getStructVarName`: "structVar" followed by the counter in decimal;
the counter is incremented. -/
def getStructVarName (p : Program) : Str × Program :=
  ("structVar".toList ++ Nat.toDigits 10 p.structVarCount,
    { p with structVarCount := p.structVarCount + 1 })

/-- Method `TypeHandler::createNewUnnamedStructType`: caches the text of a struct without
a name, unless the struct has an entry already. -/
def createNewUnnamedStructType (th : TypeHandler) (structPointer : Nat) (structString : Str) :
    TypeHandler :=
  if (mapFind structPointer th.unnamedStructs).isNone then
    { unnamedStructs := mapSet structPointer structString th.unnamedStructs }
  else th

/-- The loop `for (i = 0; i < n; i++) functionType->addParam(lower())`, where `lower` is
a call of `getType` in the current state. -/
def addParams (lower : Program → Option CType × Program) :
    Nat → List (Option CType) → Program → List (Option CType) × Program
  | 0, acc, p => (acc, p)
  | n + 1, acc, p =>
      let r := lower p
      addParams lower n (acc ++ [r.1]) r.2

mutual
/-- Method `TypeHandler::getType` (with `Program::getType`, which only forwards to it).
The result is `none` for a null pointer. -/
def getType (env : Env) : LType → Bool → Program → Option CType × Program
  | .array elementType numElements, voidType, p =>
      let r := getType env elementType voidType p
      (some (.ArrayType r.1 numElements), r.2)
  | .void, _, p => (some .VoidType, p)
  | .integer bitWidth, voidType, p =>
      if bitWidth = 1 then (some (.IntType false), p)
      else if bitWidth ≤ 8 then
        (if voidType then (some .VoidType, p) else (some (.CharType false), p))
      else if bitWidth ≤ 16 then (some (.ShortType false), p)
      else if bitWidth ≤ 32 then (some (.IntType false), p)
      else if bitWidth ≤ 64 then (some (.LongType false), p)
      else (some .UInt128, p)
  | .float, _, p => (some .FloatType, p)
  | .double, _, p => (some .DoubleType, p)
  | .x86_fp80, _, p => (some .LongDoubleType, p)
  | .pointer elementType, voidType, p =>
      let r := getType env elementType voidType p
      (some (.PointerType r.1), r.2)
  | .unnamedStruct addr elements, _, p =>
      -- program->createNewUnnamedStruct(structType), when the struct is not registered yet
      let p1 :=
        if (mapFind addr p.unnamedStructs).isNone then
          if (mapFind addr p.unnamedStructs).isSome then p
          else
            let r := addItems env elements { name := [], ctorFlag := true, items := [],
                                             isPrinted := false } p
            { r.2 with unnamedStructs := mapSet addr r.1 r.2.unnamedStructs }
        else p
      -- createNewUnnamedStructType(structType, program->unnamedStructs[structType]->toString())
      let structString :=
        match mapFind addr p1.unnamedStructs with
        | some s => env.structToString s
        | none => []
      let th := createNewUnnamedStructType p1.typeHandler addr structString
      -- unnamedStructs[structType]->clone()
      ((mapFind addr th.unnamedStructs).map CType.UnnamedStructType,
        { p1 with typeHandler := th })
  | .namedStruct name, _, p =>
      if name = "struct.__va_list_tag".toList then (some (.StructType "__va_list_tag".toList), p)
      else if name.take 6 = "struct".toList then (some (.StructType (name.drop 7)), p)
      else (some (.StructType (name.drop 6)), p)
  | .function returnType params, voidType, p =>
      let r := getType env returnType voidType p
      match params with
      | [] => (some (.FunctionType r.1 [some .VoidType]), r.2)
      | param0 :: rest =>
          let q := addParams (getType env param0 voidType) (rest.length + 1) [] r.2
          (some (.FunctionType r.1 q.1), q.2)
  | .other, _, p => (none, p)
/-- The loop `for (type : elements) structExpr->addItem(getType(type), getStructVarName())`
that `Program::parseStructs` and `Program::createNewUnnamedStruct` both run. -/
def addItems (env : Env) : List LType → Struct → Program → Struct × Program
  | [], s, p => (s, p)
  | type :: rest, s, p =>
      if env.nameFirst then
        let n := getStructVarName p
        let r := getType env type voidTypeDefault n.2
        addItems env rest (s.addItem r.1 n.1) r.2
      else
        let r := getType env type voidTypeDefault p
        let n := getStructVarName r.2
        addItems env rest (s.addItem r.1 n.1) n.2
end

/-- Method `Program::createNewUnnamedStruct`, for a struct type without a name (for any
other type the method is never called; it leaves the program as it is). -/
def createNewUnnamedStruct (env : Env) (strct : LType) (p : Program) : Program :=
  match strct with
  | .unnamedStruct addr elements =>
      if (mapFind addr p.unnamedStructs).isSome then p
      else
        let r := addItems env elements { name := [], ctorFlag := true, items := [],
                                         isPrinted := false } p
        { r.2 with unnamedStructs := mapSet addr r.1 r.2.unnamedStructs }
  | _ => p

/-! ## Binary promotion -/

/-- The test `dynamic_cast<const LongDoubleType*>(t)`. -/
def isLongDoubleType : Option CType → Bool
  | some .LongDoubleType => true
  | _ => false

/-- The test `dynamic_cast<const DoubleType*>(t)`. -/
def isDoubleType : Option CType → Bool
  | some .DoubleType => true
  | _ => false

/-- The test `dynamic_cast<const FloatType*>(t)`. -/
def isFloatType : Option CType → Bool
  | some .FloatType => true
  | _ => false

/-- The test `dynamic_cast<const UInt128*>(t)`. -/
def isUInt128 : Option CType → Bool
  | some .UInt128 => true
  | _ => false

/-- The cast `dynamic_cast<const LongType*>(t)`; on success, the `unsignedType` member. -/
def asLongType : Option CType → Option Bool
  | some (.LongType u) => some u
  | _ => none

/-- The cast `dynamic_cast<const IntType*>(t)`; on success, the `unsignedType` member. -/
def asIntType : Option CType → Option Bool
  | some (.IntType u) => some u
  | _ => none

/-- The cast `dynamic_cast<const ShortType*>(t)`; on success, the `unsignedType` member. -/
def asShortType : Option CType → Option Bool
  | some (.ShortType u) => some u
  | _ => none

/-- The cast `dynamic_cast<const CharType*>(t)`; on success, the `unsignedType` member. -/
def asCharType : Option CType → Option Bool
  | some (.CharType u) => some u
  | _ => none

/-- Method `TypeHandler::getBinaryType`. The operands are pointers (`none` is a null
pointer, on which every `dynamic_cast` fails); the result is `none` for `nullptr`. -/
def getBinaryType (left right : Option CType) : Option CType :=
  if isLongDoubleType left then some .LongDoubleType
  else if isLongDoubleType right then some .LongDoubleType
  else if isDoubleType left then some .DoubleType
  else if isDoubleType right then some .DoubleType
  else if isFloatType left then some .FloatType
  else if isFloatType right then some .FloatType
  else if isUInt128 left then some .UInt128
  else if isUInt128 right then some .UInt128
  else if let some u := asLongType left then some (.LongType u)
  else if let some u := asLongType right then some (.LongType u)
  else if let some u := asIntType left then some (.IntType u)
  else if let some u := asIntType right then some (.IntType u)
  else if let some u := asShortType left then some (.ShortType u)
  else if let some u := asShortType right then some (.ShortType u)
  else if let some u := asCharType left then some (.CharType u)
  else if let some u := asCharType right then some (.CharType u)
  else none

/-! ## Constants and their text -/

/-- An `llvm::Constant`, as far as `Program::getValue` inspects it: its class, and for
each class what the method reads. `ConstantInt` carries what `getSExtValue()` returns,
`ConstantFP` the text `std::to_string(getValueAPF().convertToFloat())`. A
`GlobalVariable` has pointer type (to `valueType`) and its initializer, if any, as
operand 0. `other` is a constant of any other class (a `Function`, a `ConstantExpr`, a
`ConstantArray`, `undef`, ...). Constants that refer to one another in a cycle are
unfolded as deep as `getValue` reads them. -/
inductive Constant where
  | ConstantPointerNull (pointee : LType)
  | ConstantInt (sExtValue : Int)
  | ConstantFP (floatText : Str)
  | ConstantDataArray (elements : List Constant)
  | ConstantStruct (operands : List Constant)
  | GlobalVariable (valueType : LType) (name : Str) (initializer : Option Constant)
  | other (type : LType) (name : Str) (operands : List Constant)

/-- The algorithm `std::replace(s.begin(), s.end(), oldc, newc)`. -/
def replace (s : Str) (oldc newc : Char) : Str :=
  s.map (fun c => if c = oldc then newc else c)

/-- The function `std::to_string` on a signed integer: decimal digits, with a leading
minus sign for a negative number. -/
def intToString (v : Int) : Str :=
  if v < 0 then '-' :: Nat.toDigits 10 v.natAbs else Nat.toDigits 10 v.natAbs

/-- The branch of `Program::getValue` for a constant of pointer type: `isNull` says
whether it is a `ConstantPointerNull`, `elementType` is the pointee, `name` the name of
the constant and `operand0` its first operand (`none` when it has no operands, in which
case `val->getOperand(0)` reads out of range). -/
def getPointerValue (isNull : Bool) (elementType : LType) (name : Str)
    (operand0 : Option Constant) : Option Str :=
  if isNull then some "0".toList
  else
    match elementType with
    | .function _ _ => some ("&".toList ++ name)
    | .namedStruct _ => some ("&".toList ++ name)
    | .unnamedStruct _ _ => some ("&".toList ++ name)
    | _ =>
      match operand0 with
      | none => none
      | some (.GlobalVariable _ gvName _) => some (replace gvName '.' '_')
      | some _ => some ("&".toList ++ name)

mutual
/-- Method `Program::getValue`. The result is `none` when the method reads an operand
that does not exist. -/
def getValue : Constant → Option Str
  | .ConstantPointerNull pointee => getPointerValue true pointee [] none
  | .GlobalVariable valueType name initializer =>
      getPointerValue false valueType name initializer
  | .other type name operands =>
      match type with
      | .pointer elementType => getPointerValue false elementType name operands.head?
      | _ => some []
  | .ConstantInt sExtValue => some (intToString sExtValue)
  | .ConstantFP floatText => some floatText
  | .ConstantDataArray elements =>
      (getValueList elements true "\x7b".toList).map (fun value => value ++ "\x7d".toList)
  | .ConstantStruct operands =>
      (getValueList operands true "\x7b".toList).map (fun value => value ++ "\x7d".toList)
/-- The loop of `Program::getValue` over the elements of an aggregate: `first` and
`value` are the local variables of that name. -/
def getValueList : List Constant → Bool → Str → Option Str
  | [], _, value => some value
  | c :: rest, first, value =>
      match getValue c with
      | none => none
      | some text =>
          getValueList rest false ((if first then value else value ++ ", ".toList) ++ text)
end

/-! ## The module and its passes -/

/-- An `llvm::GlobalVariable` of the module: its address (the key of `globalRefs`), name,
linkage, initializer and value type (`getType()` is the pointer to it). -/
structure GlobalVariable where
  addr : Nat
  name : Str
  hasPrivateLinkage : Bool
  initializer : Option Constant
  valueType : LType

/-- An entry of `module->getIdentifiedStructTypes()`: a named struct type and its elements. -/
structure StructDef where
  name : Str
  elements : List LType

/-- The state the constructor `Program::Program` sets before it calls `parseProgram`. -/
def Program.init : Program :=
  { typeHandler := { unnamedStructs := [] }
    structVarCount := 0
    gvarCount := 0
    hasVarArg := false
    stackIgnored := false
    structs := []
    unnamedStructs := []
    globalVars := []
    globalRefs := []
    functions := []
    declarations := [] }

/-- The body of the loop of `Program::parseGlobalVars`, for one global variable (the
`dyn_cast<llvm::Function>` test at its head never succeeds on a global variable). The
result is `none` when `getValue` reads a missing operand, or when `getType` returned a null
pointer, which the statement `globalVars.at(...)->getType()->isStatic = isPrivate` then
dereferences. -/
def parseGlobalVar (env : Env) (gvar : GlobalVariable) (p : Program) : Option Program :=
  let isPrivate := gvar.hasPrivateLinkage
  let gvarName := replace gvar.name '.' '_'
  let value : Option Str :=
    match gvar.initializer with
    | some c => getValue c
    | none => some []
  match value with
  | none => none
  | some value =>
      let r := getType env gvar.valueType voidTypeDefault p
      match r.1 with
      | none => none
      | some type =>
          let globalVars := r.2.globalVars ++
            [{ valueName := gvarName, value := value, type := type,
               isStatic := isPrivate, init := false }]
          some { r.2 with
                 globalVars := globalVars
                 globalRefs :=
                   mapSet gvar.addr { expr := globalVars.length - 1 } r.2.globalRefs }

/-- Method `Program::parseGlobalVars`, over `module->globals()`. -/
def parseGlobalVars (env : Env) : List GlobalVariable → Program → Option Program
  | [], p => some p
  | gvar :: rest, p =>
      match parseGlobalVar env gvar p with
      | none => none
      | some p1 => parseGlobalVars env rest p1

/-- The struct that `Program::parseStructs` registers for `struct.__va_list_tag`. -/
def vaListTagStruct : Struct :=
  ((({ name := "__va_list_tag".toList, ctorFlag := false, items := [], isPrinted := false }
      : Struct).addItem (some (.IntType true)) "gp_offset".toList
    |>.addItem (some (.IntType true)) "fp_offset".toList)
    |>.addItem (some (.PointerType (some .VoidType))) "overflow_arg_area".toList)
    |>.addItem (some (.PointerType (some .VoidType))) "reg_save_area".toList

/-- The name `Program::parseStructs` (and `Program::getStruct`) computes from the IR name
of a struct type. -/
def structCName (irName : Str) : Str :=
  if irName.take 6 = "struct".toList then "s_".toList ++ irName.drop 7
  else "u_".toList ++ irName.drop 6

/-- Method `Program::parseStructs`, over `module->getIdentifiedStructTypes()`. -/
def parseStructs (env : Env) : List StructDef → Program → Program
  | [], p => p
  | structType :: rest, p =>
      let structName := structCName structType.name
      if structName = "s___va_list_tag".toList then
        parseStructs env rest
          { p with hasVarArg := true, structs := p.structs ++ [vaListTagStruct] }
      else
        let r := addItems env structType.elements
          { name := structName, ctorFlag := false, items := [], isPrinted := false } p
        parseStructs env rest { r.2 with structs := r.2.structs ++ [r.1] }

/-- What `Func` and the printing passes call in code outside the sources:
`typeGetType` and `typeGetTypeArray` are the static `Type::getType(type)` and
`Type::getType(type, true, size)` that Func.cpp calls; `parseLLVMBlock` is
`Block::parseLLVMBlock`, given the `Func` and the address of the block, as far as it acts
on the `Func`, and `parseLLVMBlockProgram` is the same call as far as it acts on the
`Program` that the `Func` got from its constructor (the lowering of a call can append to
`declarations` through `Program::addDeclaration`); `typePrint`, `exprPrint`, `structPrint` are the texts that `Type::print`,
`Expr::print` and `Struct::print` write and `blockText` the text a block writes;
`declToString` and `toString` are the methods of `GlobalValue`; `structArrayName` gives
the member `structName` of an `ArrayType(type, size)` whose member `isStructArray` is set,
and `structArrayPointerName` the member `structName` of a `PointerType(type)` whose members
`isStructPointer` and `isArrayPointer` are both set (members that Type/Type.cpp sets). -/
structure Ext where
  typeGetType : LType → Option CType
  typeGetTypeArray : LType → Nat → Option CType
  parseLLVMBlock : Func → Nat → Func
  parseLLVMBlockProgram : Func → Nat → Program → Program
  typePrint : CType → Str
  exprPrint : Expr → Str
  blockText : Block → Str
  structPrint : Struct → Str
  declToString : GlobalValue → Str
  toString : GlobalValue → Str
  structArrayName : Option CType → Nat → Option Str
  structArrayPointerName : Option CType → Option Str

/-- A change made through a pointer to the object stored under `k`: the entry is replaced
where it stands. -/
def mapModify {β : Type} (k : Nat) (g : β → β) (m : List (Nat × β)) : List (Nat × β) :=
  m.map (fun e => if e.1 = k then (e.1, g e.2) else e)

/-- Method `Func::getBlockName`. -/
def Func.getBlockName (f : Func) (block : Nat) : Str × Func :=
  match mapFind block f.blockMap with
  | none =>
      let blockName := "block".toList ++ Nat.toDigits 10 f.blockCount
      (blockName,
        { f with
          blockMap := mapSet block
            { blockName := blockName, block := block, expressions := [] } f.blockMap
          blockCount := f.blockCount + 1 })
  | some b => (b.blockName, f)

/-- Method `Func::getExpr`: the node and the `Func` after the call. -/
def Func.getExpr (f : Func) (val : Nat) : Option Expr × Func :=
  match mapFind val f.exprMap with
  | some expr => (some expr, f)
  | none => (none, f)

/-- Method `Func::createExpr` (both overloads; the second only forwards to the first).
The node handed over is an object, as `std::make_unique` gives. -/
def Func.createExpr (f : Func) (val : Nat) (expr : Expr) : Func :=
  { f with exprMap := mapSet val expr f.exprMap }

/-- Method `Func::getVarName`. -/
def Func.getVarName (f : Func) : Str × Func :=
  ("var".toList ++ Nat.toDigits 10 f.varCount, { f with varCount := f.varCount + 1 })

/-- The first loop of `Func::parseFunction`: a `Value` for every argument. -/
def Func.parseArgs (ext : Ext) : List Argument → Func → Func
  | [], f => f
  | arg :: rest, f =>
      let varName := "var".toList ++ Nat.toDigits 10 f.varCount
      Func.parseArgs ext rest
        { f with
          exprMap := mapSet arg.addr (.Value varName (ext.typeGetType arg.type) false) f.exprMap
          varCount := f.varCount + 1 }

/-- The second loop of `Func::parseFunction`: every block is named and lowered. -/
def Func.parseBlocks (ext : Ext) : List BasicBlock → Func → Func
  | [], f => f
  | block :: rest, f =>
      Func.parseBlocks ext rest (ext.parseLLVMBlock (f.getBlockName block.addr).2 block.addr)

/-- Method `Func::parseFunction`. -/
def Func.parseFunction (ext : Ext) (f : Func) : Func :=
  Func.parseBlocks ext f.function.blocks (Func.parseArgs ext f.function.args f)

/-- The constructor `Func::Func` of Func.cpp; `isDeclaration` is the third argument of the
calls in Program.cpp, which the constructor of Func.cpp does not have yet. -/
def Func.new (ext : Ext) (func : LFunction) (isDeclaration : Bool) : Func :=
  Func.parseFunction ext
    { function := func
      isDeclaration := isDeclaration
      returnType :=
        match func.returnType with
        | .array _ size => ext.typeGetTypeArray func.returnType size
        | _ => ext.typeGetType func.returnType
      varCount := 0
      blockCount := 0
      exprMap := []
      blockMap := [] }

/-- The second loop of `Func::parseFunction`, as far as it acts on the `Program` whose
pointer the `Func` holds: the lowering of every block in turn. -/
def Func.parseBlocksProgram (ext : Ext) : List BasicBlock → Func → Program → Program
  | [], _, p => p
  | block :: rest, f, p =>
      Func.parseBlocksProgram ext rest
        (ext.parseLLVMBlock (f.getBlockName block.addr).2 block.addr)
        (ext.parseLLVMBlockProgram (f.getBlockName block.addr).2 block.addr p)

/-- The constructor `Func::Func`, as far as it acts on the `Program` handed to it: the
program after the constructor has run (`Func.new` is the object it makes). -/
def Func.newProgram (ext : Ext) (func : LFunction) (isDeclaration : Bool) (p : Program) :
    Program :=
  Func.parseBlocksProgram ext func.blocks
    (Func.parseArgs ext func.args
      { function := func
        isDeclaration := isDeclaration
        returnType :=
          match func.returnType with
          | .array _ size => ext.typeGetTypeArray func.returnType size
          | _ => ext.typeGetType func.returnType
        varCount := 0
        blockCount := 0
        exprMap := []
        blockMap := [] }) p

/-- The statement `list.push_back(std::make_unique<Func>(&func, this, isDeclaration))` for
the list `functions`: the constructor runs first, on the program as it is, and the object
is appended to the list as the constructor left it. -/
def pushFunction (ext : Ext) (func : LFunction) (p : Program) : Program :=
  let q := Func.newProgram ext func false p
  { q with functions := q.functions ++ [Func.new ext func false] }

/-- Method `Program::addDeclaration`: the same statement for the list `declarations`. -/
def addDeclaration (ext : Ext) (p : Program) (func : LFunction) : Program :=
  let q := Func.newProgram ext func true p
  { q with declarations := q.declarations ++ [Func.new ext func true] }

/-- The body of the loop of `Program::parseFunctions`, for one function. The statement
that appends to `declarations` is the statement of `Program::addDeclaration`. -/
def parseFunctionsBody (ext : Ext) (func : LFunction) (p : Program) : Program :=
  if func.name ≠ [] then
    let p1 := if !func.isDeclaration then pushFunction ext func p else p
    if func.isDeclaration || func.hasInternalLinkage then
      if func.name.take 8 ≠ "llvm.dbg".toList then addDeclaration ext p1 func
      else p1
    else p1
  else p

/-- Method `Program::parseFunctions`, over `module->functions()`. -/
def parseFunctions (ext : Ext) : List LFunction → Program → Program
  | [], p => p
  | func :: rest, p => parseFunctions ext rest (parseFunctionsBody ext func p)

/-! ## Printing -/

/-- Modelled from the spec: `Block::unsetAllInit`, declared in core/Block.h with the words
"Unsets the init flag in every Value in abstractSyntaxTree. Used for repeated calling of
print or saveFile"; its body is in core/Block.cpp, which is not among the sources. -/
def Block.unsetAllInit (b : Block) : Block :=
  { b with
    expressions := b.expressions.map (fun e =>
      match e with
      | .Value valueName type _ => .Value valueName type false
      | e => e) }

/-- Modelled from the spec: `Block::print` (core/Block.cpp is not among the sources). The
`init` flag of a `Value` marks that its declaration has been emitted in the current pass,
and the flags are cleared before each pass so that a module can be emitted more than once:
the block clears the flags of its values, writes its text, and leaves its values marked
as declared. -/
def Block.print (ext : Ext) (b : Block) : Str × Block :=
  (ext.blockText b.unsetAllInit,
    { b with
      expressions := b.expressions.map (fun e =>
        match e with
        | .Value valueName type _ => .Value valueName type true
        | e => e) })

/-- The loop of `Func::print` over the arguments; `first` is the local variable of that
name. The result is `none` when an argument has no entry in `exprMap`. -/
def Func.printArgs (ext : Ext) (f : Func) : List Argument → Bool → Option Str
  | [], _ => some []
  | arg :: rest, first =>
      match mapFind arg.addr f.exprMap with
      | none => none
      | some expr =>
          match Func.printArgs ext f rest false with
          | none => none
          | some text =>
              some ((if first then [] else ", ".toList) ++ ext.exprPrint expr ++ text)

/-- The loop of `Func::print` over the blocks, acting on the member `blockMap`; `first`
is the local variable of that name. The result is `none` when a block has no entry in
`blockMap`. -/
def Func.printBlocks (ext : Ext) :
    List BasicBlock → Bool → List (Nat × Block) → Option (Str × List (Nat × Block))
  | [], _, blockMap => some ([], blockMap)
  | block :: rest, first, blockMap =>
      match mapFind block.addr blockMap with
      | none => none
      | some b =>
          let label := if first then [] else b.blockName ++ ":\n".toList
          match Func.printBlocks ext rest false
              (mapModify block.addr (fun blk => (Block.print ext blk).2) blockMap) with
          | none => none
          | some (text, blockMap1) => some (label ++ (Block.print ext b).1 ++ text, blockMap1)

/-- Method `Func::print`: the text written and the `Func` after the call. The result is
`none` when `returnType` is null or an argument or block has no entry in its map. -/
def Func.print (ext : Ext) (f : Func) : Option (Str × Func) :=
  match f.returnType with
  | none => none
  | some returnType =>
      match Func.printArgs ext f f.function.args true with
      | none => none
      | some args =>
          match Func.printBlocks ext f.function.blocks true f.blockMap with
          | none => none
          | some (blocks, blockMap1) =>
              some (ext.typePrint returnType ++ " ".toList ++ f.function.name ++ "(".toList
                ++ args ++ ") \x7b\n".toList ++ blocks ++ "\x7d\n\n".toList,
                { f with blockMap := blockMap1 })

/-- Method `Program::unsetAllInit`. -/
def Program.unsetAllInit (p : Program) : Program :=
  { p with
    globalVars := p.globalVars.map (fun gvar => { gvar with init := false })
    structs := p.structs.map (fun strct => { strct with isPrinted := false }) }

/-- The loop of `Program::getStruct(const std::string&)`, from position `i` on. -/
def getStructFrom (name : Str) : List Struct → Nat → Option (Option Nat)
  | [], _ => none
  | structElem :: rest, i =>
      if structElem.name = name then some (some i) else getStructFrom name rest (i + 1)

/-- Method `Program::getStruct(const std::string&)`. A pointer to a struct of the list is
its position, `some none` would be a null pointer, and the result is `none` when control
reaches the end of the function, which has no return statement there. -/
def Program.getStruct (p : Program) (name : Str) : Option (Option Nat) :=
  getStructFrom name p.structs 0

/-- The call `printStruct(getStruct(structName))`, on the member `structs`; `rec` is
`printStruct`. -/
def printStructOf (rec : Nat → List Struct → Option (Str × List Struct)) (structName : Str)
    (structs : List Struct) : Option (Str × List Struct) :=
  match getStructFrom structName structs 0 with
  | some (some i) => rec i structs
  | _ => none

/-- The loop `for (auto& s : structs) if (s->name == ST->name) ...` of
`Program::printStruct`, over the positions and names of the list; `rec` is `printStruct`. -/
def printStructsNamed (rec : Nat → List Struct → Option (Str × List Struct)) (name : Str) :
    List (Nat × Str) → List Struct → Option (Str × List Struct)
  | [], structs => some ([], structs)
  | (j, sName) :: rest, structs =>
      if sName = name then
        match rec j structs with
        | none => none
        | some (t1, structs1) =>
            match printStructsNamed rec name rest structs1 with
            | none => none
            | some (t2, structs2) => some (t1 ++ "\n".toList ++ t2, structs2)
      else printStructsNamed rec name rest structs

/-- The body of the loop of `Program::printStruct` over the items, for one item. -/
def printStructItem (ext : Ext) (rec : Nat → List Struct → Option (Str × List Struct))
    (item : Option CType × Str) (structs : List Struct) : Option (Str × List Struct) :=
  match item.1 with
  | some (.ArrayType type size) =>
      match ext.structArrayName type size with
      | some structName => printStructOf rec structName structs
      | none => some ([], structs)
  | some (.PointerType type) =>
      match ext.structArrayPointerName type with
      | some structName => printStructOf rec structName structs
      | none => some ([], structs)
  | some (.StructType name) =>
      printStructsNamed rec name (structs.enum.map (fun e => (e.1, e.2.name))) structs
  | _ => some ([], structs)

/-- The loop of `Program::printStruct` over the items. -/
def printStructItems (ext : Ext) (rec : Nat → List Struct → Option (Str × List Struct)) :
    List (Option CType × Str) → List Struct → Option (Str × List Struct)
  | [], structs => some ([], structs)
  | item :: rest, structs =>
      match printStructItem ext rec item structs with
      | none => none
      | some (t1, structs1) =>
          match printStructItems ext rec rest structs1 with
          | none => none
          | some (t2, structs2) => some (t1 ++ t2, structs2)

/-- Method `Program::printStruct`, on the struct at position `i` of the member `structs`:
the text written and the list after the call. The result is `none` when `getStruct` finds
no struct or the recursion goes deeper than `fuel`. -/
def Program.printStruct (ext : Ext) : Nat → Nat → List Struct → Option (Str × List Struct)
  | 0, _, _ => none
  | fuel + 1, i, structs =>
      match structs[i]? with
      | none => none
      | some strct =>
          match printStructItems ext (Program.printStruct ext fuel) strct.items structs with
          | none => none
          | some (t1, structs1) =>
              match structs1[i]? with
              | none => none
              | some cur =>
                  if !cur.isPrinted then
                    some (t1 ++ ext.structPrint cur ++ "\n".toList,
                      structs1.set i { cur with isPrinted := true })
                  else some (t1 ++ "\n".toList, structs1)

/-- The loop of `Program::print` that writes the struct definitions, over the positions
of the list. -/
def printStructDefs (ext : Ext) (fuel : Nat) :
    List Nat → List Struct → Option (Str × List Struct)
  | [], structs => some ([], structs)
  | i :: rest, structs =>
      match structs[i]? with
      | none => none
      | some strct =>
          if !strct.isPrinted then
            match Program.printStruct ext fuel i structs with
            | none => none
            | some (t1, structs1) =>
                match printStructDefs ext fuel rest structs1 with
                | none => none
                | some (t2, structs2) => some (t1 ++ t2, structs2)
          else printStructDefs ext fuel rest structs

/-- The loop of `Program::print` that writes the forward declarations of the structs. -/
def printStructDecls : List Struct → Str
  | [] => []
  | strct :: rest => "struct ".toList ++ strct.name ++ ";\n".toList ++ printStructDecls rest

/-- The struct part of `Program::print`, acting on the member `structs`: forward
declarations, then definitions. -/
def printStructSection (ext : Ext) (fuel : Nat) (structs : List Struct) :
    Option (Str × List Struct) :=
  if !structs.isEmpty then
    match printStructDefs ext fuel (List.range structs.length) structs with
    | none => none
    | some (defs, structs1) =>
        some ("//Struct declarations\n".toList ++ printStructDecls structs
          ++ "\n".toList ++ "//Struct definitions\n".toList ++ defs ++ "\n".toList, structs1)
  else some ([], structs)

/-- The loop of `Program::print` that writes the global declarations. -/
def printGlobalDecls (ext : Ext) : List GlobalValue → Str
  | [] => []
  | gvar :: rest => ext.declToString gvar ++ "\n".toList ++ printGlobalDecls ext rest

/-- The loop of `Program::print` that writes the global definitions and sets `init`. -/
def printGlobalDefs (ext : Ext) : List GlobalValue → Str × List GlobalValue
  | [] => ([], [])
  | gvar :: rest =>
      let r := printGlobalDefs ext rest
      (ext.toString gvar ++ "\n".toList ++ r.1, { gvar with init := true } :: r.2)

/-- The globals part of `Program::print`, acting on the member `globalVars`. -/
def printGlobalSection (ext : Ext) (globalVars : List GlobalValue) :
    Str × List GlobalValue :=
  if !globalVars.isEmpty then
    let r := printGlobalDefs ext globalVars
    ("//Global variable declarations\n".toList ++ printGlobalDecls ext globalVars
      ++ "\n".toList ++ "//Global variable definitions\n".toList ++ r.1 ++ "\n".toList, r.2)
  else ([], globalVars)

/-- The loop `for (const auto& func : list) func->print()`. -/
def printFuncs (ext : Ext) : List Func → Option (Str × List Func)
  | [] => some ([], [])
  | func :: rest =>
      match func.print ext with
      | none => none
      | some (t1, f1) =>
          match printFuncs ext rest with
          | none => none
          | some (t2, fs) => some (t1 ++ t2, f1 :: fs)

/-- The part of `Program::print` for the function declarations, acting on the member
`declarations`. -/
def printDeclSection (ext : Ext) (declarations : List Func) : Option (Str × List Func) :=
  if !declarations.isEmpty then
    match printFuncs ext declarations with
    | none => none
    | some (text, fs) => some ("//Function declarations\n".toList ++ text ++ "\n".toList, fs)
  else some ([], declarations)

/-- The part of `Program::print` for the function definitions, acting on the member
`functions`. -/
def printFuncSection (ext : Ext) (functions : List Func) : Option (Str × List Func) :=
  if !functions.isEmpty then
    match printFuncs ext functions with
    | none => none
    | some (text, fs) => some ("//Function definitions\n".toList ++ text, fs)
  else some ([], functions)

/-- Method `Program::print`: the text written to `llvm::outs()` and the program after the
call; `fuel` bounds the depth of the recursion of `printStruct`. -/
def Program.print (ext : Ext) (fuel : Nat) (p : Program) : Option (Str × Program) :=
  let p0 := p.unsetAllInit
  let incl := if p0.hasVarArg then "#include <stdarg.h>\n\n".toList else []
  match printStructSection ext fuel p0.structs with
  | none => none
  | some (structsText, structs1) =>
      let g := printGlobalSection ext p0.globalVars
      match printDeclSection ext p0.declarations with
      | none => none
      | some (declsText, declarations1) =>
          match printFuncSection ext p0.functions with
          | none => none
          | some (funcsText, functions1) =>
              some (incl ++ structsText ++ g.1 ++ declsText ++ funcsText,
                { p0 with
                  structs := structs1
                  globalVars := g.2
                  declarations := declarations1
                  functions := functions1 })

/-! ## Saving to a file -/

/-- What `Func::saveFile` calls in code outside the sources: `exprToString` is the text
`Expr::toString` returns and `blockFileText` the text a block writes to the file. -/
structure FileExt where
  exprToString : Expr → Str
  blockFileText : Block → Str

/-- Modelled from the spec: `Block::saveFile` (core/Block.cpp is not among the sources),
the counterpart of `Block::print` for a file: the block clears the flags of its values,
writes its text, and leaves its values marked as declared. -/
def Block.saveFile (fx : FileExt) (b : Block) : Str × Block :=
  (fx.blockFileText b.unsetAllInit,
    { b with
      expressions := b.expressions.map (fun e =>
        match e with
        | .Value valueName type _ => .Value valueName type true
        | e => e) })

/-- The loop of `Func::saveFile` over the arguments; `first` is the local variable of that
name. The result is `none` when an argument has no entry in `exprMap`. -/
def Func.saveArgs (fx : FileExt) (f : Func) : List Argument → Bool → Option Str
  | [], _ => some []
  | arg :: rest, first =>
      match mapFind arg.addr f.exprMap with
      | none => none
      | some expr =>
          match Func.saveArgs fx f rest false with
          | none => none
          | some text =>
              some ((if first then [] else ", ".toList) ++ fx.exprToString expr ++ text)

/-- The loop of `Func::saveFile` over the blocks, acting on the member `blockMap`. The
result is `none` when a block has no entry in `blockMap`. -/
def Func.saveBlocks (fx : FileExt) :
    List BasicBlock → Bool → List (Nat × Block) → Option (Str × List (Nat × Block))
  | [], _, blockMap => some ([], blockMap)
  | block :: rest, first, blockMap =>
      match mapFind block.addr blockMap with
      | none => none
      | some b =>
          let label := if first then [] else b.blockName ++ ":\n".toList
          match Func.saveBlocks fx rest false
              (mapModify block.addr (fun blk => (Block.saveFile fx blk).2) blockMap) with
          | none => none
          | some (text, blockMap1) =>
              some (label ++ (Block.saveFile fx b).1 ++ text, blockMap1)

/-- Method `Func::saveFile`: the text written to the file and the `Func` after the call.
The method does not touch `returnType`. -/
def Func.saveFile (fx : FileExt) (f : Func) : Option (Str × Func) :=
  match Func.saveArgs fx f f.function.args true with
  | none => none
  | some args =>
      match Func.saveBlocks fx f.function.blocks true f.blockMap with
      | none => none
      | some (blocks, blockMap1) =>
          some (f.function.name ++ "(".toList ++ args ++ ") \x7b\n".toList ++ blocks
            ++ "\x7d\n\n".toList, { f with blockMap := blockMap1 })

/-- The loop `for (const auto& func : list) func->saveFile(file)`. -/
def saveFuncs (fx : FileExt) : List Func → Option (Str × List Func)
  | [] => some ([], [])
  | func :: rest =>
      match func.saveFile fx with
      | none => none
      | some (t1, f1) =>
          match saveFuncs fx rest with
          | none => none
          | some (t2, fs) => some (t1 ++ t2, f1 :: fs)

/-- Method `Program::saveStruct`. Its body is the body of `Program::printStruct` line by
line, with `file << strct->toString()` where that one has `strct->print()` and the file as
the sink, so it is `printStruct` with the text of `Struct::toString` for the struct. -/
def Program.saveStruct (env : Env) (ext : Ext) :
    Nat → Nat → List Struct → Option (Str × List Struct) :=
  Program.printStruct { ext with structPrint := env.structToString }

/-- The struct part of `Program::saveFile`: the lines of the struct part of
`Program::print`, with `saveStruct` for `printStruct`. -/
def saveStructSection (env : Env) (ext : Ext) (fuel : Nat) (structs : List Struct) :
    Option (Str × List Struct) :=
  printStructSection { ext with structPrint := env.structToString } fuel structs

/-- The part of `Program::saveFile` for the function declarations. -/
def saveDeclSection (fx : FileExt) (declarations : List Func) : Option (Str × List Func) :=
  if !declarations.isEmpty then
    match saveFuncs fx declarations with
    | none => none
    | some (text, fs) => some ("//Function declarations\n".toList ++ text ++ "\n".toList, fs)
  else some ([], declarations)

/-- The part of `Program::saveFile` for the function definitions: the header is written
whether or not there is a function. -/
def saveFuncSection (fx : FileExt) (functions : List Func) : Option (Str × List Func) :=
  match saveFuncs fx functions with
  | none => none
  | some (text, fs) => some ("//Function definitions\n".toList ++ text, fs)

/-- Method `Program::saveFile`: the text written to the file and the program after the
call; `fuel` bounds the depth of the recursion of `saveStruct`. The globals are written
with the same two methods of `GlobalValue` that `Program::print` calls. -/
def Program.saveFile (env : Env) (ext : Ext) (fx : FileExt) (fuel : Nat) (p : Program) :
    Option (Str × Program) :=
  let p0 := p.unsetAllInit
  let incl := if p0.hasVarArg then "#include <stdarg.h>\n\n".toList else []
  match saveStructSection env ext fuel p0.structs with
  | none => none
  | some (structsText, structs1) =>
      let g := printGlobalSection ext p0.globalVars
      match saveDeclSection fx p0.declarations with
      | none => none
      | some (declsText, declarations1) =>
          match saveFuncSection fx p0.functions with
          | none => none
          | some (funcsText, functions1) =>
              some (incl ++ structsText ++ g.1 ++ declsText ++ funcsText,
                { p0 with
                  structs := structs1
                  globalVars := g.2
                  declarations := declarations1
                  functions := functions1 })

/-! ## Lookup of a struct by its IR type -/

/-- A `Struct*` that `Program::getStruct(const llvm::StructType*)` returns: a struct of
the list `structs` (by position), a struct of the map `unnamedStructs` (by key), or
`nullptr`. -/
inductive StructPtr where
  | listed (index : Nat)
  | unnamed (addr : Nat)
  | null
  deriving DecidableEq

/-- The loop of `Program::getStruct(const llvm::StructType*)` over `structs`, from
position `i` on: the position of the first struct of the given name. -/
def findStructFrom (structName : Str) : List Struct → Nat → Option Nat
  | [], _ => none
  | structElem :: rest, i =>
      if structElem.name = structName then some i else findStructFrom structName rest (i + 1)

/-- Method `Program::getStruct(const llvm::StructType*)`, for the struct type of the given
name (empty for a struct without a name) and address. -/
def Program.getStructOfType (p : Program) (name : Str) (addr : Nat) : StructPtr :=
  let structName := structCName name
  match findStructFrom structName p.structs 0 with
  | some i => .listed i
  | none =>
      if (mapFind addr p.unnamedStructs).isSome then .unnamed addr
      else .null

/-! ## The file name -/

/-- The value `std::string::npos`, for a 64-bit `size_t`. -/
def npos : Nat := 2 ^ 64 - 1

/-- The loop behind `std::string::find_last_of`: the last position, counted from `i` for
the head of the list, of a character that is among `chars`. -/
def findLastFrom (chars : List Char) : Str → Nat → Option Nat
  | [], _ => none
  | c :: rest, i =>
      match findLastFrom chars rest (i + 1) with
      | some j => some j
      | none => if c ∈ chars then some i else none

/-- The call `s.find_last_of(chars)`: the last position of a character of `chars` in `s`,
or `npos`. -/
def findLastOf (chars : List Char) (s : Str) : Nat :=
  match findLastFrom chars s 0 with
  | some j => j
  | none => npos

/-- The call `s.erase(pos, len)`: removes `min(len, size - pos)` characters from position
`pos` on; `none` when `pos > size`, where the call throws `std::out_of_range`. -/
def erase (s : Str) (pos len : Nat) : Option Str :=
  if pos > s.length then none
  else some (s.take pos ++ s.drop (pos + min len (s.length - pos)))

/-- The computation of the member `fileName` at the head of the constructor
`Program::Program`. The local `idx` is an `unsigned`, 32 bits wide: it takes the result of
`find_last_of` modulo `2^32`, and `idx + 1` is computed modulo `2^32`. The result is `none`
when an `erase` throws. -/
def Program.fileNameOf (file : Str) : Option Str :=
  let idx := findLastOf ['\\', '/'] file % 2 ^ 32
  match erase file 0 ((idx + 1) % 2 ^ 32) with
  | none => none
  | some fileName =>
      let idx := findLastOf ['\\', '.'] fileName % 2 ^ 32
      erase fileName idx fileName.length

/-! ## Notions used to state the properties -/

/-- The rank of a C type on the promotion ladder
LongDouble > Double > Float > UInt128 > Long > Int > Short > Char;
`0` for a type that is not on the ladder. -/
def ladderRank : CType → Nat
  | .LongDoubleType => 8
  | .DoubleType => 7
  | .FloatType => 6
  | .UInt128 => 5
  | .LongType _ => 4
  | .IntType _ => 3
  | .ShortType _ => 2
  | .CharType _ => 1
  | _ => 0

/-- The same type with its `unsignedType` flag set to `u` (the type itself when it has no
such flag). -/
def CType.withUnsigned (u : Bool) : CType → CType
  | .LongType _ => .LongType u
  | .IntType _ => .IntType u
  | .ShortType _ => .ShortType u
  | .CharType _ => .CharType u
  | t => t

/-- An environment to evaluate examples in. -/
def exampleEnv : Env :=
  { structToString := fun s => "struct ".toList ++ s.name, nameFirst := false }

/-- The members of `Program` that type lowering never writes are the same in two states. -/
def Program.sameModule (p p' : Program) : Prop :=
  p'.structs = p.structs ∧ p'.hasVarArg = p.hasVarArg ∧
    p'.globalVars = p.globalVars ∧ p'.globalRefs = p.globalRefs

/-- Two global variables to evaluate examples on: the private string constant `@.str.1`
and the plain `@counter = global i32 -42`. -/
def exampleGlobals : List GlobalVariable :=
  [{ addr := 10, name := ".str.1".toList, hasPrivateLinkage := true,
     initializer := some (.ConstantDataArray [.ConstantInt 104, .ConstantInt 105, .ConstantInt 0]),
     valueType := .array (.integer 8) 3 },
   { addr := 20, name := "counter".toList, hasPrivateLinkage := false,
     initializer := some (.ConstantInt (-42)), valueType := .integer 32 }]

/-- The program state after `parseGlobalVars` has run on `exampleGlobals`. -/
def exampleAfterGlobals : Program :=
  { Program.init with
    globalVars :=
      [{ valueName := "_str_1".toList, value := "\x7b104, 105, 0\x7d".toList,
         type := .ArrayType (some (.CharType false)) 3, isStatic := true, init := false },
       { valueName := "counter".toList, value := "-42".toList,
         type := .IntType false, isStatic := false, init := false }]
    globalRefs := [(20, { expr := 1 }), (10, { expr := 0 })] }

/-- The struct type `%struct.point = type { i32, i32 }`. -/
def examplePoint : StructDef :=
  { name := "struct.point".toList, elements := [.integer 32, .integer 32] }

/-- An instance of the outside code to evaluate examples in. -/
def exampleExt : Ext :=
  { typeGetType := fun t => (getType exampleEnv t false Program.init).1
    typeGetTypeArray := fun t _ => (getType exampleEnv t false Program.init).1
    parseLLVMBlock := fun f _ => f
    parseLLVMBlockProgram := fun _ _ p => p
    typePrint := fun _ => "int".toList
    exprPrint := fun e =>
      match e with
      | .Value valueName _ _ => "int ".toList ++ valueName
      | .other _ => "expr".toList
    blockText := fun b => "    goto ".toList ++ b.blockName ++ ";\n".toList
    structPrint := fun s => "struct ".toList ++ s.name ++ " \x7b\x7d;".toList
    declToString := fun g => g.valueName ++ ";".toList
    toString := fun g => g.valueName ++ " = ".toList ++ g.value ++ ";".toList
    structArrayName := fun t _ =>
      match t with
      | some (.StructType name) => some name
      | _ => none
    structArrayPointerName := fun t =>
      match t with
      | some (.ArrayType (some (.StructType name)) _) => some name
      | _ => none }

/-- The struct types `%struct.outer = type { %struct.inner }` and
`%struct.inner = type { i32 }`, in the order in which the module lists them. -/
def exampleNested : List StructDef :=
  [{ name := "struct.outer".toList, elements := [.namedStruct "struct.inner".toList] },
   { name := "struct.inner".toList, elements := [.integer 32] }]

/-- The function `define i32 @add(i32, i32)` with three basic blocks. -/
def exampleFunc : LFunction :=
  { name := "add".toList, isDeclaration := false, hasInternalLinkage := false,
    returnType := .integer 32,
    args := [{ addr := 1, type := .integer 32 }, { addr := 2, type := .integer 32 }],
    blocks := [{ addr := 100 }, { addr := 101 }, { addr := 102 }] }

/-- The program the constructor builds from the example globals, structs and function. -/
def exampleProgram : Program :=
  parseFunctions exampleExt [exampleFunc]
    (parseStructs exampleEnv exampleNested exampleAfterGlobals)

/-- The texts of the elements of an aggregate, or `none` when `getValue` fails on one. -/
def getValues : List Constant → Option (List Str)
  | [] => some []
  | c :: rest =>
      match getValue c with
      | none => none
      | some text =>
          match getValues rest with
          | none => none
          | some texts => some (text :: texts)

/-- The given texts separated by a comma and a blank. -/
def commaJoin : List Str → Str
  | [] => []
  | [text] => text
  | text :: rest => text ++ ", ".toList ++ commaJoin rest

/-- The brace list of the given texts: an opening brace, the texts separated by a comma
and a blank, a closing brace. -/
def braceList (texts : List Str) : Str :=
  "\x7b".toList ++ commaJoin texts ++ "\x7d".toList

/-- The block map with the `init` flags of all blocks cleared. -/
def resetMap (blockMap : List (Nat × Block)) : List (Nat × Block) :=
  blockMap.map (fun e => (e.1, e.2.unsetAllInit))

/-- The text that the loop of `Func::print` over the blocks writes, read off the block map
with cleared flags. -/
def blocksText (ext : Ext) : List BasicBlock → Bool → List (Nat × Block) → Option Str
  | [], _, _ => some []
  | block :: rest, first, blockMap =>
      match mapFind block.addr blockMap with
      | none => none
      | some b =>
          (blocksText ext rest false blockMap).map (fun text =>
            (if first then [] else b.blockName ++ ":\n".toList) ++ ext.blockText b ++ text)

/-- What `Func::print` writes for the block at position `i` of the function: the label
line, unless the block is the entry block, and the text of the block. -/
def Func.blockLines (ext : Ext) (f : Func) (i : Nat) (block : BasicBlock) : Str :=
  (if i = 0 then [] else (f.getBlockName block.addr).1 ++ ":\n".toList) ++
    match mapFind block.addr f.blockMap with
    | some b => (Block.print ext b).1
    | none => []

mutual
/-- Whether no struct without a name occurs anywhere in an IR type. -/
def LType.noUnnamedStruct : LType → Bool
  | .array elementType _ => elementType.noUnnamedStruct
  | .pointer elementType => elementType.noUnnamedStruct
  | .unnamedStruct _ _ => false
  | .function returnType params => returnType.noUnnamedStruct && noUnnamedStructs params
  | _ => true
/-- Whether no struct without a name occurs anywhere in the IR types of a list. -/
def noUnnamedStructs : List LType → Bool
  | [] => true
  | type :: rest => type.noUnnamedStruct && noUnnamedStructs rest
end

/-- The `Struct` that `parseStructs` makes for `struct.outer` of `exampleNested`. -/
def exampleOuter : Struct :=
  { name := "s_outer".toList, ctorFlag := false,
    items := [(some (.StructType "inner".toList), "structVar0".toList)], isPrinted := false }

/-- The `Struct` that `parseStructs` makes for `struct.inner` of `exampleNested`. -/
def exampleInner : Struct :=
  { name := "s_inner".toList, ctorFlag := false,
    items := [(some (.IntType false), "structVar1".toList)], isPrinted := false }

/-- A struct with its `isPrinted` flag cleared. -/
def Struct.unsetPrinted (s : Struct) : Struct := { s with isPrinted := false }

/-- A global with its `init` flag cleared. -/
def GlobalValue.unsetInit (g : GlobalValue) : GlobalValue := { g with init := false }

/-- Two `Func` objects differ at most in the `init` flags of their blocks. -/
def Func.sameUpToInit (f g : Func) : Prop :=
  g.function = f.function ∧ g.returnType = f.returnType ∧ g.exprMap = f.exprMap ∧
    resetMap g.blockMap = resetMap f.blockMap

/-- A function over the struct list changes at most the `isPrinted` flags. -/
def FlagsOnly (rec : Nat → List Struct → Option (Str × List Struct)) : Prop :=
  ∀ (i : Nat) (structs : List Struct) (r : Str × List Struct),
    rec i structs = some r → r.2.map Struct.unsetPrinted = structs.map Struct.unsetPrinted

/-- An instance of the file-writing code outside the sources, with the texts that
`exampleExt` has for printing. -/
def exampleFileExt : FileExt :=
  { exprToString := exampleExt.exprPrint
    blockFileText := exampleExt.blockText }

/-- The struct types `%struct.b = type { %struct.s_b }` and `%struct.s_b = type { i32 }`,
as a C file with `struct s_b { int x; }; struct b { struct s_b f; };` declares them. -/
def exampleShadowed : List StructDef :=
  [{ name := "struct.b".toList, elements := [.namedStruct "struct.s_b".toList] },
   { name := "struct.s_b".toList, elements := [.integer 32] }]

/-- The struct type `%struct.__va_list_tag` of a module for x86-64. -/
def exampleVaListTag : StructDef :=
  { name := "struct.__va_list_tag".toList,
    elements := [.integer 32, .integer 32, .pointer (.integer 8), .pointer (.integer 8)] }

/-- Whether an IR name has the form that a C struct or a C union gets: "struct." or
"union." followed by the name in the C file. -/
def isCTypeName (irName : Str) : Prop :=
  irName.take 7 = "struct.".toList ∨ irName.take 6 = "union.".toList

/-- The name under which `Program::parseStructs` stores the struct of an identified struct
type. -/
def storedName (irName : Str) : Str :=
  if structCName irName = "s___va_list_tag".toList then "__va_list_tag".toList
  else structCName irName

/-- The number that a string of decimal digits denotes. -/
def digitsValue (s : Str) : Nat :=
  s.foldl (fun a c => 10 * a + (c.toNat - 48)) 0

/-- The names that `k` calls of `Func::getVarName` in a row return, and the `Func` after
them. -/
def Func.getVarNames : Nat → Func → List Str × Func
  | 0, f => ([], f)
  | k + 1, f =>
      let r := f.getVarName
      let rs := Func.getVarNames k r.2
      (r.1 :: rs.1, rs.2)

/-- The `Func` after calls of `Func::getBlockName` for the given blocks, in that order. -/
def Func.nameBlocks : List Nat → Func → Func
  | [], f => f
  | block :: rest, f => Func.nameBlocks rest (f.getBlockName block).2

/-- The blocks that have been named in a `Func` are `keys`, in the order in which they
were named first: the i-th of them has the entry named "block" followed by `i`, no other
block has an entry, and `blockCount` is their number. -/
def Func.namedBlocks (f : Func) (keys : List Nat) : Prop :=
  keys.Nodup ∧ f.blockCount = keys.length ∧
    (∀ b, b ∉ keys → mapFind b f.blockMap = none) ∧
    ∀ i (hi : i < keys.length), mapFind (keys[i]) f.blockMap =
      some { blockName := "block".toList ++ Nat.toDigits 10 i, block := keys[i],
             expressions := [] }

/-- The `Func` for the function `add` as the constructor has it before it calls
`parseFunction`. -/
def exampleFunc0 : Func :=
  { function := exampleFunc, isDeclaration := false, returnType := some (.IntType false),
    varCount := 0, blockCount := 0, exprMap := [], blockMap := [] }

/-- The struct list with the `isPrinted` flag set on the structs whose positions are in
`done`; `k` is the position of the head of the list. -/
def markPrintedFrom (done : List Nat) : Nat → List Struct → List Struct
  | _, [] => []
  | k, s :: rest =>
      (if k ∈ done then { s with isPrinted := true } else s) :: markPrintedFrom done (k + 1) rest

/-- The struct list with the `isPrinted` flag set on the structs whose positions are in
`done`. -/
def markPrinted (done : List Nat) (structs : List Struct) : List Struct :=
  markPrintedFrom done 0 structs

/-- The positions of the structs whose definitions are among the given pieces of output:
a piece is the definition of the struct at a position (`some`) or a line end (`none`). -/
def emitted (tokens : List (Option Nat)) : List Nat :=
  tokens.filterMap id

/-- The text of the given pieces of output: the definition of the struct at a position of
the list, as `Struct::print` writes it, or a line end. -/
def renderTokens (ext : Ext) (structs : List Struct) (tokens : List (Option Nat)) : Str :=
  (tokens.map (fun t =>
    match t with
    | none => "\n".toList
    | some j =>
        match structs[j]? with
        | some s => ext.structPrint s
        | none => [])).flatten

/-- A result of a walk that started with the flags of `done` set: its text is the text of
the pieces `tokens`, which hold each definition at most once and none of a struct in
`done`, and the flags of `done` and of the emitted structs are set after it. -/
def EmitsOnce (ext : Ext) (structs : List Struct) (done : List Nat)
    (tokens : List (Option Nat)) (r : Str × List Struct) : Prop :=
  r.1 = renderTokens ext structs tokens ∧
    r.2 = markPrinted (done ++ emitted tokens) structs ∧
    (emitted tokens).Nodup ∧
    ∀ j ∈ emitted tokens, j ∉ done ∧ j < structs.length

/-- A walk over the struct list emits each definition at most once, from whichever flags
it starts. -/
def WalkOk (ext : Ext) (structs : List Struct)
    (f : List Struct → Option (Str × List Struct)) : Prop :=
  ∀ (done : List Nat) (r : Str × List Struct),
    f (markPrinted done structs) = some r → ∃ tokens, EmitsOnce ext structs done tokens r

/-! ## Helper lemmas: maps and the frame of type lowering -/

theorem sameModule_refl (p : Program) : p.sameModule p := ⟨rfl, rfl, rfl, rfl⟩

theorem sameModule_trans {p q r : Program} (h1 : p.sameModule q) (h2 : q.sameModule r) :
    p.sameModule r :=
  ⟨h2.1.trans h1.1, h2.2.1.trans h1.2.1, h2.2.2.1.trans h1.2.2.1, h2.2.2.2.trans h1.2.2.2⟩

theorem mapFind_mapSet_self {β : Type} (k : Nat) (v : β) (m : List (Nat × β)) :
    mapFind k (mapSet k v m) = some v := by
  simp [mapFind, mapSet, List.lookup]

theorem lookup_filter_ne {β : Type} (k k' : Nat) (m : List (Nat × β)) (h : k' ≠ k) :
    List.lookup k' (m.filter (fun e => e.1 != k)) = List.lookup k' m := by
  induction m with
  | nil => rfl
  | cons e m ih =>
    obtain ⟨a, b⟩ := e
    by_cases hak : a = k
    · subst hak
      have : (k' == a) = false := by simpa using h
      simp [List.filter, List.lookup, this, ih]
    · have h1 : (a != k) = true := by simpa using hak
      simp only [List.filter, h1, List.lookup]
      rw [ih]

theorem mapFind_mapSet_ne {β : Type} (k k' : Nat) (v : β) (m : List (Nat × β)) (h : k' ≠ k) :
    mapFind k' (mapSet k v m) = mapFind k' m := by
  have : (k' == k) = false := by simpa using h
  simp only [mapFind, mapSet, List.lookup, this]
  exact lookup_filter_ne k k' m h

theorem getStructVarName_sameModule (p : Program) : p.sameModule (getStructVarName p).2 :=
  ⟨rfl, rfl, rfl, rfl⟩

theorem addParams_sameModule (lower : Program → Option CType × Program)
    (h : ∀ p : Program, p.sameModule (lower p).2) :
    ∀ (n : Nat) (acc : List (Option CType)) (p : Program),
      p.sameModule (addParams lower n acc p).2
  | 0, _, p => sameModule_refl p
  | n + 1, acc, p => by
      simp only [addParams]
      exact sameModule_trans (h p) (addParams_sameModule lower h n _ _)

mutual
/-- Type lowering writes only the struct counter and the two caches of unnamed structs. -/
theorem getType_sameModule (env : Env) :
    ∀ (t : LType) (v : Bool) (p : Program), p.sameModule (getType env t v p).2
  | .array e n, v, p => by
      simp only [getType]; exact getType_sameModule env e v p
  | .void, _, p => by simp only [getType]; exact sameModule_refl p
  | .integer w, v, p => by
      simp only [getType]; split_ifs <;> exact sameModule_refl p
  | .float, _, p => by simp only [getType]; exact sameModule_refl p
  | .double, _, p => by simp only [getType]; exact sameModule_refl p
  | .x86_fp80, _, p => by simp only [getType]; exact sameModule_refl p
  | .pointer e, v, p => by
      simp only [getType]; exact getType_sameModule env e v p
  | .namedStruct n, _, p => by
      simp only [getType]; split_ifs <;> exact sameModule_refl p
  | .unnamedStruct a es, _, p => by
      obtain ⟨h1, h2, h3, h4⟩ := (addItems_sameModule env es
        { name := [], ctorFlag := true, items := [], isPrinted := false } p).1
      simp only [getType, Program.sameModule]
      split_ifs <;> simp_all
  | .function r ps, v, p => by
      have hr := getType_sameModule env r v p
      cases ps with
      | nil => simp only [getType]; exact hr
      | cons p0 rest =>
          simp only [getType]
          exact sameModule_trans hr
            (addParams_sameModule _ (fun q => getType_sameModule env p0 v q) _ _ _)
  | .other, _, p => by simp only [getType]; exact sameModule_refl p
/-- The field loop keeps the name of the struct it fills. -/
theorem addItems_sameModule (env : Env) :
    ∀ (ts : List LType) (s : Struct) (p : Program),
      p.sameModule (addItems env ts s p).2 ∧ (addItems env ts s p).1.name = s.name
  | [], s, p => ⟨by simp only [addItems]; exact sameModule_refl p, by simp only [addItems]⟩
  | t :: rest, s, p => by
      simp only [addItems]
      split_ifs
      · have h1 := getType_sameModule env t voidTypeDefault (getStructVarName p).2
        have h2 := addItems_sameModule env rest
          (s.addItem (getType env t voidTypeDefault (getStructVarName p).2).1 (getStructVarName p).1)
          (getType env t voidTypeDefault (getStructVarName p).2).2
        exact ⟨sameModule_trans (sameModule_trans (getStructVarName_sameModule p) h1) h2.1, h2.2⟩
      · have h1 := getType_sameModule env t voidTypeDefault p
        have h2 := addItems_sameModule env rest
          (s.addItem (getType env t voidTypeDefault p).1
            (getStructVarName (getType env t voidTypeDefault p).2).1)
          (getStructVarName (getType env t voidTypeDefault p).2).2
        exact ⟨sameModule_trans (sameModule_trans h1 (getStructVarName_sameModule _)) h2.1, h2.2⟩
end

theorem createNewUnnamedStructType_find (th : TypeHandler) (a : Nat) (str : Str) :
    ∃ c, (mapFind a (createNewUnnamedStructType th a str).unnamedStructs).map
      CType.UnnamedStructType = some c := by
  unfold createNewUnnamedStructType
  split_ifs with h
  · exact ⟨_, by rw [mapFind_mapSet_self]; rfl⟩
  · cases hm : mapFind a th.unnamedStructs with
    | none => simp [hm] at h
    | some s => exact ⟨_, rfl⟩

/-- The pointer `getType` returns is null only for a type it has no case for. -/
theorem getType_ne_none (env : Env) (t : LType) (v : Bool) (p : Program) (h : t ≠ .other) :
    ∃ c, (getType env t v p).1 = some c := by
  cases t with
  | other => exact absurd rfl h
  | integer w => simp only [getType]; split_ifs <;> exact ⟨_, rfl⟩
  | namedStruct n => simp only [getType]; split_ifs <;> exact ⟨_, rfl⟩
  | function r ps => cases ps <;> exact ⟨_, rfl⟩
  | unnamedStruct a es =>
      simp only [getType]
      exact createNewUnnamedStructType_find _ _ _
  | _ => exact ⟨_, rfl⟩

/-- One round of the loop of `parseGlobalVars`, when it completes: one `GlobalValue` is
appended, and the reference to it is stored under the address of the variable. -/
theorem parseGlobalVar_some (env : Env) (g : GlobalVariable) (p p1 : Program)
    (h : parseGlobalVar env g p = some p1) :
    (∃ gv, p1.globalVars = p.globalVars ++ [gv] ∧ gv.valueName = replace g.name '.' '_') ∧
    p1.globalRefs = mapSet g.addr { expr := p.globalVars.length } p.globalRefs := by
  obtain ⟨-, -, hg, hr⟩ := getType_sameModule env g.valueType voidTypeDefault p
  unfold parseGlobalVar at h
  simp only at h
  split at h
  · cases h
  · split at h
    · cases h
    · cases h
      simp only [hg, hr, List.length_append, List.length_singleton, Nat.add_sub_cancel]
      exact ⟨⟨_, rfl, rfl⟩, trivial⟩

/-- One round of the loop of `parseGlobalVars` completes on a variable whose value type
has a case in `getType` and whose initializer `getValue` can render. -/
theorem parseGlobalVar_total (env : Env) (g : GlobalVariable) (p : Program)
    (ht : g.valueType ≠ .other) (hv : ∀ c, g.initializer = some c → getValue c ≠ none) :
    ∃ p1, parseGlobalVar env g p = some p1 := by
  obtain ⟨c, hc⟩ := getType_ne_none env g.valueType voidTypeDefault p ht
  unfold parseGlobalVar
  cases hi : g.initializer with
  | none => simp only [hc]; exact ⟨_, rfl⟩
  | some k =>
      cases hk : getValue k with
      | none => exact absurd hk (hv k hi)
      | some text => simp only [hk, hc]; exact ⟨_, rfl⟩

theorem parseGlobalVars_some (env : Env) :
    ∀ (gs : List GlobalVariable) (p p' : Program), parseGlobalVars env gs p = some p' →
      (∃ news, p'.globalVars = p.globalVars ++ news ∧
        news.map (fun gv => gv.valueName) = gs.map (fun g => replace g.name '.' '_')) ∧
      (∀ a, a ∉ gs.map (fun g => g.addr) → mapFind a p'.globalRefs = mapFind a p.globalRefs) ∧
      ((gs.map (fun g => g.addr)).Nodup → ∀ k (hk : k < gs.length),
        mapFind (gs[k]).addr p'.globalRefs = some { expr := p.globalVars.length + k })
  | [], p, p', h => by
      simp only [parseGlobalVars, Option.some.injEq] at h
      subst h
      exact ⟨⟨[], by simp, rfl⟩, fun _ _ => rfl, fun _ k hk => absurd hk (by simp)⟩
  | g :: rest, p, p', h => by
      simp only [parseGlobalVars] at h
      cases h1 : parseGlobalVar env g p with
      | none => rw [h1] at h; cases h
      | some p1 =>
          rw [h1] at h
          obtain ⟨⟨gv, hgv, hname⟩, hrefs⟩ := parseGlobalVar_some env g p p1 h1
          obtain ⟨⟨news, hnews, hnames⟩, hother, hmine⟩ := parseGlobalVars_some env rest p1 p' h
          refine ⟨⟨gv :: news, ?_, ?_⟩, ?_, ?_⟩
          · rw [hnews, hgv]; simp
          · simp [hname, hnames]
          · intro a ha
            simp only [List.map_cons, List.mem_cons, not_or] at ha
            rw [hother a ha.2, hrefs, mapFind_mapSet_ne _ _ _ _ ha.1]
          · intro hnd k hk
            simp only [List.map_cons, List.nodup_cons] at hnd
            cases k with
            | zero =>
                simp only [List.getElem_cons_zero, Nat.add_zero]
                rw [hother g.addr hnd.1, hrefs, mapFind_mapSet_self]
            | succ k =>
                simp only [List.getElem_cons_succ]
                have hk' : k < rest.length := by simpa using hk
                rw [hmine hnd.2 k hk', hgv]
                simp only [List.length_append, List.length_singleton]
                congr 2
                omega

theorem parseGlobalVars_total (env : Env) :
    ∀ (gs : List GlobalVariable) (p : Program),
      (∀ g ∈ gs, g.valueType ≠ .other ∧ ∀ c, g.initializer = some c → getValue c ≠ none) →
      ∃ p', parseGlobalVars env gs p = some p'
  | [], p, _ => ⟨p, rfl⟩
  | g :: rest, p, h => by
      obtain ⟨p1, h1⟩ := parseGlobalVar_total env g p (h g (by simp)).1 (h g (by simp)).2
      obtain ⟨p', h'⟩ := parseGlobalVars_total env rest p1
        (fun g' hg' => h g' (List.mem_cons_of_mem _ hg'))
      exact ⟨p', by simp only [parseGlobalVars, h1, h']⟩

/-- The name registered for an identified struct type, and the effect of `parseStructs`
on the struct list, the vararg flag and the globals. -/
theorem parseStructs_aux (env : Env) :
    ∀ (defs : List StructDef) (p : Program),
      (∃ news, (parseStructs env defs p).structs = p.structs ++ news ∧
        news.map (fun s => s.name) = defs.map (fun d =>
          if structCName d.name = "s___va_list_tag".toList then "__va_list_tag".toList
          else structCName d.name)) ∧
      (parseStructs env defs p).hasVarArg =
        (p.hasVarArg ||
          defs.any (fun d => decide (structCName d.name = "s___va_list_tag".toList))) ∧
      (parseStructs env defs p).globalVars = p.globalVars ∧
      (parseStructs env defs p).globalRefs = p.globalRefs
  | [], p => ⟨⟨[], by simp [parseStructs], rfl⟩, by simp [parseStructs], rfl, rfl⟩
  | d :: rest, p => by
      simp only [parseStructs]
      split_ifs with hva
      · obtain ⟨⟨news, hnews, hnames⟩, hflag, hg, hr⟩ := parseStructs_aux env rest
          { p with hasVarArg := true, structs := p.structs ++ [vaListTagStruct] }
        refine ⟨⟨vaListTagStruct :: news, ?_, ?_⟩, ?_, hg, hr⟩
        · rw [hnews]; simp
        · simp only [List.map_cons, hnames, hva, if_true]
          rfl
        · rw [hflag]; simp [hva]
      · have hfr := addItems_sameModule env d.elements
          { name := structCName d.name, ctorFlag := false, items := [], isPrinted := false } p
        generalize addItems env d.elements
          { name := structCName d.name, ctorFlag := false, items := [], isPrinted := false } p
          = r at hfr ⊢
        obtain ⟨⟨hs, hf, hgv, hgr⟩, hname⟩ := hfr
        obtain ⟨⟨news, hnews, hnames⟩, hflag, hg, hr⟩ := parseStructs_aux env rest
          { r.2 with structs := r.2.structs ++ [r.1] }
        simp only at hnews hflag hg hr
        refine ⟨⟨r.1 :: news, ?_, ?_⟩, ?_, ?_, ?_⟩
        · rw [hnews, hs]; simp
        · simp only [List.map_cons, hnames, hname, hva, if_false]
        · rw [hflag, hf, List.any_cons, decide_eq_false hva, Bool.false_or]
        · rw [hg]; exact hgv
        · rw [hr]; exact hgr

/-- The text `std::replace` leaves holds no dot. -/
theorem replace_not_mem (s : Str) : '.' ∉ replace s '.' '_' := by
  unfold replace
  intro h
  obtain ⟨c, -, hc⟩ := List.mem_map.mp h
  split_ifs at hc with h1
  · exact absurd hc (by decide)
  · exact h1 hc

/-! ## Integer lowering and binary promotion -/

/-- C1: `TypeHandler::getType` on an integer type of bit width `w` with void mode `v`
returns `Int{unsigned=false}` for `w = 1`, `Void` for `2 ≤ w ≤ 8` in void mode and
`Char{unsigned=false}` otherwise, `Short{unsigned=false}` for `9 ≤ w ≤ 16`,
`Int{unsigned=false}` for `17 ≤ w ≤ 32`, `Long{unsigned=false}` for `33 ≤ w ≤ 64` and
`UInt128` for `w > 64`; the program state is left as it was. -/
theorem getType_integer (env : Env) (w : Nat) (v : Bool) (p : Program) :
    (w = 1 → getType env (.integer w) v p = (some (.IntType false), p)) ∧
    (2 ≤ w → w ≤ 8 → getType env (.integer w) true p = (some .VoidType, p)) ∧
    (2 ≤ w → w ≤ 8 → getType env (.integer w) false p = (some (.CharType false), p)) ∧
    (9 ≤ w → w ≤ 16 → getType env (.integer w) v p = (some (.ShortType false), p)) ∧
    (17 ≤ w → w ≤ 32 → getType env (.integer w) v p = (some (.IntType false), p)) ∧
    (33 ≤ w → w ≤ 64 → getType env (.integer w) v p = (some (.LongType false), p)) ∧
    (64 < w → getType env (.integer w) v p = (some .UInt128, p)) := by
  refine ⟨?_, ?_, ?_, ?_, ?_, ?_, ?_⟩ <;> intros <;> simp only [getType] <;>
    split_ifs <;> first | rfl | omega | simp_all

/-- Witness for C1: one bit width in each range of the table. -/
theorem getType_integer_witness :
    getType exampleEnv (.integer 1) true Program.init = (some (.IntType false), Program.init) ∧
    getType exampleEnv (.integer 8) true Program.init = (some .VoidType, Program.init) ∧
    getType exampleEnv (.integer 8) false Program.init =
      (some (.CharType false), Program.init) ∧
    getType exampleEnv (.integer 16) false Program.init =
      (some (.ShortType false), Program.init) ∧
    getType exampleEnv (.integer 32) false Program.init =
      (some (.IntType false), Program.init) ∧
    getType exampleEnv (.integer 64) false Program.init =
      (some (.LongType false), Program.init) ∧
    getType exampleEnv (.integer 128) false Program.init = (some .UInt128, Program.init) :=
  ⟨(getType_integer exampleEnv 1 true Program.init).1 rfl,
   (getType_integer exampleEnv 8 true Program.init).2.1 (by decide) (by decide),
   (getType_integer exampleEnv 8 false Program.init).2.2.1 (by decide) (by decide),
   (getType_integer exampleEnv 16 false Program.init).2.2.2.1 (by decide) (by decide),
   (getType_integer exampleEnv 32 false Program.init).2.2.2.2.1 (by decide) (by decide),
   (getType_integer exampleEnv 64 false Program.init).2.2.2.2.2.1 (by decide) (by decide),
   (getType_integer exampleEnv 128 false Program.init).2.2.2.2.2.2 (by decide)⟩

/-- The result of `getBinaryType` in terms of the ranks of the operands. -/
theorem getBinaryType_eq (left right : CType) :
    getBinaryType (some left) (some right) =
      if ladderRank left = 0 ∧ ladderRank right = 0 then none
      else some (if ladderRank right ≤ ladderRank left then left else right) := by
  cases left <;> cases right <;> rfl

/-- Two types of the same rank on the ladder differ at most in the unsigned flag. -/
theorem withUnsigned_of_rank_eq (a b : CType) (h : ladderRank a = ladderRank b)
    (ha : 0 < ladderRank a) : ∃ u, b = a.withUnsigned u := by
  cases a <;> cases b <;> simp [ladderRank, CType.withUnsigned] at h ha ⊢

/-- Every type is itself with some value of the unsigned flag. -/
theorem withUnsigned_self (a : CType) : ∃ u, a = a.withUnsigned u := by
  cases a <;> simp [CType.withUnsigned]

/-- C2: when at least one operand is on the ladder, `TypeHandler::getBinaryType` returns
a type whose rank is the higher of the two operand ranks; the result is the left operand
when the left rank is at least the right one, and the right operand otherwise, so its
unsigned flag is that of an operand of the winning rank, the left one when both have it.
In particular a type on the ladder joined with itself gives that type. -/
theorem getBinaryType_highest_rank (left right : CType)
    (h : 0 < ladderRank left ∨ 0 < ladderRank right) :
    ∃ t, getBinaryType (some left) (some right) = some t ∧
      ladderRank t = max (ladderRank left) (ladderRank right) ∧
      (ladderRank right ≤ ladderRank left → t = left) ∧
      (ladderRank left < ladderRank right → t = right) ∧
      (left = right → t = left) := by
  rw [getBinaryType_eq]
  have h0 : ¬ (ladderRank left = 0 ∧ ladderRank right = 0) := by omega
  rw [if_neg h0]
  refine ⟨_, rfl, ?_, ?_, ?_, ?_⟩
  · split_ifs with hle
    · exact (Nat.max_eq_left hle).symm
    · exact (Nat.max_eq_right (by omega)).symm
  · intro hle; rw [if_pos hle]
  · intro hlt; rw [if_neg (by omega)]
  · intro heq; subst heq; rw [if_pos (Nat.le_refl _)]

/-- Witness for C2: two signed longs, the operands of `l * l` in the test `pow_gt.c`. -/
theorem getBinaryType_highest_rank_witness :
    ∃ t, getBinaryType (some (.LongType false)) (some (.LongType false)) = some t ∧
      ladderRank t = max (ladderRank (.LongType false)) (ladderRank (.LongType false)) ∧
      (ladderRank (.LongType false) ≤ ladderRank (.LongType false) → t = .LongType false) ∧
      (ladderRank (.LongType false) < ladderRank (.LongType false) → t = .LongType false) ∧
      (CType.LongType false = CType.LongType false → t = .LongType false) :=
  getBinaryType_highest_rank (.LongType false) (.LongType false) (Or.inl (by decide))

/-- C3: `TypeHandler::getBinaryType` returns a null pointer exactly when neither operand
is on the ladder, and returns a type exactly when at least one operand is. -/
theorem getBinaryType_none_iff (left right : CType) :
    (getBinaryType (some left) (some right) = none ↔
      ladderRank left = 0 ∧ ladderRank right = 0) ∧
    ((getBinaryType (some left) (some right)).isSome ↔
      (0 < ladderRank left ∨ 0 < ladderRank right)) := by
  rw [getBinaryType_eq]
  by_cases h : ladderRank left = 0 ∧ ladderRank right = 0
  · rw [if_pos h]; simp [h]
  · rw [if_neg h]; simp [h]; omega

/-- C4: `getBinaryType a b` and `getBinaryType b a` either both fail, or both return a
type, the two results having the same rank and differing at most in the unsigned flag. -/
theorem getBinaryType_comm_up_to_sign (a b : CType) :
    (getBinaryType (some a) (some b) = none ∧ getBinaryType (some b) (some a) = none) ∨
    ∃ t t', getBinaryType (some a) (some b) = some t ∧
      getBinaryType (some b) (some a) = some t' ∧
      ladderRank t = ladderRank t' ∧ ∃ u, t' = t.withUnsigned u := by
  rw [getBinaryType_eq, getBinaryType_eq]
  by_cases h : ladderRank a = 0 ∧ ladderRank b = 0
  · left; rw [if_pos h, if_pos (And.symm h)]; exact ⟨rfl, rfl⟩
  · right
    rw [if_neg h, if_neg (fun h' => h (And.symm h'))]
    refine ⟨_, _, rfl, rfl, ?_⟩
    rcases Nat.lt_trichotomy (ladderRank a) (ladderRank b) with hlt | heq | hgt
    · rw [if_neg (by omega), if_pos (by omega)]
      exact ⟨rfl, withUnsigned_self b⟩
    · rw [if_pos (by omega), if_pos (by omega)]
      exact ⟨heq, withUnsigned_of_rank_eq a b heq (by omega)⟩
    · rw [if_pos (by omega), if_neg (by omega)]
      exact ⟨rfl, withUnsigned_self a⟩

/-- C5, as the code has it: joining two operands of the same rank Long, Int, Short or Char
gives that rank with the unsigned flag of the left operand, so an unsigned operand makes
the result unsigned only when it stands on the left. -/
theorem getBinaryType_equal_rank (u1 u2 : Bool) :
    getBinaryType (some (.LongType u1)) (some (.LongType u2)) = some (.LongType u1) ∧
    getBinaryType (some (.IntType u1)) (some (.IntType u2)) = some (.IntType u1) ∧
    getBinaryType (some (.ShortType u1)) (some (.ShortType u2)) = some (.ShortType u1) ∧
    getBinaryType (some (.CharType u1)) (some (.CharType u2)) = some (.CharType u1) := by
  refine ⟨?_, ?_, ?_, ?_⟩ <;> rw [getBinaryType_eq] <;> rfl

/-- C5 fails as stated: a signed long on the left joined with an unsigned long on the
right gives a signed long, not the unsigned long of the usual arithmetic conversions. -/
theorem getBinaryType_signed_left_unsigned_right :
    getBinaryType (some (.LongType false)) (some (.LongType true)) = some (.LongType false) ∧
    getBinaryType (some (.LongType false)) (some (.LongType true)) ≠ some (.LongType true) := by
  constructor
  · rfl
  · intro h
    have h2 : getBinaryType (some (.LongType false)) (some (.LongType true))
        = some (.LongType false) := rfl
    rw [h2] at h
    cases h

/-! ## Function and struct types -/

/-- C6, at an input where the code departs from it: for the function type `i32 (i32, i64)`
`TypeHandler::getType` returns `FunctionType{Int, [Int, Int]}`; both parameters are the
lowering of parameter 0, although the second parameter lowers to `Long`. -/
theorem getType_function_repeats_first_param (env : Env) (v : Bool) (p : Program) :
    getType env (.function (.integer 32) [.integer 32, .integer 64]) v p =
      (some (.FunctionType (some (.IntType false))
        [some (.IntType false), some (.IntType false)]), p) ∧
    (getType env (.integer 64) v p).1 = some (.LongType false) ∧
    (getType env (.function (.integer 32) [.integer 32, .integer 64]) v p).1 ≠
      some (.FunctionType (some (.IntType false))
        [some (.IntType false), some (.LongType false)]) := by
  have h : getType env (.function (.integer 32) [.integer 32, .integer 64]) v p =
      (some (.FunctionType (some (.IntType false))
        [some (.IntType false), some (.IntType false)]), p) := rfl
  refine ⟨h, rfl, ?_⟩
  rw [h]
  simp

/-- C7, at an input where the code departs from it: for the IR struct type `struct.point`
`TypeHandler::getType` returns `StructType{"point"}`, without the `s_` marker, while
`Program::parseStructs` registers the struct of the same IR type under `s_point`. -/
theorem getType_named_struct_without_marker (env : Env) (v : Bool) (p : Program) :
    getType env (.namedStruct "struct.point".toList) v p =
      (some (.StructType "point".toList), p) ∧
    (parseStructs env [{ name := "struct.point".toList, elements := [] }] p).structs =
      p.structs ++ [{ name := "s_point".toList, ctorFlag := false, items := [],
                      isPrinted := false }] ∧
    "point".toList ≠ "s_point".toList :=
  ⟨rfl, rfl, by decide⟩

/-! ## The struct pass -/

/-- C8, amended: `Program::parseStructs` appends exactly one `Struct` per identified
struct type, in IR order. The struct for the IR name `n` is named `__va_list_tag` when
`n` starts with "struct" and is "__va_list_tag" after its first seven characters (as
`struct.__va_list_tag` is), and otherwise carries the rewritten name, which is `s_rest`
for `struct.rest` and `u_rest` for `union.rest`. The vararg flag is set exactly by the
names of the first kind, and keeps its value when none of them is enumerated. -/
theorem parseStructs_names (env : Env) (defs : List StructDef) (p : Program) :
    (∃ news, (parseStructs env defs p).structs = p.structs ++ news ∧
      news.map (fun s => s.name) = defs.map (fun d =>
        if structCName d.name = "s___va_list_tag".toList then "__va_list_tag".toList
        else structCName d.name)) ∧
    (parseStructs env defs p).hasVarArg =
      (p.hasVarArg ||
        defs.any (fun d => decide (structCName d.name = "s___va_list_tag".toList))) ∧
    (∀ rest : Str, structCName ("struct.".toList ++ rest) = "s_".toList ++ rest) ∧
    (∀ rest : Str, structCName ("union.".toList ++ rest) = "u_".toList ++ rest) ∧
    structCName "struct.__va_list_tag".toList = "s___va_list_tag".toList ∧
    (∀ n : Str, structCName n = "s___va_list_tag".toList ↔
      n.take 6 = "struct".toList ∧ n.drop 7 = "__va_list_tag".toList) := by
  obtain ⟨h1, h2, -, -⟩ := parseStructs_aux env defs p
  refine ⟨h1, h2, ?_, ?_, by decide, ?_⟩
  · intro rest; simp [structCName]
  · intro rest; simp [structCName]
  · intro n
    unfold structCName
    by_cases h : n.take 6 = "struct".toList
    · rw [if_pos h]
      constructor
      · intro hx; exact ⟨h, by simpa using hx⟩
      · rintro ⟨-, hd⟩; rw [hd]; rfl
    · rw [if_neg h]
      constructor
      · intro hx; simp at hx
      · rintro ⟨h', -⟩; exact absurd h' h

/-- C8 fails as stated: no struct named `struct.__va_list_tag` is enumerated, yet
`Program::parseStructs` sets the vararg flag and registers `__va_list_tag`, because it
drops the seventh character of the name without looking at it. -/
theorem parseStructs_sets_hasVarArg_without_va_list_tag :
    "struct___va_list_tag".toList ≠ "struct.__va_list_tag".toList ∧
    (parseStructs exampleEnv [{ name := "struct___va_list_tag".toList, elements := [] }]
      Program.init).hasVarArg = true ∧
    (parseStructs exampleEnv [{ name := "struct___va_list_tag".toList, elements := [] }]
      Program.init).structs.map (fun s => s.name) = ["__va_list_tag".toList] := by
  decide

/-! ## The globals pass -/

/-- C9, amended: on a module whose global variables all have a value type that `getType`
has a case for and an initializer that `getValue` can render, `Program::parseGlobalVars`
completes and appends one `GlobalValue` per variable, in IR order; the name of each is the
IR name with every '.' replaced by '_' and every other character unchanged, so it has the
same length and holds no '.'. -/
theorem parseGlobalVars_names (env : Env) (gs : List GlobalVariable) (p : Program)
    (h : ∀ g ∈ gs, g.valueType ≠ .other ∧ ∀ c, g.initializer = some c → getValue c ≠ none) :
    ∃ p' news, parseGlobalVars env gs p = some p' ∧ p'.globalVars = p.globalVars ++ news ∧
      news.length = gs.length ∧
      ∀ k (hk : k < gs.length), ∃ gv, news[k]? = some gv ∧
        gv.valueName.length = (gs[k]).name.length ∧ '.' ∉ gv.valueName ∧
        ∀ (i : Nat) (c : Char), (gs[k]).name[i]? = some c →
          gv.valueName[i]? = some (if c = '.' then '_' else c) := by
  obtain ⟨p', hp'⟩ := parseGlobalVars_total env gs p h
  obtain ⟨⟨news, hnews, hnames⟩, -, -⟩ := parseGlobalVars_some env gs p p' hp'
  have hlen : news.length = gs.length := by
    have := congrArg List.length hnames
    simpa using this
  refine ⟨p', news, hp', hnews, hlen, ?_⟩
  intro k hk
  have hk' : k < news.length := by omega
  have hname : (news[k]).valueName = replace (gs[k]).name '.' '_' := by
    have h1 : (news.map (fun gv => gv.valueName))[k]? =
        (gs.map (fun g => replace g.name '.' '_'))[k]? := by rw [hnames]
    simpa [List.getElem?_map, List.getElem?_eq_getElem hk, List.getElem?_eq_getElem hk']
      using h1
  refine ⟨news[k], List.getElem?_eq_getElem hk', ?_, ?_, ?_⟩
  · rw [hname]; simp [replace]
  · rw [hname]; exact replace_not_mem _
  · intro i c hc
    rw [hname]
    simp [replace, List.getElem?_map, hc]

/-- Witness for C9: the two example globals. -/
theorem parseGlobalVars_names_witness :
    (∀ g ∈ exampleGlobals,
      g.valueType ≠ .other ∧ ∀ c, g.initializer = some c → getValue c ≠ none) ∧
    ∃ p' news, parseGlobalVars exampleEnv exampleGlobals Program.init = some p' ∧
      p'.globalVars = Program.init.globalVars ++ news ∧
      news.length = exampleGlobals.length ∧
      ∀ k (hk : k < exampleGlobals.length), ∃ gv, news[k]? = some gv ∧
        gv.valueName.length = (exampleGlobals[k]).name.length ∧ '.' ∉ gv.valueName ∧
        ∀ (i : Nat) (c : Char), (exampleGlobals[k]).name[i]? = some c →
          gv.valueName[i]? = some (if c = '.' then '_' else c) :=
  have hex : ∀ g ∈ exampleGlobals,
      g.valueType ≠ .other ∧ ∀ c, g.initializer = some c → getValue c ≠ none := by
    intro g hg
    simp only [exampleGlobals, List.mem_cons, List.mem_singleton, List.not_mem_nil,
      or_false] at hg
    rcases hg with hg | hg <;> subst hg
    · refine ⟨by simp, ?_⟩
      intro c hc
      simp only [Option.some.injEq] at hc
      subst hc
      decide
    · refine ⟨by simp, ?_⟩
      intro c hc
      simp only [Option.some.injEq] at hc
      subst hc
      decide
  ⟨hex, parseGlobalVars_names exampleEnv exampleGlobals Program.init hex⟩

/-- C9 fails as stated: on a module with one global variable whose value type has no case
in `getType` (a vector, say), `Program::parseGlobalVars` dereferences the null pointer
that `getType` returned and produces no list of globals. -/
theorem parseGlobalVars_unsupported_type :
    ¬ ∃ p', parseGlobalVars exampleEnv
        [{ addr := 0, name := "v".toList, hasPrivateLinkage := false, initializer := none,
           valueType := .other }] Program.init = some p' ∧
      p'.globalVars.map (fun gv => gv.valueName) = ["v".toList] := by
  rintro ⟨p', h, -⟩
  have hnone : parseGlobalVars exampleEnv
      [{ addr := 0, name := "v".toList, hasPrivateLinkage := false, initializer := none,
         valueType := .other }] Program.init = none := rfl
  rw [hnone] at h
  cases h

theorem mapFind_eq_none_iff {β : Type} (k : Nat) (m : List (Nat × β)) :
    mapFind k m = none ↔ ∀ v, (k, v) ∉ m := by
  induction m with
  | nil => simp [mapFind, List.lookup]
  | cons e m ih =>
    obtain ⟨a, b⟩ := e
    unfold mapFind at ih ⊢
    by_cases hka : k = a
    · subst hka
      simp only [List.lookup, beq_self_eq_true]
      constructor
      · intro h; cases h
      · intro h; exact absurd (List.mem_cons_self _ _) (h b)
    · have : (k == a) = false := by simpa using hka
      simp only [List.lookup, this, ih]
      constructor
      · intro h v hv
        rcases List.mem_cons.mp hv with hv | hv
        · exact hka (Prod.mk.inj hv).1
        · exact h v hv
      · intro h v hv
        exact h v (List.mem_cons_of_mem _ hv)

/-- C15: `Func::getExpr` returns a result for every value and leaves the `Func` as it
was; the result is null exactly when the map holds no entry for the value; after
`Func::createExpr` has stored a node for a value, `getExpr` returns that node for it and
what it returned before for every other value; and it returns the `Value` that
`parseFunction` bound to a parameter. -/
theorem getExpr_createExpr (ext : Ext) (f : Func) (val : Nat) :
    (f.getExpr val).2 = f ∧
    ((f.getExpr val).1 = none ↔ ∀ expr, (val, expr) ∉ f.exprMap) ∧
    (∀ expr, ((f.createExpr val expr).getExpr val).1 = some expr) ∧
    (∀ val' expr, val' ≠ val →
      ((f.createExpr val' expr).getExpr val).1 = (f.getExpr val).1) ∧
    (∀ type : LType, ((Func.parseArgs ext [{ addr := val, type := type }] f).getExpr val).1 =
      some (.Value ("var".toList ++ Nat.toDigits 10 f.varCount) (ext.typeGetType type)
        false)) := by
  have hget : ∀ g : Func, (g.getExpr val).1 = mapFind val g.exprMap := by
    intro g
    unfold Func.getExpr
    cases mapFind val g.exprMap <;> rfl
  refine ⟨?_, ?_, ?_, ?_, ?_⟩
  · unfold Func.getExpr
    cases mapFind val f.exprMap <;> rfl
  · rw [hget]; exact mapFind_eq_none_iff val f.exprMap
  · intro expr
    rw [hget]
    exact mapFind_mapSet_self _ _ _
  · intro val' expr hne
    rw [hget, hget]
    exact mapFind_mapSet_ne _ _ _ _ (Ne.symm hne)
  · intro type
    rw [hget]
    exact mapFind_mapSet_self _ _ _

/-- Witness for C15: a store for another value does not change what `getExpr` returns. -/
theorem getExpr_createExpr_witness :
    (((Func.new exampleExt exampleFunc false).createExpr 7 (.other 0)).getExpr 1).1 =
      ((Func.new exampleExt exampleFunc false).getExpr 1).1 :=
  (getExpr_createExpr exampleExt (Func.new exampleExt exampleFunc false) 1).2.2.2.1 7
    (.other 0) (by decide)

/-- C17, at an input where the code departs from it: `Program::getStruct(name)` returns
the first struct of that name, but for a name that no struct of the list has, control runs
off the end of the function, which returns nothing there, not a null pointer. The name
`point`, under which `getType` refers to `struct.point`, is such a name. -/
theorem getStruct_no_return_on_miss :
    (parseStructs exampleEnv [examplePoint] Program.init).getStruct "s_point".toList =
      some (some 0) ∧
    (parseStructs exampleEnv [examplePoint] Program.init).getStruct "point".toList = none ∧
    (parseStructs exampleEnv [examplePoint] Program.init).getStruct "point".toList ≠
      some none ∧
    Program.init.getStruct "point".toList = none := by
  refine ⟨rfl, rfl, ?_, rfl⟩
  intro h
  have h2 : (parseStructs exampleEnv [examplePoint] Program.init).getStruct "point".toList
      = none := rfl
  rw [h2] at h
  cases h

/-! ## Initializer texts -/

theorem commaJoin_cons (text : Str) (texts : List Str) :
    commaJoin (text :: texts) = text ++ (texts.map (fun t => ", ".toList ++ t)).flatten := by
  induction texts generalizing text with
  | nil => simp [commaJoin]
  | cons t ts ih => simp only [commaJoin, ih, List.map_cons, List.flatten_cons, List.append_assoc]

/-- The loop of `getValue` over the elements, in closed form. -/
theorem getValueList_eq :
    ∀ (cs : List Constant) (first : Bool) (value : Str),
      getValueList cs first value =
        (getValues cs).map (fun texts =>
          value ++ if first then commaJoin texts
            else (texts.map (fun t => ", ".toList ++ t)).flatten)
  | [], first, value => by cases first <;> simp [getValueList, getValues, commaJoin]
  | c :: rest, first, value => by
      simp only [getValueList, getValues]
      cases hc : getValue c with
      | none => rfl
      | some text =>
          simp only []
          rw [getValueList_eq rest false]
          cases hr : getValues rest with
          | none => rfl
          | some texts =>
              cases first
              · simp
              · simp [commaJoin_cons]

theorem getValue_aggregate (cs : List Constant) :
    getValue (.ConstantDataArray cs) = (getValues cs).map braceList ∧
    getValue (.ConstantStruct cs) = (getValues cs).map braceList := by
  constructor <;>
  · simp only [getValue, getValueList_eq, Option.map_map, if_true]
    cases getValues cs <;> simp [braceList]

theorem getValues_ints (vs : List Int) :
    getValues (vs.map Constant.ConstantInt) = some (vs.map intToString) := by
  induction vs with
  | nil => rfl
  | cons v vs ih => simp [getValues, getValue, ih]

/-- C18, amended: for a global whose initializer is a character array, the text computed
by `Program::getValue` is the brace list of the character codes in decimal, whether or
not the array comes from a C string literal; it begins with an opening brace. -/
theorem getValue_char_array (codes : List Int) :
    getValue (.ConstantDataArray (codes.map Constant.ConstantInt)) =
      some (braceList (codes.map intToString)) ∧
    (braceList (codes.map intToString)).head? = some '\x7b' := by
  refine ⟨?_, rfl⟩
  rw [(getValue_aggregate _).1, getValues_ints]
  rfl

/-- C18 fails as stated: for the array of the string literal "hi" `Program::getValue`
returns the brace list of the three character codes, not a quoted string. -/
theorem getValue_string_literal :
    getValue (.ConstantDataArray [.ConstantInt 104, .ConstantInt 105, .ConstantInt 0]) =
      some "\x7b104, 105, 0\x7d".toList ∧
    getValue (.ConstantDataArray [.ConstantInt 104, .ConstantInt 105, .ConstantInt 0]) ≠
      some "\"hi\"".toList := by
  decide

/-- C19, at an input where the code departs from it: the initializer
`[i32* @a, i32* @b]` of a global array of pointers (`int *t[2] = {&a, &b};`) is a
`ConstantArray`, for which `Program::getValue` has no case: it returns the empty text, not
the brace list of the texts of the two elements, and as a member of a struct initializer
the array leaves a gap. The sibling class `ConstantDataArray` is rendered as a brace
list. -/
theorem getValue_constant_array :
    getValue (.other (.array (.pointer (.integer 32)) 2) []
      [.GlobalVariable (.integer 32) "a".toList (some (.ConstantInt 1)),
       .GlobalVariable (.integer 32) "b".toList (some (.ConstantInt 2))]) = some [] ∧
    getValues [.GlobalVariable (.integer 32) "a".toList (some (.ConstantInt 1)),
       .GlobalVariable (.integer 32) "b".toList (some (.ConstantInt 2))] =
      some ["&a".toList, "&b".toList] ∧
    ([] : Str) ≠ braceList ["&a".toList, "&b".toList] ∧
    getValue (.ConstantStruct [.ConstantInt 1,
      .other (.array (.pointer (.integer 32)) 2) []
        [.GlobalVariable (.integer 32) "a".toList (some (.ConstantInt 1)),
         .GlobalVariable (.integer 32) "b".toList (some (.ConstantInt 2))]]) =
      some "\x7b1, \x7d".toList ∧
    getValue (.ConstantDataArray [.ConstantInt 1, .ConstantInt 2]) =
      some "\x7b1, 2\x7d".toList := by
  decide

/-! ## Printing a function -/

theorem mapFind_map_values {β : Type} (h : β → β) (k : Nat) (m : List (Nat × β)) :
    mapFind k (m.map (fun e => (e.1, h e.2))) = (mapFind k m).map h := by
  induction m with
  | nil => rfl
  | cons e m ih =>
    obtain ⟨a, b⟩ := e
    unfold mapFind at ih ⊢
    simp only [List.map_cons, List.lookup]
    cases hka : (k == a)
    · simpa using ih
    · rfl

theorem Block.print_unsetAllInit (ext : Ext) (b : Block) :
    (Block.print ext b).2.unsetAllInit = b.unsetAllInit := by
  simp only [Block.print, Block.unsetAllInit, List.map_map]
  congr 1
  apply List.map_congr_left
  intro e _
  cases e <;> rfl

theorem Block.unsetAllInit_idem (b : Block) : b.unsetAllInit.unsetAllInit = b.unsetAllInit := by
  simp only [Block.unsetAllInit, List.map_map]
  congr 1
  apply List.map_congr_left
  intro e _
  cases e <;> rfl

theorem resetMap_mapModify (ext : Ext) (k : Nat) (m : List (Nat × Block)) :
    resetMap (mapModify k (fun blk => (Block.print ext blk).2) m) = resetMap m := by
  simp only [resetMap, mapModify, List.map_map]
  apply List.map_congr_left
  intro e _
  simp only [Function.comp]
  split_ifs
  · simp [Block.print_unsetAllInit]
  · rfl

/-- The text of the block loop depends on the block map only up to the `init` flags. -/
theorem printBlocks_text (ext : Ext) :
    ∀ (bs : List BasicBlock) (first : Bool) (m : List (Nat × Block)),
      (Func.printBlocks ext bs first m).map Prod.fst = blocksText ext bs first (resetMap m)
  | [], _, _ => rfl
  | block :: rest, first, m => by
      have ih := printBlocks_text ext rest false
        (mapModify block.addr (fun blk => (Block.print ext blk).2) m)
      rw [resetMap_mapModify] at ih
      simp only [Func.printBlocks, blocksText]
      have hfind : mapFind block.addr (resetMap m) =
          (mapFind block.addr m).map Block.unsetAllInit := mapFind_map_values _ _ _
      rw [hfind]
      cases hb : mapFind block.addr m with
      | none => rfl
      | some b =>
          simp only [Option.map_some']
          rw [← ih]
          cases Func.printBlocks ext rest false
            (mapModify block.addr (fun blk => (Block.print ext blk).2) m) with
          | none => rfl
          | some r => rfl

/-- The block loop changes the block map only in the `init` flags. -/
theorem printBlocks_resetMap (ext : Ext) :
    ∀ (bs : List BasicBlock) (first : Bool) (m : List (Nat × Block)) (r : Str × _),
      Func.printBlocks ext bs first m = some r → resetMap r.2 = resetMap m
  | [], _, m, r, h => by
      simp only [Func.printBlocks, Option.some.injEq] at h
      subst h; rfl
  | block :: rest, first, m, r, h => by
      simp only [Func.printBlocks] at h
      cases hb : mapFind block.addr m with
      | none => rw [hb] at h; cases h
      | some b =>
          rw [hb] at h
          simp only [] at h
          cases hr : Func.printBlocks ext rest false
            (mapModify block.addr (fun blk => (Block.print ext blk).2) m) with
          | none => rw [hr] at h; cases h
          | some r1 =>
              rw [hr] at h
              simp only [Option.some.injEq] at h
              subst h
              rw [printBlocks_resetMap ext rest false _ r1 hr, resetMap_mapModify]

theorem blocksText_lines (ext : Ext) (f : Func) :
    ∀ (bs : List BasicBlock) (n : Nat),
      (∀ b ∈ bs, mapFind b.addr f.blockMap ≠ none) →
      blocksText ext bs (decide (n = 0)) (resetMap f.blockMap) =
        some (((bs.enumFrom n).map (fun ib => f.blockLines ext ib.1 ib.2)).flatten)
  | [], _, _ => rfl
  | block :: rest, n, h => by
      have ih := blocksText_lines ext f rest (n + 1)
        (fun b hb => h b (List.mem_cons_of_mem _ hb))
      have hdec : decide (n + 1 = 0) = false := by simp
      rw [hdec] at ih
      have hfind : mapFind block.addr (resetMap f.blockMap) =
          (mapFind block.addr f.blockMap).map Block.unsetAllInit := mapFind_map_values _ _ _
      simp only [blocksText, hfind, ih, List.enumFrom_cons, List.map_cons, List.flatten_cons]
      cases hb : mapFind block.addr f.blockMap with
      | none => exact absurd hb (h block (List.mem_cons_self _ _))
      | some b =>
          simp only [Option.map_some', Func.blockLines, Func.getBlockName, hb, Block.print]
          by_cases hn : n = 0
          · simp [hn, Block.unsetAllInit]
          · simp [hn, Block.unsetAllInit]

theorem printArgs_total (ext : Ext) (f : Func) :
    ∀ (args : List Argument) (first : Bool),
      (∀ a ∈ args, mapFind a.addr f.exprMap ≠ none) →
      ∃ text, Func.printArgs ext f args first = some text
  | [], _, _ => ⟨[], rfl⟩
  | arg :: rest, first, h => by
      obtain ⟨text, ht⟩ := printArgs_total ext f rest false
        (fun a ha => h a (List.mem_cons_of_mem _ ha))
      cases he : mapFind arg.addr f.exprMap with
      | none => exact absurd he (h arg (List.mem_cons_self _ _))
      | some e =>
          exact ⟨(if first then [] else ", ".toList) ++ ext.exprPrint e ++ text,
            by simp only [Func.printArgs, he, ht]⟩

/-- C16: for a `Func` whose return type is set and whose arguments and blocks have their
entries in `exprMap` and `blockMap` (as `parseFunction` leaves them), `Func::print` writes
the head of the function, then for the blocks in IR order the label line of the block
followed at once by the text of the block, except that the entry block gets no label line,
then the closing brace. -/
theorem Func_print_labels (ext : Ext) (f : Func) (returnType : CType)
    (hret : f.returnType = some returnType)
    (hargs : f.function.args.all (fun a => (mapFind a.addr f.exprMap).isSome) = true)
    (hblocks : f.function.blocks.all (fun b => (mapFind b.addr f.blockMap).isSome) = true) :
    (∃ args f', f.print ext = some
      (ext.typePrint returnType ++ " ".toList ++ f.function.name ++ "(".toList ++ args
        ++ ") \x7b\n".toList
        ++ ((f.function.blocks.enum.map (fun ib => f.blockLines ext ib.1 ib.2)).flatten)
        ++ "\x7d\n\n".toList, f')) ∧
    (∀ block, f.blockLines ext 0 block =
      match mapFind block.addr f.blockMap with
      | some b => (Block.print ext b).1
      | none => []) ∧
    (∀ i block, f.blockLines ext (i + 1) block =
      (f.getBlockName block.addr).1 ++ ":\n".toList ++
        match mapFind block.addr f.blockMap with
        | some b => (Block.print ext b).1
        | none => []) := by
  have hargs1 : ∀ a ∈ f.function.args, mapFind a.addr f.exprMap ≠ none := by
    intro a ha hnone
    have := List.all_eq_true.mp hargs a ha
    rw [hnone] at this
    cases this
  have hblocks1 : ∀ b ∈ f.function.blocks, mapFind b.addr f.blockMap ≠ none := by
    intro b hb hnone
    have := List.all_eq_true.mp hblocks b hb
    rw [hnone] at this
    cases this
  obtain ⟨args, hargs'⟩ := printArgs_total ext f f.function.args true hargs1
  have htext := printBlocks_text ext f.function.blocks true f.blockMap
  have hlines := blocksText_lines ext f f.function.blocks 0 hblocks1
  simp only [decide_True] at hlines
  rw [hlines] at htext
  refine ⟨?_, ?_, ?_⟩
  · cases hpb : Func.printBlocks ext f.function.blocks true f.blockMap with
    | none => rw [hpb] at htext; cases htext
    | some r =>
        rw [hpb] at htext
        simp only [Option.map_some', Option.some.injEq] at htext
        exact ⟨args, { f with blockMap := r.2 },
          by simp only [Func.print, hret, hargs', hpb, List.enum, htext]⟩
  · intro block; simp [Func.blockLines]
  · intro i block; simp [Func.blockLines]

/-- Witness for C16: the example function, which has three blocks. -/
theorem Func_print_labels_witness :
    (Func.new exampleExt exampleFunc false).returnType = some (.IntType false) ∧
    (∃ args f', (Func.new exampleExt exampleFunc false).print exampleExt = some
      (exampleExt.typePrint (.IntType false) ++ " ".toList
        ++ (Func.new exampleExt exampleFunc false).function.name ++ "(".toList ++ args
        ++ ") \x7b\n".toList
        ++ (((Func.new exampleExt exampleFunc false).function.blocks.enum.map (fun ib =>
          (Func.new exampleExt exampleFunc false).blockLines exampleExt ib.1 ib.2)).flatten)
        ++ "\x7d\n\n".toList, f')) ∧
    ((Func.new exampleExt exampleFunc false).print exampleExt).map Prod.fst = some
      ("int add(int var0, int var1) \x7b\n    goto block0;\nblock1:\n".toList
        ++ "    goto block1;\nblock2:\n    goto block2;\n\x7d\n\n".toList) :=
  ⟨rfl,
    (Func_print_labels exampleExt (Func.new exampleExt exampleFunc false) (.IntType false)
      rfl rfl rfl).1,
    by decide⟩

/-! ## The fields of a struct -/

theorem addParams_count (lower : Program → Option CType × Program)
    (h : ∀ p : Program, p.structVarCount ≤ (lower p).2.structVarCount) :
    ∀ (n : Nat) (acc : List (Option CType)) (p : Program),
      p.structVarCount ≤ (addParams lower n acc p).2.structVarCount
  | 0, _, _ => Nat.le_refl _
  | n + 1, acc, p => by
      simp only [addParams]
      exact Nat.le_trans (h p) (addParams_count lower h n _ _)

mutual
/-- Type lowering never lowers the counter of the struct field names. -/
theorem getType_count (env : Env) :
    ∀ (t : LType) (v : Bool) (p : Program),
      p.structVarCount ≤ (getType env t v p).2.structVarCount
  | .array e n, v, p => by simp only [getType]; exact getType_count env e v p
  | .void, _, p => by simp only [getType]; exact Nat.le_refl _
  | .integer w, v, p => by simp only [getType]; split_ifs <;> exact Nat.le_refl _
  | .float, _, p => by simp only [getType]; exact Nat.le_refl _
  | .double, _, p => by simp only [getType]; exact Nat.le_refl _
  | .x86_fp80, _, p => by simp only [getType]; exact Nat.le_refl _
  | .pointer e, v, p => by simp only [getType]; exact getType_count env e v p
  | .namedStruct n, _, p => by simp only [getType]; split_ifs <;> exact Nat.le_refl _
  | .unnamedStruct a es, _, p => by
      have h := addItems_count env es
        { name := [], ctorFlag := true, items := [], isPrinted := false } p
      simp only [getType]
      split_ifs <;> simp_all
      omega
  | .function r ps, v, p => by
      have hr := getType_count env r v p
      cases ps with
      | nil => simp only [getType]; exact hr
      | cons p0 rest =>
          simp only [getType]
          exact Nat.le_trans hr (addParams_count _ (fun q => getType_count env p0 v q) _ _ _)
  | .other, _, p => by simp only [getType]; exact Nat.le_refl _
/-- The field loop raises the counter by at least the number of fields. -/
theorem addItems_count (env : Env) :
    ∀ (ts : List LType) (s : Struct) (p : Program),
      p.structVarCount + ts.length ≤ (addItems env ts s p).2.structVarCount
  | [], s, p => by simp only [addItems]; simp
  | t :: rest, s, p => by
      simp only [addItems]
      split_ifs
      · have h1 := getType_count env t voidTypeDefault (getStructVarName p).2
        have h2 := addItems_count env rest
          (s.addItem (getType env t voidTypeDefault (getStructVarName p).2).1 (getStructVarName p).1)
          (getType env t voidTypeDefault (getStructVarName p).2).2
        simp only [getStructVarName, List.length_cons] at h1 h2 ⊢
        omega
      · have h1 := getType_count env t voidTypeDefault p
        have h2 := addItems_count env rest
          (s.addItem (getType env t voidTypeDefault p).1
            (getStructVarName (getType env t voidTypeDefault p).2).1)
          (getStructVarName (getType env t voidTypeDefault p).2).2
        simp only [getStructVarName, List.length_cons] at h1 h2 ⊢
        omega
end

/-- C13, at an input where the code departs from it: for a module that lists
`%struct.outer = type { %struct.inner }` before `%struct.inner = type { i32 }`, the
`Struct` made for `struct.outer` has a field of type `StructType{"inner"}`, the struct
list holds `s_outer` and `s_inner`, and `Program::print` writes the definition of
`s_outer` before that of `s_inner`: no name of the list equals `inner`, so `printStruct`
hoists nothing. -/
theorem print_outer_before_inner (env : Env) (ext : Ext) (fuel : Nat) :
    (parseStructs env exampleNested Program.init).structs = [exampleOuter, exampleInner] ∧
    (printStructDefs ext (fuel + 1) (List.range 2)
      (parseStructs env exampleNested Program.init).unsetAllInit.structs).map Prod.fst =
      some (ext.structPrint exampleOuter ++ "\n".toList ++
        (ext.structPrint exampleInner ++ "\n".toList)) ∧
    ((parseStructs exampleEnv exampleNested Program.init).print exampleExt 1).map Prod.fst =
      some ("//Struct declarations\nstruct s_outer;\nstruct s_inner;\n\n".toList ++
        "//Struct definitions\nstruct s_outer \x7b\x7d;\nstruct s_inner \x7b\x7d;\n\n".toList)
    := by
  have hs : (parseStructs env exampleNested Program.init).structs =
      [exampleOuter, exampleInner] := by
    obtain ⟨ts, nf⟩ := env
    cases nf <;>
    simp [parseStructs, exampleNested, addItems, getType, structCName, Program.init,
      getStructVarName, Struct.addItem, voidTypeDefault, exampleOuter, exampleInner] <;>
    exact ⟨rfl, rfl⟩
  have h2 : List.range 2 = [0, 1] := rfl
  refine ⟨hs, ?_, by decide⟩
  simp only [Program.unsetAllInit, hs]
  rw [h2]
  simp [printStructDefs, Program.printStruct, printStructItems, printStructItem,
    printStructsNamed, exampleOuter, exampleInner, List.enum, List.enumFrom]

theorem printStructDecls_eq (structs : List Struct) :
    printStructDecls (structs.map (fun strct => { strct with isPrinted := false })) =
      (structs.map (fun s => "struct ".toList ++ s.name ++ ";\n".toList)).flatten := by
  induction structs with
  | nil => rfl
  | cons s rest ih => simp [printStructDecls, ih]

theorem printGlobalDecls_eq (ext : Ext) (globals : List GlobalValue) :
    printGlobalDecls ext globals =
      (globals.map (fun g => ext.declToString g ++ "\n".toList)).flatten := by
  induction globals with
  | nil => rfl
  | cons g rest ih => simp [printGlobalDecls, ih]

theorem printGlobalDefs_eq (ext : Ext) (globals : List GlobalValue) :
    printGlobalDefs ext globals =
      ((globals.map (fun g => ext.toString g ++ "\n".toList)).flatten,
        globals.map (fun g => { g with init := true })) := by
  induction globals with
  | nil => rfl
  | cons g rest ih => simp [printGlobalDefs, ih]

/-- C12: when the struct part and the two function parts complete, `Program::print`
writes, in this order: the stdarg include (exactly when `hasVarArg` is set), the forward
declarations of the structs, the struct definitions, the declarations of all globals in
list order, the definitions of all globals in list order, the function declarations and
the function definitions. -/
theorem print_sections (ext : Ext) (fuel : Nat) (p : Program)
    (hs : (printStructSection ext fuel p.unsetAllInit.structs).isSome = true)
    (hd : (printFuncs ext p.declarations).isSome = true)
    (hf : (printFuncs ext p.functions).isSome = true) :
    ∃ defs decls funcs p',
      (p.structs.isEmpty = false →
        (printStructDefs ext fuel (List.range p.structs.length)
          p.unsetAllInit.structs).map Prod.fst = some defs) ∧
      (printFuncs ext p.declarations).map Prod.fst = some decls ∧
      (printFuncs ext p.functions).map Prod.fst = some funcs ∧
      p.print ext fuel = some (
        (if p.hasVarArg then "#include <stdarg.h>\n\n".toList else []) ++
        (if p.structs.isEmpty then []
          else "//Struct declarations\n".toList ++
            (p.structs.map (fun s => "struct ".toList ++ s.name ++ ";\n".toList)).flatten ++
            "\n".toList ++ "//Struct definitions\n".toList ++ defs ++ "\n".toList) ++
        (if p.globalVars.isEmpty then []
          else "//Global variable declarations\n".toList ++
            (p.globalVars.map (fun g =>
              ext.declToString { g with init := false } ++ "\n".toList)).flatten ++
            "\n".toList ++ "//Global variable definitions\n".toList ++
            (p.globalVars.map (fun g =>
              ext.toString { g with init := false } ++ "\n".toList)).flatten ++
            "\n".toList) ++
        (if p.declarations.isEmpty then []
          else "//Function declarations\n".toList ++ decls ++ "\n".toList) ++
        (if p.functions.isEmpty then []
          else "//Function definitions\n".toList ++ funcs), p') := by
  cases hpd : printFuncs ext p.declarations with
  | none => rw [hpd] at hd; cases hd
  | some rd =>
  cases hpf : printFuncs ext p.functions with
  | none => rw [hpf] at hf; cases hf
  | some rf =>
  obtain ⟨decls, ds⟩ := rd
  obtain ⟨funcs, fs⟩ := rf
  have hstructs : p.unsetAllInit.structs =
      p.structs.map (fun strct => { strct with isPrinted := false }) := rfl
  have hglobals : p.unsetAllInit.globalVars =
      p.globalVars.map (fun gvar => { gvar with init := false }) := rfl
  have hdecls : p.unsetAllInit.declarations = p.declarations := rfl
  have hfuncs : p.unsetAllInit.functions = p.functions := rfl
  have hva : p.unsetAllInit.hasVarArg = p.hasVarArg := rfl
  have hgsec : (printGlobalSection ext p.unsetAllInit.globalVars).1 =
      (if p.globalVars.isEmpty then []
        else "//Global variable declarations\n".toList ++
          (p.globalVars.map (fun g =>
            ext.declToString { g with init := false } ++ "\n".toList)).flatten ++
          "\n".toList ++ "//Global variable definitions\n".toList ++
          (p.globalVars.map (fun g =>
            ext.toString { g with init := false } ++ "\n".toList)).flatten ++
          "\n".toList) := by
    rw [hglobals]
    unfold printGlobalSection
    cases hg : p.globalVars with
    | nil => rfl
    | cons g rest =>
        simp only [List.map_cons, List.isEmpty_cons, Bool.not_false, if_true,
          printGlobalDecls_eq, printGlobalDefs_eq, List.map_map, Bool.false_eq_true, if_false,
          List.append_assoc]
        rfl
  have hdsec : printDeclSection ext p.unsetAllInit.declarations =
      some ((if p.declarations.isEmpty then []
        else "//Function declarations\n".toList ++ decls ++ "\n".toList),
        if p.declarations.isEmpty then p.declarations else ds) := by
    rw [hdecls]
    unfold printDeclSection
    cases hl : p.declarations.isEmpty
    · simp only [Bool.not_false, if_true, hpd, Bool.false_eq_true, if_false]
    · simp only [Bool.not_true, Bool.false_eq_true, if_false, if_true]
  have hfsec : printFuncSection ext p.unsetAllInit.functions =
      some ((if p.functions.isEmpty then []
        else "//Function definitions\n".toList ++ funcs),
        if p.functions.isEmpty then p.functions else fs) := by
    rw [hfuncs]
    unfold printFuncSection
    cases hl : p.functions.isEmpty
    · simp only [Bool.not_false, if_true, hpf, Bool.false_eq_true, if_false]
    · simp only [Bool.not_true, Bool.false_eq_true, if_false, if_true]
  cases hl : p.structs.isEmpty
  · have hl' : (p.structs.map (fun strct : Struct =>
        { strct with isPrinted := false })).isEmpty = false := by
      cases hq : p.structs with
      | nil => rw [hq] at hl; cases hl
      | cons a b => rfl
    have hlen : (p.structs.map (fun strct : Struct =>
        { strct with isPrinted := false })).length = p.structs.length := List.length_map _ _
    rw [hstructs] at hs
    unfold printStructSection at hs
    simp only [hl', Bool.not_false, if_true, hlen] at hs
    cases hpsd : printStructDefs ext fuel (List.range p.structs.length)
        (p.structs.map (fun strct => { strct with isPrinted := false })) with
    | none => rw [hpsd] at hs; cases hs
    | some rs =>
        obtain ⟨defs, structs1⟩ := rs
        refine ⟨defs, decls, funcs,
          { p.unsetAllInit with
            structs := structs1
            globalVars := (printGlobalSection ext p.unsetAllInit.globalVars).2
            declarations := if p.declarations.isEmpty then p.declarations else ds
            functions := if p.functions.isEmpty then p.functions else fs },
          (fun _ => by rw [hstructs, hpsd]; rfl), rfl, rfl, ?_⟩
        unfold Program.print
        simp only [hva, hdsec, hfsec, hgsec]
        rw [hstructs]
        unfold printStructSection
        simp only [hl', Bool.not_false, if_true, hlen, hpsd, printStructDecls_eq,
          Bool.false_eq_true, if_false, List.append_assoc]
  · have hnil : p.structs = [] := List.isEmpty_iff.mp hl
    refine ⟨[], decls, funcs,
      { p.unsetAllInit with
        structs := []
        globalVars := (printGlobalSection ext p.unsetAllInit.globalVars).2
        declarations := if p.declarations.isEmpty then p.declarations else ds
        functions := if p.functions.isEmpty then p.functions else fs },
      (fun h => by cases h), rfl, rfl, ?_⟩
    unfold Program.print
    simp only [hva, hdsec, hfsec, hgsec]
    rw [hstructs, hnil]
    simp only [List.map_nil, printStructSection, List.isEmpty_nil, Bool.not_true,
      Bool.false_eq_true, if_false, if_true, List.append_assoc, List.nil_append]

set_option maxRecDepth 100000 in
/-- Witness for C12: the example program, with two structs, two globals and a function. -/
theorem print_sections_witness :
    (printStructSection exampleExt 1 exampleProgram.unsetAllInit.structs).isSome = true ∧
    (printFuncs exampleExt exampleProgram.declarations).isSome = true ∧
    (printFuncs exampleExt exampleProgram.functions).isSome = true ∧
    ∃ p', exampleProgram.print exampleExt 1 = some (
      ("//Struct declarations\nstruct s_outer;\nstruct s_inner;\n\n".toList ++
       "//Struct definitions\nstruct s_outer \x7b\x7d;\nstruct s_inner \x7b\x7d;\n\n".toList ++
       "//Global variable declarations\n_str_1;\ncounter;\n\n".toList ++
       "//Global variable definitions\n_str_1 = \x7b104, 105, 0\x7d;\ncounter = -42;\n\n".toList
       ++ "//Function definitions\nint add(int var0, int var1) \x7b\n    goto block0;\n".toList
       ++ "block1:\n    goto block1;\nblock2:\n    goto block2;\n\x7d\n\n".toList), p') :=
  have h1 : (printStructSection exampleExt 1 exampleProgram.unsetAllInit.structs).isSome
      = true := by decide
  have h2 : (printFuncs exampleExt exampleProgram.declarations).isSome = true := by decide
  have h3 : (printFuncs exampleExt exampleProgram.functions).isSome = true := by decide
  ⟨h1, h2, h3, by
    obtain ⟨defs, decls, funcs, p', hdefs, hdecls, hfuncs, hp⟩ :=
      print_sections exampleExt 1 exampleProgram h1 h2 h3
    have e1 : defs = "struct s_outer \x7b\x7d;\nstruct s_inner \x7b\x7d;\n".toList :=
      Option.some.inj ((hdefs rfl).symm.trans rfl)
    have e2 : decls = [] := Option.some.inj (hdecls.symm.trans rfl)
    have e3 : funcs = ("int add(int var0, int var1) \x7b\n    goto block0;\n".toList
        ++ "block1:\n    goto block1;\nblock2:\n    goto block2;\n\x7d\n\n".toList) :=
      Option.some.inj (hfuncs.symm.trans rfl)
    subst e1 e2 e3
    exact ⟨p', hp.trans rfl⟩⟩

/-! ## Printing twice -/

theorem printArgs_congr (ext : Ext) (f g : Func) (h : g.exprMap = f.exprMap) :
    ∀ (args : List Argument) (first : Bool),
      Func.printArgs ext g args first = Func.printArgs ext f args first
  | [], _ => rfl
  | arg :: rest, first => by
      simp only [Func.printArgs, h, printArgs_congr ext f g h rest false]

theorem Func.print_sameUpToInit (ext : Ext) (f g : Func) (h : f.sameUpToInit g) :
    (g.print ext).map Prod.fst = (f.print ext).map Prod.fst := by
  obtain ⟨h1, h2, h3, h4⟩ := h
  have hb := printBlocks_text ext f.function.blocks true f.blockMap
  have hb' := printBlocks_text ext f.function.blocks true g.blockMap
  rw [h4, ← hb] at hb'
  unfold Func.print
  rw [h1, h2, printArgs_congr ext f g h3]
  cases f.returnType with
  | none => rfl
  | some rt =>
    cases Func.printArgs ext f f.function.args true with
    | none => rfl
    | some args =>
      cases hx : Func.printBlocks ext f.function.blocks true f.blockMap with
      | none =>
          rw [hx] at hb'
          cases hy : Func.printBlocks ext f.function.blocks true g.blockMap with
          | none => rfl
          | some r => rw [hy] at hb'; cases hb'
      | some r =>
          rw [hx] at hb'
          cases hy : Func.printBlocks ext f.function.blocks true g.blockMap with
          | none => rw [hy] at hb'; cases hb'
          | some r' =>
              rw [hy] at hb'
              obtain ⟨t, m⟩ := r
              obtain ⟨t', m'⟩ := r'
              simp only [Option.map_some', Option.some.injEq] at hb'
              subst hb'
              rfl

theorem Func.print_result (ext : Ext) (f : Func) (r : Str × Func)
    (h : f.print ext = some r) : f.sameUpToInit r.2 := by
  unfold Func.print at h
  cases hrt : f.returnType with
  | none => rw [hrt] at h; cases h
  | some rt =>
    rw [hrt] at h
    cases ha : Func.printArgs ext f f.function.args true with
    | none => rw [ha] at h; cases h
    | some args =>
      rw [ha] at h
      cases hx : Func.printBlocks ext f.function.blocks true f.blockMap with
      | none => rw [hx] at h; cases h
      | some rb =>
          rw [hx] at h
          obtain ⟨t, m⟩ := rb
          simp only [Option.some.injEq] at h
          subst h
          exact ⟨rfl, hrt.symm ▸ rfl, rfl, printBlocks_resetMap ext _ _ _ _ hx⟩

theorem Func.print_again (ext : Ext) (f : Func) (t : Str) (f1 : Func)
    (h : f.print ext = some (t, f1)) : ∃ f2, f1.print ext = some (t, f2) := by
  have h1 := Func.print_sameUpToInit ext f f1 (Func.print_result ext f _ h)
  rw [h] at h1
  cases hx : f1.print ext with
  | none => rw [hx] at h1; cases h1
  | some r =>
      rw [hx] at h1
      obtain ⟨t', f2⟩ := r
      simp only [Option.map_some', Option.some.injEq] at h1
      subst h1
      exact ⟨f2, rfl⟩

theorem printFuncs_again (ext : Ext) :
    ∀ (fs : List Func) (t : Str) (fs1 : List Func), printFuncs ext fs = some (t, fs1) →
      fs1.isEmpty = fs.isEmpty ∧ ∃ fs2, printFuncs ext fs1 = some (t, fs2)
  | [], t, fs1, h => by
      simp only [printFuncs, Option.some.injEq, Prod.mk.injEq] at h
      obtain ⟨h1, h2⟩ := h
      subst h1 h2
      exact ⟨rfl, [], rfl⟩
  | f :: rest, t, fs1, h => by
      simp only [printFuncs] at h
      cases hf : f.print ext with
      | none => rw [hf] at h; cases h
      | some r =>
          obtain ⟨t1, f1⟩ := r
          rw [hf] at h
          simp only [] at h
          cases hr : printFuncs ext rest with
          | none => rw [hr] at h; cases h
          | some rr =>
              obtain ⟨t2, fs'⟩ := rr
              rw [hr] at h
              simp only [Option.some.injEq, Prod.mk.injEq] at h
              obtain ⟨h1, h2⟩ := h
              subst h1 h2
              obtain ⟨f2, hf2⟩ := Func.print_again ext f t1 f1 hf
              obtain ⟨-, fs2, hfs2⟩ := printFuncs_again ext rest t2 fs' hr
              exact ⟨rfl, f2 :: fs2, by simp only [printFuncs, hf2, hfs2]⟩

theorem printDeclSection_again (ext : Ext) (ds : List Func) (t : Str) (ds1 : List Func)
    (h : printDeclSection ext ds = some (t, ds1)) :
    ∃ ds2, printDeclSection ext ds1 = some (t, ds2) := by
  unfold printDeclSection at h
  cases he : ds.isEmpty with
  | true =>
      rw [he] at h
      simp only [Bool.not_true, Bool.false_eq_true, if_false, Option.some.injEq,
        Prod.mk.injEq] at h
      obtain ⟨h1, h2⟩ := h
      subst h1 h2
      exact ⟨ds, by unfold printDeclSection; rw [he]; rfl⟩
  | false =>
      rw [he] at h
      simp only [Bool.not_false, if_true] at h
      cases hp : printFuncs ext ds with
      | none => rw [hp] at h; cases h
      | some r =>
          obtain ⟨text, fs⟩ := r
          rw [hp] at h
          simp only [Option.some.injEq, Prod.mk.injEq] at h
          obtain ⟨h1, h2⟩ := h
          subst h1 h2
          obtain ⟨hemp, fs2, hfs2⟩ := printFuncs_again ext ds text fs hp
          rw [he] at hemp
          exact ⟨fs2, by unfold printDeclSection; rw [hemp]; simp only [Bool.not_false,
            if_true, hfs2]⟩

theorem printFuncSection_again (ext : Ext) (fs : List Func) (t : Str) (fs1 : List Func)
    (h : printFuncSection ext fs = some (t, fs1)) :
    ∃ fs2, printFuncSection ext fs1 = some (t, fs2) := by
  unfold printFuncSection at h
  cases he : fs.isEmpty with
  | true =>
      rw [he] at h
      simp only [Bool.not_true, Bool.false_eq_true, if_false, Option.some.injEq,
        Prod.mk.injEq] at h
      obtain ⟨h1, h2⟩ := h
      subst h1 h2
      exact ⟨fs, by unfold printFuncSection; rw [he]; rfl⟩
  | false =>
      rw [he] at h
      simp only [Bool.not_false, if_true] at h
      cases hp : printFuncs ext fs with
      | none => rw [hp] at h; cases h
      | some r =>
          obtain ⟨text, gs⟩ := r
          rw [hp] at h
          simp only [Option.some.injEq, Prod.mk.injEq] at h
          obtain ⟨h1, h2⟩ := h
          subst h1 h2
          obtain ⟨hemp, fs2, hfs2⟩ := printFuncs_again ext fs text gs hp
          rw [he] at hemp
          exact ⟨fs2, by unfold printFuncSection; rw [hemp]; simp only [Bool.not_false,
            if_true, hfs2]⟩

theorem set_printed_unsetPrinted :
    ∀ (structs : List Struct) (i : Nat) (cur : Struct), structs[i]? = some cur →
      (structs.set i { cur with isPrinted := true }).map Struct.unsetPrinted =
        structs.map Struct.unsetPrinted
  | [], _, _, _ => rfl
  | a :: rest, 0, cur, h => by
      simp only [List.getElem?_cons_zero, Option.some.injEq] at h
      subst h
      rfl
  | a :: rest, i + 1, cur, h => by
      simp only [List.getElem?_cons_succ] at h
      simp only [List.set_cons_succ, List.map_cons, set_printed_unsetPrinted rest i cur h]

theorem printStructOf_flags (rec : Nat → List Struct → Option (Str × List Struct))
    (hrec : FlagsOnly rec) (structName : Str) (structs : List Struct)
    (r : Str × List Struct) (h : printStructOf rec structName structs = some r) :
    r.2.map Struct.unsetPrinted = structs.map Struct.unsetPrinted := by
  unfold printStructOf at h
  cases hg : getStructFrom structName structs 0 with
  | none => rw [hg] at h; cases h
  | some o =>
      cases o with
      | none => rw [hg] at h; cases h
      | some i => rw [hg] at h; exact hrec i structs r h

theorem printStructsNamed_flags (rec : Nat → List Struct → Option (Str × List Struct))
    (hrec : FlagsOnly rec) (name : Str) :
    ∀ (names : List (Nat × Str)) (structs : List Struct) (r : Str × List Struct),
      printStructsNamed rec name names structs = some r →
        r.2.map Struct.unsetPrinted = structs.map Struct.unsetPrinted
  | [], structs, r, h => by
      simp only [printStructsNamed, Option.some.injEq] at h
      subst h; rfl
  | (j, sName) :: rest, structs, r, h => by
      simp only [printStructsNamed] at h
      by_cases hn : sName = name
      · simp only [hn, if_true] at h
        cases h1 : rec j structs with
        | none => rw [h1] at h; cases h
        | some r1 =>
            obtain ⟨t1, structs1⟩ := r1
            rw [h1] at h
            simp only [] at h
            cases h2 : printStructsNamed rec name rest structs1 with
            | none => rw [h2] at h; cases h
            | some r2 =>
                obtain ⟨t2, structs2⟩ := r2
                rw [h2] at h
                simp only [Option.some.injEq] at h
                subst h
                have e1 := hrec j structs _ h1
                have e2 := printStructsNamed_flags rec hrec name rest structs1 _ h2
                exact e2.trans e1
      · simp only [hn, if_false] at h
        exact printStructsNamed_flags rec hrec name rest structs r h

theorem printStructItem_flags (ext : Ext)
    (rec : Nat → List Struct → Option (Str × List Struct)) (hrec : FlagsOnly rec)
    (item : Option CType × Str) (structs : List Struct) (r : Str × List Struct)
    (h : printStructItem ext rec item structs = some r) :
    r.2.map Struct.unsetPrinted = structs.map Struct.unsetPrinted := by
  have hsame : ∀ t : Str, some (t, structs) = some r →
      r.2.map Struct.unsetPrinted = structs.map Struct.unsetPrinted := by
    intro t ht
    simp only [Option.some.injEq] at ht
    subst ht; rfl
  unfold printStructItem at h
  split at h
  · split at h
    · exact printStructOf_flags rec hrec _ structs r h
    · exact hsame _ h
  · split at h
    · exact printStructOf_flags rec hrec _ structs r h
    · exact hsame _ h
  · exact printStructsNamed_flags rec hrec _ _ structs r h
  · exact hsame _ h

theorem printStructItems_flags (ext : Ext)
    (rec : Nat → List Struct → Option (Str × List Struct)) (hrec : FlagsOnly rec) :
    ∀ (items : List (Option CType × Str)) (structs : List Struct) (r : Str × List Struct),
      printStructItems ext rec items structs = some r →
        r.2.map Struct.unsetPrinted = structs.map Struct.unsetPrinted
  | [], structs, r, h => by
      simp only [printStructItems, Option.some.injEq] at h
      subst h; rfl
  | item :: rest, structs, r, h => by
      simp only [printStructItems] at h
      cases h1 : printStructItem ext rec item structs with
      | none => rw [h1] at h; cases h
      | some r1 =>
          obtain ⟨t1, structs1⟩ := r1
          rw [h1] at h
          simp only [] at h
          cases h2 : printStructItems ext rec rest structs1 with
          | none => rw [h2] at h; cases h
          | some r2 =>
              obtain ⟨t2, structs2⟩ := r2
              rw [h2] at h
              simp only [Option.some.injEq] at h
              subst h
              have e1 := printStructItem_flags ext rec hrec item structs _ h1
              have e2 := printStructItems_flags ext rec hrec rest structs1 _ h2
              exact e2.trans e1

theorem printStruct_flags (ext : Ext) : ∀ fuel : Nat, FlagsOnly (Program.printStruct ext fuel)
  | 0 => by
      intro i structs r h
      simp only [Program.printStruct] at h
      cases h
  | fuel + 1 => by
      intro i structs r h
      simp only [Program.printStruct] at h
      cases hs : structs[i]? with
      | none => rw [hs] at h; cases h
      | some strct =>
          rw [hs] at h
          simp only [] at h
          cases h1 : printStructItems ext (Program.printStruct ext fuel) strct.items structs with
          | none => rw [h1] at h; cases h
          | some r1 =>
              obtain ⟨t1, structs1⟩ := r1
              rw [h1] at h
              simp only [] at h
              have e1 := printStructItems_flags ext _ (printStruct_flags ext fuel) _ _ _ h1
              cases hc : structs1[i]? with
              | none => rw [hc] at h; cases h
              | some cur =>
                  rw [hc] at h
                  simp only [] at h
                  cases hp : cur.isPrinted with
                  | false =>
                      rw [hp] at h
                      simp only [Bool.not_false, if_true, Option.some.injEq] at h
                      subst h
                      exact (set_printed_unsetPrinted structs1 i cur hc).trans e1
                  | true =>
                      rw [hp] at h
                      simp only [Bool.not_true, Bool.false_eq_true, if_false,
                        Option.some.injEq] at h
                      subst h
                      exact e1

theorem printStructDefs_flags (ext : Ext) (fuel : Nat) :
    ∀ (is : List Nat) (structs : List Struct) (r : Str × List Struct),
      printStructDefs ext fuel is structs = some r →
        r.2.map Struct.unsetPrinted = structs.map Struct.unsetPrinted
  | [], structs, r, h => by
      simp only [printStructDefs, Option.some.injEq] at h
      subst h; rfl
  | i :: rest, structs, r, h => by
      simp only [printStructDefs] at h
      cases hs : structs[i]? with
      | none => rw [hs] at h; cases h
      | some strct =>
          rw [hs] at h
          simp only [] at h
          cases hp : strct.isPrinted with
          | true =>
              rw [hp] at h
              simp only [Bool.not_true, Bool.false_eq_true, if_false] at h
              exact printStructDefs_flags ext fuel rest structs r h
          | false =>
              rw [hp] at h
              simp only [Bool.not_false, if_true] at h
              cases h1 : Program.printStruct ext fuel i structs with
              | none => rw [h1] at h; cases h
              | some r1 =>
                  obtain ⟨t1, structs1⟩ := r1
                  rw [h1] at h
                  simp only [] at h
                  cases h2 : printStructDefs ext fuel rest structs1 with
                  | none => rw [h2] at h; cases h
                  | some r2 =>
                      obtain ⟨t2, structs2⟩ := r2
                      rw [h2] at h
                      simp only [Option.some.injEq] at h
                      subst h
                      have e1 := printStruct_flags ext fuel i structs _ h1
                      have e2 := printStructDefs_flags ext fuel rest structs1 _ h2
                      exact e2.trans e1

theorem printStructSection_flags (ext : Ext) (fuel : Nat) (structs : List Struct)
    (r : Str × List Struct) (h : printStructSection ext fuel structs = some r) :
    r.2.map Struct.unsetPrinted = structs.map Struct.unsetPrinted := by
  unfold printStructSection at h
  cases he : structs.isEmpty with
  | true =>
      rw [he] at h
      simp only [Bool.not_true, Bool.false_eq_true, if_false, Option.some.injEq] at h
      subst h; rfl
  | false =>
      rw [he] at h
      simp only [Bool.not_false, if_true] at h
      cases h1 : printStructDefs ext fuel (List.range structs.length) structs with
      | none => rw [h1] at h; cases h
      | some r1 =>
          obtain ⟨t1, structs1⟩ := r1
          rw [h1] at h
          simp only [Option.some.injEq] at h
          subst h
          exact printStructDefs_flags ext fuel _ structs (t1, structs1) h1

theorem printGlobalSection_flags (ext : Ext) (globalVars : List GlobalValue) :
    (printGlobalSection ext globalVars).2.map GlobalValue.unsetInit =
      globalVars.map GlobalValue.unsetInit := by
  unfold printGlobalSection
  cases he : globalVars.isEmpty with
  | true => rfl
  | false =>
      simp only [Bool.not_false, if_true, printGlobalDefs_eq, List.map_map]
      apply List.map_congr_left
      intro g _
      rfl

theorem unsetPrinted_idem (structs : List Struct) :
    (structs.map Struct.unsetPrinted).map Struct.unsetPrinted =
      structs.map Struct.unsetPrinted := by
  rw [List.map_map]
  apply List.map_congr_left
  intro s _
  rfl

theorem unsetInit_idem (globalVars : List GlobalValue) :
    (globalVars.map GlobalValue.unsetInit).map GlobalValue.unsetInit =
      globalVars.map GlobalValue.unsetInit := by
  rw [List.map_map]
  apply List.map_congr_left
  intro g _
  rfl

/-- C14: when a call of `Program::print` completes, a second call right after it completes
too and writes the same text; at the start of each of the two passes, after
`Program::unsetAllInit`, the `init` flag of every global and the `isPrinted` flag of every
struct is false. -/
theorem print_twice (ext : Ext) (fuel : Nat) (p : Program)
    (h : (p.print ext fuel).isSome = true) :
    ∃ out p1 p2, p.print ext fuel = some (out, p1) ∧ p1.print ext fuel = some (out, p2) ∧
      (∀ g ∈ p.unsetAllInit.globalVars, g.init = false) ∧
      (∀ s ∈ p.unsetAllInit.structs, s.isPrinted = false) ∧
      (∀ g ∈ p1.unsetAllInit.globalVars, g.init = false) ∧
      (∀ s ∈ p1.unsetAllInit.structs, s.isPrinted = false) := by
  have hflagsG : ∀ q : Program, ∀ g ∈ q.unsetAllInit.globalVars, g.init = false := by
    intro q g hg
    simp only [Program.unsetAllInit, List.mem_map] at hg
    obtain ⟨g0, -, rfl⟩ := hg
    rfl
  have hflagsS : ∀ q : Program, ∀ s ∈ q.unsetAllInit.structs, s.isPrinted = false := by
    intro q s hs
    simp only [Program.unsetAllInit, List.mem_map] at hs
    obtain ⟨s0, -, rfl⟩ := hs
    rfl
  have hS : ∀ q : Program, q.unsetAllInit.structs = q.structs.map Struct.unsetPrinted :=
    fun _ => rfl
  have hG : ∀ q : Program, q.unsetAllInit.globalVars = q.globalVars.map GlobalValue.unsetInit :=
    fun _ => rfl
  cases hs : printStructSection ext fuel p.unsetAllInit.structs with
  | none => simp only [Program.print, hs] at h; cases h
  | some rs =>
  obtain ⟨st, s1⟩ := rs
  cases hd : printDeclSection ext p.unsetAllInit.declarations with
  | none => simp only [Program.print, hs, hd] at h; cases h
  | some rd =>
  obtain ⟨dt, d1⟩ := rd
  cases hf : printFuncSection ext p.unsetAllInit.functions with
  | none => simp only [Program.print, hs, hd, hf] at h; cases h
  | some rf =>
  obtain ⟨ft, f1⟩ := rf
  obtain ⟨d2, hd2⟩ := printDeclSection_again ext _ _ _ hd
  obtain ⟨f2, hf2⟩ := printFuncSection_again ext _ _ _ hf
  have hp1 : p.print ext fuel = some (
      (if p.unsetAllInit.hasVarArg then "#include <stdarg.h>\n\n".toList else []) ++ st ++
        (printGlobalSection ext p.unsetAllInit.globalVars).1 ++ dt ++ ft,
      { p.unsetAllInit with
        structs := s1
        globalVars := (printGlobalSection ext p.unsetAllInit.globalVars).2
        declarations := d1
        functions := f1 }) := by
    simp only [Program.print, hs, hd, hf]
  refine ⟨_, _, ?_, hp1, ?_, hflagsG p, hflagsS p, hflagsG _, hflagsS _⟩
  · exact { p.unsetAllInit with
        structs := s1
        globalVars := (printGlobalSection ext p.unsetAllInit.globalVars).2
        declarations := d2
        functions := f2 }
  · have es : s1.map Struct.unsetPrinted = p.unsetAllInit.structs := by
      rw [printStructSection_flags ext fuel _ (st, s1) hs, hS, unsetPrinted_idem]
    have eg : (printGlobalSection ext p.unsetAllInit.globalVars).2.map GlobalValue.unsetInit =
        p.unsetAllInit.globalVars := by
      rw [printGlobalSection_flags, hG, unsetInit_idem]
    unfold Program.print
    simp only [hS, hG] at es eg ⊢
    simp only [Program.unsetAllInit] at es eg hs hd2 hf2 ⊢
    simp only [es, eg, hs, hd2, hf2]
    rw [show printStructSection ext fuel (List.map Struct.unsetPrinted p.structs) =
      some (st, s1) from hs]

set_option maxRecDepth 100000 in
/-- Witness for C14: the example program is printed twice, with the same text. -/
theorem print_twice_witness :
    (exampleProgram.print exampleExt 1).isSome = true ∧
    ∃ out p1 p2, exampleProgram.print exampleExt 1 = some (out, p1) ∧
      p1.print exampleExt 1 = some (out, p2) ∧ out.length = 357 :=
  have h : (exampleProgram.print exampleExt 1).isSome = true := by decide
  ⟨h, by
    obtain ⟨out, p1, p2, h1, h2, -⟩ := print_twice exampleExt 1 exampleProgram h
    have e : (exampleProgram.print exampleExt 1).map (fun r => r.1.length) = some 357 := by
      decide
    rw [h1] at e
    exact ⟨out, p1, p2, h1, h2, Option.some.inj e⟩⟩

/-! ## Unsupported types -/

/-- C24 fails as stated: for an array of four elements of an unsupported type (such as
`[4 x half]`) `TypeHandler::getType` returns an `ArrayType` whose element type is null, not
a null result. -/
theorem getType_array_of_unsupported :
    (getType exampleEnv (.array .other 4) false Program.init).1 = some (.ArrayType none 4) ∧
    (getType exampleEnv (.array .other 4) false Program.init).1 ≠ none := by
  refine ⟨rfl, ?_⟩
  intro h
  cases h

/-- C24, amended: `TypeHandler::getType` returns a null result for a type it has no case
for, and for no other type; for an array, a pointer or a function type it returns an
`ArrayType`, `PointerType` or `FunctionType` whose element, pointee or return type is what
`getType` returns for that component, so it is null there when the component is
unsupported. -/
theorem getType_unsupported_component (env : Env) (v : Bool) (p : Program) :
    (getType env .other v p).1 = none ∧
    (∀ t, (getType env t v p).1 = none ↔ t = .other) ∧
    (∀ t n, (getType env (.array t n) v p).1 = some (.ArrayType (getType env t v p).1 n)) ∧
    (∀ t, (getType env (.pointer t) v p).1 = some (.PointerType (getType env t v p).1)) ∧
    (∀ r ps, ∃ qs, (getType env (.function r ps) v p).1 =
      some (.FunctionType (getType env r v p).1 qs)) ∧
    (∀ n, (getType env (.array .other n) v p).1 = some (.ArrayType none n)) ∧
    (∀ ps, ∃ qs, (getType env (.function .other ps) v p).1 = some (.FunctionType none qs)) ∧
    (getType env (.pointer .other) v p).1 = some (.PointerType none) := by
  have hfun : ∀ r ps, ∃ qs, (getType env (.function r ps) v p).1 =
      some (.FunctionType (getType env r v p).1 qs) := by
    intro r ps
    cases ps with
    | nil => exact ⟨_, rfl⟩
    | cons a rest => exact ⟨_, rfl⟩
  refine ⟨rfl, ?_, fun _ _ => rfl, fun _ => rfl, hfun, fun _ => rfl, ?_, rfl⟩
  · intro t
    constructor
    · intro h
      by_contra hne
      obtain ⟨c, hc⟩ := getType_ne_none env t v p hne
      rw [hc] at h
      cases h
    · intro h
      subst h
      rfl
  · intro ps
    exact hfun .other ps

/-! ## The file name -/

/-- C29, at an input where the code departs from it: for the path `dir/prog`, which has no
'.', `find_last_of` returns `npos`, the `unsigned` local holds 4294967295, and
`fileName.erase(4294967295, 4)` throws `std::out_of_range`, so the name is not left whole;
the same for the plain `prog`. For `dir/prog.ll` the result is `prog`. -/
theorem fileNameOf_without_extension :
    findLastOf ['\\', '.'] "prog".toList % 2 ^ 32 = 4294967295 ∧
    erase "prog".toList 4294967295 4 = none ∧
    Program.fileNameOf "dir/prog".toList = none ∧
    Program.fileNameOf "prog".toList = none ∧
    Program.fileNameOf "dir/prog.ll".toList = some "prog".toList := by
  decide

/-! ## Saving to a file -/

/-- C25, at inputs where the code departs from it: for the module with nothing in it
`Program::print` writes nothing and `Program::saveFile` writes the header
`//Function definitions`, which it does not put under `if (!functions.empty())`; and for
the function `add` `Func::print` begins with the return type `int` and `Func::saveFile`
with the name of the function, the texts of the arguments and blocks being the same. -/
theorem saveFile_differs_from_print (env : Env) (ext : Ext) (fx : FileExt) (fuel : Nat) :
    (Program.init.print ext fuel).map Prod.fst = some [] ∧
    (Program.init.saveFile env ext fx fuel).map Prod.fst =
      some "//Function definitions\n".toList ∧
    ((Func.new exampleExt exampleFunc false).print exampleExt).map Prod.fst = some
      ("int add(int var0, int var1) \x7b\n    goto block0;\nblock1:\n".toList
        ++ "    goto block1;\nblock2:\n    goto block2;\n\x7d\n\n".toList) ∧
    ((Func.new exampleExt exampleFunc false).saveFile exampleFileExt).map Prod.fst = some
      ("add(int var0, int var1) \x7b\n    goto block0;\nblock1:\n".toList
        ++ "    goto block1;\nblock2:\n    goto block2;\n\x7d\n\n".toList) := by
  refine ⟨rfl, rfl, ?_, ?_⟩
  · decide
  · decide

/-! ## Structs that refer to a struct of their own name -/

theorem exampleShadowed_structs (env : Env) :
    (parseStructs env exampleShadowed Program.init).structs =
      [{ name := "s_b".toList, ctorFlag := false,
         items := [(some (.StructType "s_b".toList), "structVar0".toList)],
         isPrinted := false },
       { name := "s_s_b".toList, ctorFlag := false,
         items := [(some (.IntType false), "structVar1".toList)], isPrinted := false }] := by
  obtain ⟨ts, nf⟩ := env
  cases nf <;>
  simp [parseStructs, exampleShadowed, addItems, getType, structCName, Program.init,
    getStructVarName, Struct.addItem, voidTypeDefault] <;>
  exact ⟨rfl, rfl⟩

theorem printStruct_shadowed (env : Env) (ext : Ext) :
    ∀ fuel : Nat,
      Program.printStruct ext fuel 0 (parseStructs env exampleShadowed Program.init).structs
        = none
  | 0 => rfl
  | fuel + 1 => by
      have ih := printStruct_shadowed env ext fuel
      rw [exampleShadowed_structs] at ih ⊢
      simp at ih
      simp [Program.printStruct, printStructItems, printStructItem, printStructsNamed,
        List.enum, List.enumFrom, ih]

/-- C26, at an input where the code departs from it: for the module with
`%struct.b = type { %struct.s_b }` and `%struct.s_b = type { i32 }` the struct list holds
`s_b` and `s_s_b`, the field of `s_b` has the type `StructType{"s_b"}`, a name that is
present in the list, and `Program::printStruct` on `s_b` calls itself on `s_b` before it
looks at `isPrinted`: whatever depth the recursion is allowed, it does not return, and
neither do `Program::saveStruct` and `Program::print`. No lookup fails on the way. -/
theorem printStruct_self_reference (env : Env) (ext : Ext) (fuel : Nat) :
    (parseStructs env exampleShadowed Program.init).structs.map (fun s => s.name) =
      ["s_b".toList, "s_s_b".toList] ∧
    (parseStructs env exampleShadowed Program.init).structs.map (fun s => s.items.map Prod.fst)
      = [[some (.StructType "s_b".toList)], [some (.IntType false)]] ∧
    (parseStructs env exampleShadowed Program.init).getStruct "s_b".toList = some (some 0) ∧
    Program.printStruct ext fuel 0 (parseStructs env exampleShadowed Program.init).structs
      = none ∧
    Program.saveStruct env ext fuel 0 (parseStructs env exampleShadowed Program.init).structs
      = none ∧
    (parseStructs env exampleShadowed Program.init).print ext fuel = none := by
  refine ⟨?_, ?_, ?_, printStruct_shadowed env ext fuel, printStruct_shadowed env _ fuel, ?_⟩
  · rw [exampleShadowed_structs]; rfl
  · rw [exampleShadowed_structs]; rfl
  · unfold Program.getStruct
    rw [exampleShadowed_structs]
    rfl
  · have h := printStruct_shadowed env ext fuel
    rw [exampleShadowed_structs] at h
    unfold Program.print
    have hs : (parseStructs env exampleShadowed Program.init).unsetAllInit.structs =
        (parseStructs env exampleShadowed Program.init).structs := by
      simp only [Program.unsetAllInit, exampleShadowed_structs]
      rfl
    simp only [hs, exampleShadowed_structs]
    have h2 : List.range 2 = [0, 1] := rfl
    simp at h
    simp [printStructSection, printStructDefs, h2, h]

/-! ## Lookup of a struct by its IR type -/

/-- C27, at an input where the code departs from it: for the struct type
`struct.__va_list_tag` `Program::parseStructs` stores the struct under the name
`__va_list_tag`, and `Program::getStruct(const llvm::StructType*)` looks for
`s___va_list_tag`, finds no struct of that name and returns a null pointer. For
`struct.point` the two names agree and the struct is found. -/
theorem getStructOfType_va_list_tag (env : Env) (addr : Nat) :
    (parseStructs env [exampleVaListTag] Program.init).structs.map (fun s => s.name) =
      ["__va_list_tag".toList] ∧
    structCName exampleVaListTag.name = "s___va_list_tag".toList ∧
    (parseStructs env [exampleVaListTag] Program.init).getStructOfType
      exampleVaListTag.name addr = .null ∧
    (parseStructs env [examplePoint] Program.init).getStructOfType examplePoint.name addr
      = .listed 0 := by
  have hp : (parseStructs env [examplePoint] Program.init).structs.map (fun s => s.name) =
      ["s_point".toList] := by
    obtain ⟨⟨news, hnews, hnames⟩, -⟩ := parseStructs_aux env [examplePoint] Program.init
    rw [hnews]
    simp only [Program.init, List.nil_append, hnames]
    rfl
  refine ⟨rfl, rfl, rfl, ?_⟩
  unfold Program.getStructOfType
  cases hl : (parseStructs env [examplePoint] Program.init).structs with
  | nil => rw [hl] at hp; cases hp
  | cons s rest =>
      rw [hl] at hp
      simp only [List.map_cons, List.cons.injEq] at hp
      have hname : s.name = structCName examplePoint.name := hp.1
      simp only [findStructFrom, hname, if_true]

/-! ## The names of the structs -/

theorem structCName_struct (x : Str) :
    structCName ("struct.".toList ++ x) = "s_".toList ++ x := by
  simp [structCName]

theorem structCName_union (x : Str) :
    structCName ("union.".toList ++ x) = "u_".toList ++ x := by
  simp [structCName]

theorem isCTypeName_cases (n : Str) (h : isCTypeName n) :
    (∃ x, n = "struct.".toList ++ x) ∨ (∃ x, n = "union.".toList ++ x) := by
  rcases h with h | h
  · left
    exact ⟨n.drop 7, by rw [← h, List.take_append_drop]⟩
  · right
    exact ⟨n.drop 6, by rw [← h, List.take_append_drop]⟩

theorem structCName_inj_on (n1 n2 : Str) (h1 : isCTypeName n1) (h2 : isCTypeName n2)
    (h : structCName n1 = structCName n2) : n1 = n2 := by
  rcases isCTypeName_cases n1 h1 with ⟨x, rfl⟩ | ⟨x, rfl⟩ <;>
  rcases isCTypeName_cases n2 h2 with ⟨y, rfl⟩ | ⟨y, rfl⟩ <;>
  simp only [structCName_struct, structCName_union] at h <;>
  simp_all

theorem storedName_inj_on (n1 n2 : Str) (h1 : isCTypeName n1) (h2 : isCTypeName n2)
    (h : storedName n1 = storedName n2) : n1 = n2 := by
  have hhead : ∀ n, isCTypeName n → structCName n ≠ "__va_list_tag".toList := by
    intro n hn
    rcases isCTypeName_cases n hn with ⟨x, rfl⟩ | ⟨x, rfl⟩
    · rw [structCName_struct]; simp
    · rw [structCName_union]; simp
  unfold storedName at h
  by_cases c1 : structCName n1 = "s___va_list_tag".toList
  · by_cases c2 : structCName n2 = "s___va_list_tag".toList
    · exact structCName_inj_on n1 n2 h1 h2 (c1.trans c2.symm)
    · rw [if_pos c1, if_neg c2] at h
      exact absurd h.symm (hhead n2 h2)
  · by_cases c2 : structCName n2 = "s___va_list_tag".toList
    · rw [if_neg c1, if_pos c2] at h
      exact absurd h (hhead n1 h1)
    · rw [if_neg c1, if_neg c2] at h
      exact structCName_inj_on n1 n2 h1 h2 h

theorem getStructFrom_nodup (name : Str) :
    ∀ (structs : List Struct) (k i : Nat) (s : Struct),
      (structs.map (fun s => s.name)).Nodup → structs[i]? = some s → s.name = name →
      getStructFrom name structs k = some (some (k + i))
  | [], _, _, _, _, h, _ => by cases h
  | a :: rest, k, 0, s, _, h, hn => by
      simp only [List.getElem?_cons_zero, Option.some.injEq] at h
      subst h
      simp only [getStructFrom, hn, if_true, Nat.add_zero]
  | a :: rest, k, i + 1, s, hnd, h, hn => by
      simp only [List.getElem?_cons_succ] at h
      simp only [List.map_cons, List.nodup_cons] at hnd
      have hne : a.name ≠ name := by
        intro ha
        apply hnd.1
        rw [ha, ← hn]
        exact List.mem_map.mpr ⟨s, List.getElem?_mem h, rfl⟩
      simp only [getStructFrom, hne, if_false]
      rw [getStructFrom_nodup name rest (k + 1) i s hnd.2 h hn]
      congr 2
      omega

/-- C28 fails as stated: the IR names `class.a` and `union.a` are distinct, and
`Program::parseStructs` gives both the C name `u_a`, so the struct list holds two structs
of one name. -/
theorem structCName_class_and_union :
    "class.a".toList ≠ "union.a".toList ∧
    structCName "class.a".toList = structCName "union.a".toList ∧
    (parseStructs exampleEnv
      [{ name := "class.a".toList, elements := [] },
       { name := "union.a".toList, elements := [] }] Program.init).structs.map
        (fun s => s.name) = ["u_a".toList, "u_a".toList] := by
  decide

/-- C28, amended: on the IR names of the form "struct." + x or "union." + x the name
rewrite of `Program::parseStructs` is "s_" + x and "u_" + x and is injective, so for a
module whose identified struct types have pairwise distinct names of that form no two
structs of the list share a name, and `Program::getStruct(name)` with the name of the
i-th struct returns the i-th struct. -/
theorem structCName_injective_on_c_names (env : Env) (defs : List StructDef)
    (hform : ∀ d ∈ defs, isCTypeName d.name)
    (hnodup : (defs.map (fun d => d.name)).Nodup) :
    (∀ x : Str, structCName ("struct.".toList ++ x) = "s_".toList ++ x ∧
      structCName ("union.".toList ++ x) = "u_".toList ++ x) ∧
    (∀ n1 n2, isCTypeName n1 → isCTypeName n2 → structCName n1 = structCName n2 → n1 = n2) ∧
    ((parseStructs env defs Program.init).structs.map (fun s => s.name)).Nodup ∧
    (∀ i (hi : i < defs.length),
      (parseStructs env defs Program.init).getStruct (storedName (defs[i]).name) =
        some (some i)) := by
  obtain ⟨⟨news, hnews, hnames⟩, -⟩ := parseStructs_aux env defs Program.init
  have hstructs : (parseStructs env defs Program.init).structs = news := by
    rw [hnews]; rfl
  have hnames' : news.map (fun s => s.name) = (defs.map (fun d => d.name)).map storedName := by
    rw [hnames, List.map_map]
    rfl
  have hnd : (news.map (fun s => s.name)).Nodup := by
    rw [hnames']
    apply List.Nodup.map_on _ hnodup
    intro n1 hn1 n2 hn2 h
    obtain ⟨d1, hd1, rfl⟩ := List.mem_map.mp hn1
    obtain ⟨d2, hd2, rfl⟩ := List.mem_map.mp hn2
    exact storedName_inj_on _ _ (hform d1 hd1) (hform d2 hd2) h
  refine ⟨fun x => ⟨structCName_struct x, structCName_union x⟩, structCName_inj_on, ?_, ?_⟩
  · rw [hstructs]; exact hnd
  · intro i hi
    unfold Program.getStruct
    rw [hstructs]
    have hlen : news.length = defs.length := by
      have := congrArg List.length hnames'
      simpa using this
    have hi' : i < news.length := by omega
    have hname : (news[i]).name = storedName (defs[i]).name := by
      have h1 : (news.map (fun s => s.name))[i]? = some (news[i]).name := by
        simp [List.getElem?_map, List.getElem?_eq_getElem hi']
      rw [hnames'] at h1
      simp [List.getElem?_map, List.getElem?_eq_getElem hi] at h1
      exact h1.symm
    have := getStructFrom_nodup (storedName (defs[i]).name) news 0 i (news[i]) hnd
      (List.getElem?_eq_getElem hi') hname
    simpa using this

/-- Witness for C28: the struct types `struct.outer` and `struct.inner`. -/
theorem structCName_injective_on_c_names_witness :
    ((parseStructs exampleEnv exampleNested Program.init).structs.map
      (fun s => s.name)).Nodup ∧
    (parseStructs exampleEnv exampleNested Program.init).getStruct "s_inner".toList =
      some (some 1) :=
  have h := structCName_injective_on_c_names exampleEnv exampleNested
    (by
      intro d hd
      simp only [exampleNested, List.mem_cons, List.mem_singleton, List.not_mem_nil,
        or_false] at hd
      rcases hd with rfl | rfl <;> exact Or.inl (by decide))
    (by decide)
  ⟨h.2.2.1, h.2.2.2 1 (by decide)⟩

/-! ## The names of variables and blocks -/

theorem toDigitsCore_append :
    ∀ (fuel n : Nat) (ds : List Char),
      Nat.toDigitsCore 10 fuel n ds = Nat.toDigitsCore 10 fuel n [] ++ ds
  | 0, _, _ => rfl
  | fuel + 1, n, ds => by
      simp only [Nat.toDigitsCore]
      split_ifs with h
      · rfl
      · rw [toDigitsCore_append fuel (n / 10) (Nat.digitChar (n % 10) :: ds),
          toDigitsCore_append fuel (n / 10) [Nat.digitChar (n % 10)]]
        simp

theorem digitChar_value (d : Nat) (h : d < 10) : (Nat.digitChar d).toNat - 48 = d := by
  interval_cases d <;> rfl

theorem digitsValue_append (s : Str) (c : Char) :
    digitsValue (s ++ [c]) = 10 * digitsValue s + (c.toNat - 48) := by
  simp [digitsValue, List.foldl_append]

theorem digitsValue_toDigitsCore :
    ∀ (fuel n : Nat), n < fuel → digitsValue (Nat.toDigitsCore 10 fuel n []) = n
  | 0, _, h => absurd h (Nat.not_lt_zero _)
  | fuel + 1, n, h => by
      simp only [Nat.toDigitsCore]
      split_ifs with h0
      · have hn : n < 10 := by omega
        have hmod : n % 10 = n := Nat.mod_eq_of_lt hn
        rw [hmod]
        have := digitsValue_append [] (Nat.digitChar n)
        simp only [List.nil_append] at this
        rw [this, digitChar_value n hn]
        simp [digitsValue]
      · rw [toDigitsCore_append, digitsValue_append,
          digitsValue_toDigitsCore fuel (n / 10) (by omega),
          digitChar_value (n % 10) (Nat.mod_lt _ (by decide))]
        omega

theorem toDigits_injective (a b : Nat) (h : Nat.toDigits 10 a = Nat.toDigits 10 b) :
    a = b := by
  have ha := digitsValue_toDigitsCore (a + 1) a (Nat.lt_succ_self a)
  have hb := digitsValue_toDigitsCore (b + 1) b (Nat.lt_succ_self b)
  unfold Nat.toDigits at h
  rw [h] at ha
  exact ha.symm.trans hb

theorem name_injective (stem : Str) (a b : Nat)
    (h : stem ++ Nat.toDigits 10 a = stem ++ Nat.toDigits 10 b) : a = b :=
  toDigits_injective a b (List.append_cancel_left h)

theorem parseArgs_frame (ext : Ext) :
    ∀ (args : List Argument) (f : Func),
      (Func.parseArgs ext args f).varCount = f.varCount + args.length ∧
      ∀ k, k ∉ args.map (fun a => a.addr) →
        mapFind k (Func.parseArgs ext args f).exprMap = mapFind k f.exprMap
  | [], f => ⟨rfl, fun _ _ => rfl⟩
  | arg :: rest, f => by
      obtain ⟨h1, h2⟩ := parseArgs_frame ext rest
        { f with
          exprMap := mapSet arg.addr
            (.Value ("var".toList ++ Nat.toDigits 10 f.varCount) (ext.typeGetType arg.type)
              false) f.exprMap
          varCount := f.varCount + 1 }
      simp only [Func.parseArgs]
      refine ⟨?_, ?_⟩
      · rw [h1]; simp only [List.length_cons]; omega
      · intro k hk
        simp only [List.map_cons, List.mem_cons, not_or] at hk
        rw [h2 k hk.2]
        exact mapFind_mapSet_ne _ _ _ _ hk.1

theorem parseArgs_bound (ext : Ext) :
    ∀ (args : List Argument) (f : Func), (args.map (fun a => a.addr)).Nodup →
      ∀ i (hi : i < args.length),
        mapFind (args[i]).addr (Func.parseArgs ext args f).exprMap =
          some (.Value ("var".toList ++ Nat.toDigits 10 (f.varCount + i))
            (ext.typeGetType (args[i]).type) false)
  | [], _, _, i, hi => absurd hi (Nat.not_lt_zero _)
  | arg :: rest, f, hnd, 0, _ => by
      simp only [List.map_cons, List.nodup_cons] at hnd
      simp only [Func.parseArgs, List.getElem_cons_zero, Nat.add_zero]
      rw [(parseArgs_frame ext rest _).2 arg.addr hnd.1]
      exact mapFind_mapSet_self _ _ _
  | arg :: rest, f, hnd, i + 1, hi => by
      simp only [List.map_cons, List.nodup_cons] at hnd
      simp only [Func.parseArgs, List.getElem_cons_succ]
      have := parseArgs_bound ext rest
        { f with
          exprMap := mapSet arg.addr
            (.Value ("var".toList ++ Nat.toDigits 10 f.varCount) (ext.typeGetType arg.type)
              false) f.exprMap
          varCount := f.varCount + 1 } hnd.2 i (by simpa using hi)
      rw [this]
      simp only [Nat.add_assoc, Nat.add_comm 1 i]

theorem getVarNames_eq :
    ∀ (k : Nat) (f : Func),
      (f.getVarNames k).1 =
        (List.range k).map (fun j => "var".toList ++ Nat.toDigits 10 (f.varCount + j))
  | 0, _ => rfl
  | k + 1, f => by
      simp only [Func.getVarNames, Func.getVarName, getVarNames_eq k, List.range_succ_eq_map,
        List.map_cons, List.map_map, Nat.add_zero]
      congr 1
      apply List.map_congr_left
      intro j _
      simp only [Function.comp, Nat.succ_eq_add_one]
      congr 2
      omega

/-- C21: in a `Func` whose counter is 0, as the constructor leaves it, the first loop of
`Func::parseFunction` binds the parameters in order to `Value`s named var0 .. var(n-1) and
leaves the counter at n; a call of `Func::getVarName` returns "var" followed by the counter
in decimal and adds one to the counter; so the names of the parameters and the names that
any number of calls of `getVarName` after them return are pairwise distinct. -/
theorem parseFunction_var_names (ext : Ext) (f : Func) (k : Nat)
    (hcount : f.varCount = 0)
    (hargs : (f.function.args.map (fun a => a.addr)).Nodup) :
    Func.parseFunction ext f =
      Func.parseBlocks ext f.function.blocks (Func.parseArgs ext f.function.args f) ∧
    (∀ i (hi : i < f.function.args.length),
      ((Func.parseArgs ext f.function.args f).getExpr (f.function.args[i]).addr).1 =
        some (.Value ("var".toList ++ Nat.toDigits 10 i)
          (ext.typeGetType (f.function.args[i]).type) false)) ∧
    (Func.parseArgs ext f.function.args f).varCount = f.function.args.length ∧
    (∀ g : Func, g.getVarName =
      ("var".toList ++ Nat.toDigits 10 g.varCount, { g with varCount := g.varCount + 1 })) ∧
    ((Func.parseArgs ext f.function.args f).getVarNames k).1 =
      (List.range k).map (fun j =>
        "var".toList ++ Nat.toDigits 10 (f.function.args.length + j)) ∧
    ((List.range f.function.args.length).map (fun i => "var".toList ++ Nat.toDigits 10 i) ++
      ((Func.parseArgs ext f.function.args f).getVarNames k).1).Nodup := by
  have hc : (Func.parseArgs ext f.function.args f).varCount = f.function.args.length := by
    rw [(parseArgs_frame ext f.function.args f).1, hcount, Nat.zero_add]
  have hnames := getVarNames_eq k (Func.parseArgs ext f.function.args f)
  rw [hc] at hnames
  refine ⟨rfl, ?_, hc, fun _ => rfl, hnames, ?_⟩
  · intro i hi
    have hb := parseArgs_bound ext f.function.args f hargs i hi
    rw [hcount, Nat.zero_add] at hb
    unfold Func.getExpr
    rw [hb]
  · rw [hnames]
    have hrange : (List.range f.function.args.length).map
          (fun i => "var".toList ++ Nat.toDigits 10 i) ++
        (List.range k).map (fun j =>
          "var".toList ++ Nat.toDigits 10 (f.function.args.length + j)) =
        (List.range (f.function.args.length + k)).map
          (fun i => "var".toList ++ Nat.toDigits 10 i) := by
      rw [List.range_add, List.map_append, List.map_map]
      rfl
    rw [hrange]
    exact List.Nodup.map (fun a b h => name_injective _ a b h) (List.nodup_range _)

/-- Witness for C21: the function `add` with its two parameters, and three later names. -/
theorem parseFunction_var_names_witness :
    exampleFunc0.varCount = 0 ∧
    ((Func.parseArgs exampleExt exampleFunc0.function.args exampleFunc0).getVarNames 3).1 =
      ["var2".toList, "var3".toList, "var4".toList] ∧
    ((Func.parseArgs exampleExt exampleFunc0.function.args exampleFunc0).getExpr 2).1 =
      some (.Value "var1".toList (some (.IntType false)) false) :=
  have h := parseFunction_var_names exampleExt exampleFunc0 3 rfl (by decide)
  ⟨rfl, h.2.2.2.2.1, h.2.1 1 (by decide)⟩

theorem namedBlocks_init (f : Func) (hmap : f.blockMap = []) (hcount : f.blockCount = 0) :
    f.namedBlocks [] := by
  refine ⟨List.nodup_nil, hcount, ?_, ?_⟩
  · intro b _
    rw [hmap]
    rfl
  · intro i hi
    exact absurd hi (Nat.not_lt_zero _)

theorem getBlockName_named (f : Func) (keys : List Nat) (h : f.namedBlocks keys)
    (i : Nat) (hi : i < keys.length) :
    f.getBlockName (keys[i]) = ("block".toList ++ Nat.toDigits 10 i, f) := by
  unfold Func.getBlockName
  rw [h.2.2.2 i hi]

theorem getBlockName_fresh (f : Func) (keys : List Nat) (h : f.namedBlocks keys)
    (b : Nat) (hb : b ∉ keys) :
    (f.getBlockName b).1 = "block".toList ++ Nat.toDigits 10 keys.length ∧
    (f.getBlockName b).2.blockCount = f.blockCount + 1 ∧
    (f.getBlockName b).2.namedBlocks (keys ++ [b]) := by
  obtain ⟨hnd, hcount, hnone, hsome⟩ := h
  have hfind := hnone b hb
  have hget : f.getBlockName b = ("block".toList ++ Nat.toDigits 10 f.blockCount,
      { f with
        blockMap := mapSet b
          { blockName := "block".toList ++ Nat.toDigits 10 f.blockCount, block := b,
            expressions := [] } f.blockMap
        blockCount := f.blockCount + 1 }) := by
    unfold Func.getBlockName
    rw [hfind]
  rw [hget]
  refine ⟨by rw [hcount], rfl, ?_, ?_, ?_, ?_⟩
  · exact List.Nodup.append hnd (List.nodup_singleton b)
      (by
        intro a ha hab
        rw [List.mem_singleton] at hab
        exact hb (hab ▸ ha))
  · simp only [List.length_append, List.length_singleton, hcount]
  · intro c hc
    simp only [List.mem_append, List.mem_singleton, not_or] at hc
    show mapFind c (mapSet b _ f.blockMap) = none
    rw [mapFind_mapSet_ne _ _ _ _ hc.2]
    exact hnone c hc.1
  · intro i hi
    simp only [List.length_append, List.length_singleton] at hi
    show mapFind ((keys ++ [b])[i]) (mapSet b _ f.blockMap) = _
    by_cases hlt : i < keys.length
    · have hk : (keys ++ [b])[i] = keys[i] := List.getElem_append_left hlt
      have hne : keys[i] ≠ b := fun e => hb (e ▸ List.getElem_mem _)
      rw [hk, mapFind_mapSet_ne _ _ _ _ hne]
      exact hsome i hlt
    · have hieq : i = keys.length := by omega
      subst hieq
      have hk : (keys ++ [b])[keys.length] = b := by simp
      rw [hk, hcount]
      exact mapFind_mapSet_self _ _ _

theorem nameBlocks_named :
    ∀ (bs : List Nat) (f : Func) (keys : List Nat), f.namedBlocks keys →
      ∃ more, (Func.nameBlocks bs f).namedBlocks (keys ++ more) ∧
        ∀ b, b ∈ keys ++ more ↔ b ∈ keys ∨ b ∈ bs
  | [], f, keys, h => ⟨[], by simpa using h, by simp⟩
  | b :: rest, f, keys, h => by
      by_cases hb : b ∈ keys
      · obtain ⟨i, hi, hki⟩ := List.getElem_of_mem hb
        have hsame : (f.getBlockName b).2 = f := by
          rw [← hki, getBlockName_named f keys h i hi]
        obtain ⟨more, hm, hmem⟩ := nameBlocks_named rest f keys h
        refine ⟨more, ?_, ?_⟩
        · simp only [Func.nameBlocks, hsame]
          exact hm
        · intro c
          rw [hmem c]
          simp only [List.mem_cons]
          constructor
          · rintro (hc | hc)
            · exact Or.inl hc
            · exact Or.inr (Or.inr hc)
          · rintro (hc | hc | hc)
            · exact Or.inl hc
            · exact Or.inl (hc ▸ hb)
            · exact Or.inr hc
      · obtain ⟨-, -, hnew⟩ := getBlockName_fresh f keys h b hb
        obtain ⟨more, hm, hmem⟩ := nameBlocks_named rest (f.getBlockName b).2 (keys ++ [b]) hnew
        refine ⟨b :: more, ?_, ?_⟩
        · simp only [Func.nameBlocks]
          simpa using hm
        · intro c
          have := hmem c
          simp only [List.mem_append, List.mem_cons, List.mem_singleton, List.append_assoc,
            List.singleton_append, List.not_mem_nil, or_false] at this ⊢
          tauto

/-- C22: in a `Func` that starts with no block named, as the constructor leaves it, after
calls of `Func::getBlockName` for any blocks `bs`: the call for a block not named before
returns "block" followed by the number of distinct blocks named before it and adds one to
`blockCount`; the call for a block named before leaves the `Func` as it is; a later call
for the same block, whatever calls come in between, returns the same name and changes
nothing; and two blocks that get the same name are the same block. -/
theorem getBlockName_memoized_injective (f0 : Func) (bs : List Nat)
    (hmap : f0.blockMap = []) (hcount : f0.blockCount = 0) :
    ∃ keys : List Nat, keys.Nodup ∧ (∀ b, b ∈ keys ↔ b ∈ bs) ∧
      (Func.nameBlocks bs f0).blockCount = keys.length ∧
      (∀ b, b ∉ bs →
        ((Func.nameBlocks bs f0).getBlockName b).1 =
          "block".toList ++ Nat.toDigits 10 keys.length ∧
        ((Func.nameBlocks bs f0).getBlockName b).2.blockCount =
          (Func.nameBlocks bs f0).blockCount + 1) ∧
      (∀ b, b ∈ bs → ((Func.nameBlocks bs f0).getBlockName b).2 = Func.nameBlocks bs f0) ∧
      (∀ b cs,
        (Func.nameBlocks cs ((Func.nameBlocks bs f0).getBlockName b).2).getBlockName b =
          (((Func.nameBlocks bs f0).getBlockName b).1,
            Func.nameBlocks cs ((Func.nameBlocks bs f0).getBlockName b).2)) ∧
      (∀ b b', ((Func.nameBlocks bs f0).getBlockName b).1 =
        (((Func.nameBlocks bs f0).getBlockName b).2.getBlockName b').1 → b = b') := by
  obtain ⟨keys, hk, hmem⟩ := nameBlocks_named bs f0 [] (namedBlocks_init f0 hmap hcount)
  simp only [List.nil_append, List.not_mem_nil, false_or] at hk hmem
  generalize Func.nameBlocks bs f0 = f at hk ⊢
  -- the state after one more call, for any block
  have hafter : ∀ b, ∃ keys2 i, ∃ hi : i < keys2.length,
      (f.getBlockName b).2.namedBlocks keys2 ∧ keys2[i] = b ∧
      (f.getBlockName b).1 = "block".toList ++ Nat.toDigits 10 i := by
    intro b
    by_cases hb : b ∈ keys
    · obtain ⟨i, hi, hki⟩ := List.getElem_of_mem hb
      have hg := getBlockName_named f keys hk i hi
      rw [hki] at hg
      exact ⟨keys, i, hi, by rw [hg]; exact hk, hki, by rw [hg]⟩
    · obtain ⟨h1, -, h3⟩ := getBlockName_fresh f keys hk b hb
      exact ⟨keys ++ [b], keys.length, by simp, h3, by simp, h1⟩
  refine ⟨keys, hk.1, hmem, hk.2.1, ?_, ?_, ?_, ?_⟩
  · intro b hb
    have hb' : b ∉ keys := fun h => hb ((hmem b).mp h)
    obtain ⟨h1, h2, -⟩ := getBlockName_fresh f keys hk b hb'
    exact ⟨h1, h2⟩
  · intro b hb
    obtain ⟨i, hi, hki⟩ := List.getElem_of_mem ((hmem b).mpr hb)
    rw [← hki, getBlockName_named f keys hk i hi]
  · intro b cs
    obtain ⟨keys2, i, hi, hn, hki, hname⟩ := hafter b
    obtain ⟨more, hm, -⟩ := nameBlocks_named cs (f.getBlockName b).2 keys2 hn
    have hi' : i < (keys2 ++ more).length := by
      simp only [List.length_append]; omega
    have hk' : (keys2 ++ more)[i] = b := by
      rw [List.getElem_append_left hi]; exact hki
    have := getBlockName_named _ _ hm i hi'
    rw [hk'] at this
    rw [this, hname]
  · intro b b' heq
    obtain ⟨keys2, i, hi, hn, hki, hname⟩ := hafter b
    rw [hname] at heq
    by_cases hb' : b' ∈ keys2
    · obtain ⟨j, hj, hkj⟩ := List.getElem_of_mem hb'
      have hg := getBlockName_named _ keys2 hn j hj
      rw [hkj] at hg
      rw [hg] at heq
      have hij : i = j := name_injective _ i j heq
      subst hij
      exact hki.symm.trans hkj
    · obtain ⟨h1, -, -⟩ := getBlockName_fresh _ keys2 hn b' hb'
      rw [h1] at heq
      have hij : i = keys2.length := name_injective _ i _ heq
      omega

/-- Witness for C22: the blocks 100, 101 and 100 again are named in the `Func` that the
constructor makes for `add`; two blocks have been named, and the block 102 gets the name
block2. -/
theorem getBlockName_memoized_injective_witness :
    exampleFunc0.blockMap = [] ∧ exampleFunc0.blockCount = 0 ∧
    (Func.nameBlocks [100, 101, 100] exampleFunc0).blockCount = 2 ∧
    ((Func.nameBlocks [100, 101, 100] exampleFunc0).getBlockName 102).1 =
      "block2".toList := by
  obtain ⟨keys, -, -, hcount, hfresh, -⟩ :=
    getBlockName_memoized_injective exampleFunc0 [100, 101, 100] rfl rfl
  have h2 : (Func.nameBlocks [100, 101, 100] exampleFunc0).blockCount = 2 := rfl
  have hk : keys.length = 2 := hcount.symm.trans h2
  have h := (hfresh 102 (by decide)).1
  rw [hk] at h
  exact ⟨rfl, rfl, h2, h⟩

/-! ## Every struct definition is written once -/

theorem markPrintedFrom_getElem? (done : List Nat) :
    ∀ (structs : List Struct) (k i : Nat),
      (markPrintedFrom done k structs)[i]? =
        (structs[i]?).map (fun s => if k + i ∈ done then { s with isPrinted := true } else s)
  | [], _, _ => by simp [markPrintedFrom]
  | s :: rest, k, 0 => by simp [markPrintedFrom]
  | s :: rest, k, i + 1 => by
      have h := markPrintedFrom_getElem? done rest (k + 1) i
      have e : k + 1 + i = k + (i + 1) := by omega
      rw [e] at h
      simp only [markPrintedFrom, List.getElem?_cons_succ, h]

theorem markPrinted_getElem? (done : List Nat) (structs : List Struct) (i : Nat) :
    (markPrinted done structs)[i]? =
      (structs[i]?).map (fun s => if i ∈ done then { s with isPrinted := true } else s) := by
  have h := markPrintedFrom_getElem? done structs 0 i
  rw [Nat.zero_add] at h
  exact h

theorem markPrinted_length (done : List Nat) (structs : List Struct) :
    (markPrinted done structs).length = structs.length := by
  unfold markPrinted
  generalize 0 = k
  induction structs generalizing k with
  | nil => rfl
  | cons s rest ih => simp [markPrintedFrom, ih]

theorem markPrinted_nil (structs : List Struct) : markPrinted [] structs = structs := by
  apply List.ext_getElem?
  intro i
  rw [markPrinted_getElem?]
  cases structs[i]? <;> simp

theorem markPrinted_set (done : List Nat) (structs : List Struct) (i : Nat) (cur : Struct)
    (h : (markPrinted done structs)[i]? = some cur) :
    (markPrinted done structs).set i { cur with isPrinted := true } =
      markPrinted (done ++ [i]) structs := by
  apply List.ext_getElem?
  intro j
  rw [List.getElem?_set, markPrinted_length, markPrinted_getElem? (done ++ [i])]
  rw [markPrinted_getElem?] at h
  by_cases hij : i = j
  · subst hij
    cases hs : structs[i]? with
    | none => rw [hs] at h; cases h
    | some s =>
        have hlt : i < structs.length := (List.getElem?_eq_some.mp hs).1
        rw [hs] at h
        simp only [Option.map_some', Option.some.injEq] at h
        simp only [if_true, hlt, Option.map_some', List.mem_append, List.mem_singleton,
          or_true]
        subst h
        split_ifs <;> rfl
  · rw [if_neg hij, markPrinted_getElem?]
    cases structs[j]? with
    | none => rfl
    | some s =>
        have hji : j ≠ i := fun e => hij e.symm
        simp only [Option.map_some', List.mem_append, List.mem_singleton, hji, or_false]

theorem markPrinted_flag (done : List Nat) (structs : List Struct)
    (h0 : ∀ s ∈ structs, s.isPrinted = false) (i : Nat) (cur : Struct)
    (h : (markPrinted done structs)[i]? = some cur) :
    i < structs.length ∧ cur.isPrinted = decide (i ∈ done) ∧
      (i ∉ done → structs[i]? = some cur) := by
  rw [markPrinted_getElem?] at h
  cases hs : structs[i]? with
  | none => rw [hs] at h; cases h
  | some s =>
      have hlt : i < structs.length := (List.getElem?_eq_some.mp hs).1
      have hf : s.isPrinted = false := h0 s (List.getElem?_mem hs)
      rw [hs] at h
      simp only [Option.map_some', Option.some.injEq] at h
      subst h
      by_cases hd : i ∈ done
      · simp [hd, hlt]
      · simp [hd, hlt, hf]

theorem emitted_append (t1 t2 : List (Option Nat)) :
    emitted (t1 ++ t2) = emitted t1 ++ emitted t2 :=
  List.filterMap_append _ _ _

theorem renderTokens_append (ext : Ext) (structs : List Struct) (t1 t2 : List (Option Nat)) :
    renderTokens ext structs (t1 ++ t2) =
      renderTokens ext structs t1 ++ renderTokens ext structs t2 := by
  simp only [renderTokens, List.map_append, List.flatten_append]

theorem EmitsOnce.nil (ext : Ext) (structs : List Struct) (done : List Nat) :
    EmitsOnce ext structs done [] ([], markPrinted done structs) := by
  refine ⟨rfl, ?_, List.nodup_nil, ?_⟩
  · simp [emitted]
  · intro j hj
    simp [emitted] at hj

theorem EmitsOnce.newline (ext : Ext) (structs : List Struct) (done : List Nat) :
    EmitsOnce ext structs done [none] ("\n".toList, markPrinted done structs) := by
  refine ⟨?_, ?_, ?_, ?_⟩
  · simp [renderTokens]
  · simp [emitted]
  · simp [emitted]
  · intro j hj
    simp [emitted] at hj

theorem EmitsOnce.struct (ext : Ext) (structs : List Struct) (done : List Nat) (i : Nat)
    (s : Struct) (hi : i ∉ done) (hs : structs[i]? = some s) :
    EmitsOnce ext structs done [some i]
      (ext.structPrint s, markPrinted (done ++ [i]) structs) := by
  refine ⟨?_, ?_, ?_, ?_⟩
  · simp [renderTokens, hs]
  · simp [emitted]
  · simp [emitted]
  · intro j hj
    simp only [emitted, List.filterMap_cons, id, List.filterMap_nil, List.mem_singleton] at hj
    subst hj
    exact ⟨hi, (List.getElem?_eq_some.mp hs).1⟩

theorem EmitsOnce.seq (ext : Ext) (structs : List Struct) (done : List Nat)
    (t1 t2 : List (Option Nat)) (r1 r2 : Str × List Struct)
    (h1 : EmitsOnce ext structs done t1 r1)
    (h2 : EmitsOnce ext structs (done ++ emitted t1) t2 r2) :
    EmitsOnce ext structs done (t1 ++ t2) (r1.1 ++ r2.1, r2.2) := by
  obtain ⟨a1, -, c1, d1⟩ := h1
  obtain ⟨a2, b2, c2, d2⟩ := h2
  refine ⟨?_, ?_, ?_, ?_⟩
  · rw [renderTokens_append, a1, a2]
  · rw [emitted_append, ← List.append_assoc]
    exact b2
  · rw [emitted_append]
    refine List.Nodup.append c1 c2 ?_
    intro j hj1 hj2
    exact (d2 j hj2).1 (List.mem_append_right _ hj1)
  · intro j hj
    rw [emitted_append, List.mem_append] at hj
    rcases hj with hj | hj
    · exact d1 j hj
    · exact ⟨fun hd => (d2 j hj).1 (List.mem_append_left _ hd), (d2 j hj).2⟩

theorem printStructOf_walk (ext : Ext) (structs : List Struct)
    (rec : Nat → List Struct → Option (Str × List Struct))
    (hrec : ∀ i, WalkOk ext structs (rec i)) (structName : Str) :
    WalkOk ext structs (printStructOf rec structName) := by
  intro done r h
  unfold printStructOf at h
  cases hg : getStructFrom structName (markPrinted done structs) 0 with
  | none => rw [hg] at h; cases h
  | some o =>
      cases o with
      | none => rw [hg] at h; cases h
      | some i => rw [hg] at h; exact hrec i done r h

theorem printStructsNamed_walk (ext : Ext) (structs : List Struct)
    (rec : Nat → List Struct → Option (Str × List Struct))
    (hrec : ∀ i, WalkOk ext structs (rec i)) (name : Str) :
    ∀ names : List (Nat × Str), WalkOk ext structs (printStructsNamed rec name names)
  | [], done, r, h => by
      simp only [printStructsNamed, Option.some.injEq] at h
      subst h
      exact ⟨[], EmitsOnce.nil ext structs done⟩
  | (j, sName) :: rest, done, r, h => by
      simp only [printStructsNamed] at h
      by_cases hn : sName = name
      · simp only [hn, if_true] at h
        cases h1 : rec j (markPrinted done structs) with
        | none => rw [h1] at h; cases h
        | some r1 =>
            obtain ⟨t1, structs1⟩ := r1
            rw [h1] at h
            simp only [] at h
            obtain ⟨tk1, e1⟩ := hrec j done _ h1
            have hs1 : structs1 = markPrinted (done ++ emitted tk1) structs := e1.2.1
            cases h2 : printStructsNamed rec name rest structs1 with
            | none => rw [h2] at h; cases h
            | some r2 =>
                obtain ⟨t2, structs2⟩ := r2
                rw [h2] at h
                simp only [Option.some.injEq] at h
                subst h
                rw [hs1] at h2
                obtain ⟨tk2, e2⟩ :=
                  printStructsNamed_walk ext structs rec hrec name rest _ _ h2
                have en := EmitsOnce.newline ext structs (done ++ emitted tk1)
                have e2' : EmitsOnce ext structs (done ++ emitted tk1 ++ emitted [none]) tk2
                    (t2, structs2) := by
                  simpa [emitted] using e2
                have e3 := EmitsOnce.seq ext structs _ _ _ _ _ en e2'
                have e4 := EmitsOnce.seq ext structs _ _ _ _ _ e1 e3
                refine ⟨tk1 ++ ([none] ++ tk2), ?_⟩
                simpa [List.append_assoc] using e4
      · simp only [hn, if_false] at h
        exact printStructsNamed_walk ext structs rec hrec name rest done r h

theorem printStructItem_walk (ext : Ext) (structs : List Struct)
    (rec : Nat → List Struct → Option (Str × List Struct))
    (hrec : ∀ i, WalkOk ext structs (rec i)) (item : Option CType × Str) :
    WalkOk ext structs (printStructItem ext rec item) := by
  intro done r h
  have hsame : ∀ t : Str, t = [] → some (t, markPrinted done structs) = some r →
      ∃ tokens, EmitsOnce ext structs done tokens r := by
    intro t ht h'
    simp only [Option.some.injEq] at h'
    subst h' ht
    exact ⟨[], EmitsOnce.nil ext structs done⟩
  unfold printStructItem at h
  split at h
  · split at h
    · exact printStructOf_walk ext structs rec hrec _ done r h
    · exact hsame _ rfl h
  · split at h
    · exact printStructOf_walk ext structs rec hrec _ done r h
    · exact hsame _ rfl h
  · exact printStructsNamed_walk ext structs rec hrec _ _ done r h
  · exact hsame _ rfl h

theorem printStructItems_walk (ext : Ext) (structs : List Struct)
    (rec : Nat → List Struct → Option (Str × List Struct))
    (hrec : ∀ i, WalkOk ext structs (rec i)) :
    ∀ items : List (Option CType × Str), WalkOk ext structs (printStructItems ext rec items)
  | [], done, r, h => by
      simp only [printStructItems, Option.some.injEq] at h
      subst h
      exact ⟨[], EmitsOnce.nil ext structs done⟩
  | item :: rest, done, r, h => by
      simp only [printStructItems] at h
      cases h1 : printStructItem ext rec item (markPrinted done structs) with
      | none => rw [h1] at h; cases h
      | some r1 =>
          obtain ⟨t1, structs1⟩ := r1
          rw [h1] at h
          simp only [] at h
          obtain ⟨tk1, e1⟩ := printStructItem_walk ext structs rec hrec item done _ h1
          have hs1 : structs1 = markPrinted (done ++ emitted tk1) structs := e1.2.1
          cases h2 : printStructItems ext rec rest structs1 with
          | none => rw [h2] at h; cases h
          | some r2 =>
              obtain ⟨t2, structs2⟩ := r2
              rw [h2] at h
              simp only [Option.some.injEq] at h
              subst h
              rw [hs1] at h2
              obtain ⟨tk2, e2⟩ := printStructItems_walk ext structs rec hrec rest _ _ h2
              exact ⟨tk1 ++ tk2, EmitsOnce.seq ext structs _ _ _ _ _ e1 e2⟩

theorem printStruct_emits (ext : Ext) (structs : List Struct)
    (h0 : ∀ s ∈ structs, s.isPrinted = false) :
    ∀ (fuel i : Nat) (done : List Nat) (r : Str × List Struct),
      Program.printStruct ext fuel i (markPrinted done structs) = some r →
      ∃ tokens, EmitsOnce ext structs done tokens r ∧ i ∈ done ++ emitted tokens
  | 0, _, _, _, h => by
      simp only [Program.printStruct] at h
      cases h
  | fuel + 1, i, done, r, h => by
      have hrec : ∀ j, WalkOk ext structs (Program.printStruct ext fuel j) := by
        intro j d r' h'
        obtain ⟨tk, e, -⟩ := printStruct_emits ext structs h0 fuel j d r' h'
        exact ⟨tk, e⟩
      simp only [Program.printStruct] at h
      cases hs : (markPrinted done structs)[i]? with
      | none => rw [hs] at h; cases h
      | some strct =>
          rw [hs] at h
          simp only [] at h
          cases h1 : printStructItems ext (Program.printStruct ext fuel) strct.items
              (markPrinted done structs) with
          | none => rw [h1] at h; cases h
          | some r1 =>
              obtain ⟨t1, structs1⟩ := r1
              rw [h1] at h
              simp only [] at h
              obtain ⟨tk1, e1⟩ := printStructItems_walk ext structs _ hrec _ done _ h1
              have hs1 : structs1 = markPrinted (done ++ emitted tk1) structs := e1.2.1
              subst hs1
              cases hc : (markPrinted (done ++ emitted tk1) structs)[i]? with
              | none => rw [hc] at h; cases h
              | some cur =>
                  rw [hc] at h
                  simp only [] at h
                  obtain ⟨-, hflag, horig⟩ := markPrinted_flag _ structs h0 i cur hc
                  by_cases hd : i ∈ done ++ emitted tk1
                  · have hp : cur.isPrinted = true := by rw [hflag]; simp [hd]
                    rw [hp] at h
                    simp only [Bool.not_true, Bool.false_eq_true, if_false,
                      Option.some.injEq] at h
                    subst h
                    have en := EmitsOnce.newline ext structs (done ++ emitted tk1)
                    have e2 := EmitsOnce.seq ext structs _ _ _ _ _ e1 en
                    refine ⟨tk1 ++ [none], e2, ?_⟩
                    rw [emitted_append]
                    simpa [emitted] using hd
                  · have hp : cur.isPrinted = false := by rw [hflag]; simp [hd]
                    rw [hp] at h
                    simp only [Bool.not_false, if_true, Option.some.injEq] at h
                    subst h
                    rw [markPrinted_set _ structs i cur hc]
                    have es := EmitsOnce.struct ext structs (done ++ emitted tk1) i cur hd
                      (horig hd)
                    have en := EmitsOnce.newline ext structs
                      (done ++ emitted tk1 ++ emitted [some i])
                    have en' : EmitsOnce ext structs (done ++ emitted tk1 ++ emitted [some i])
                        [none] ("\n".toList, markPrinted (done ++ emitted tk1 ++ [i]) structs)
                        := by
                      simpa [emitted] using en
                    have e2 := EmitsOnce.seq ext structs _ _ _ _ _ es en'
                    have e3 := EmitsOnce.seq ext structs _ _ _ _ _ e1 e2
                    refine ⟨tk1 ++ ([some i] ++ [none]), ?_, ?_⟩
                    · simpa [List.append_assoc] using e3
                    · simp [emitted_append, emitted]

theorem printStructDefs_emits (ext : Ext) (fuel : Nat) (structs : List Struct)
    (h0 : ∀ s ∈ structs, s.isPrinted = false) :
    ∀ (is : List Nat) (done : List Nat) (r : Str × List Struct),
      printStructDefs ext fuel is (markPrinted done structs) = some r →
      ∃ tokens, EmitsOnce ext structs done tokens r ∧ ∀ i ∈ is, i ∈ done ++ emitted tokens
  | [], done, r, h => by
      simp only [printStructDefs, Option.some.injEq] at h
      subst h
      exact ⟨[], EmitsOnce.nil ext structs done, fun i hi => by cases hi⟩
  | i :: rest, done, r, h => by
      simp only [printStructDefs] at h
      cases hs : (markPrinted done structs)[i]? with
      | none => rw [hs] at h; cases h
      | some strct =>
          rw [hs] at h
          simp only [] at h
          obtain ⟨-, hflag, -⟩ := markPrinted_flag _ structs h0 i strct hs
          by_cases hd : i ∈ done
          · have hp : strct.isPrinted = true := by rw [hflag]; simp [hd]
            rw [hp] at h
            simp only [Bool.not_true, Bool.false_eq_true, if_false] at h
            obtain ⟨tk, e, hall⟩ := printStructDefs_emits ext fuel structs h0 rest done r h
            refine ⟨tk, e, ?_⟩
            intro j hj
            rcases List.mem_cons.mp hj with hj | hj
            · subst hj; exact List.mem_append_left _ hd
            · exact hall j hj
          · have hp : strct.isPrinted = false := by rw [hflag]; simp [hd]
            rw [hp] at h
            simp only [Bool.not_false, if_true] at h
            cases h1 : Program.printStruct ext fuel i (markPrinted done structs) with
            | none => rw [h1] at h; cases h
            | some r1 =>
                obtain ⟨t1, structs1⟩ := r1
                rw [h1] at h
                simp only [] at h
                obtain ⟨tk1, e1, hi1⟩ := printStruct_emits ext structs h0 fuel i done _ h1
                have hs1 : structs1 = markPrinted (done ++ emitted tk1) structs := e1.2.1
                subst hs1
                cases h2 : printStructDefs ext fuel rest
                    (markPrinted (done ++ emitted tk1) structs) with
                | none => rw [h2] at h; cases h
                | some r2 =>
                    obtain ⟨t2, structs2⟩ := r2
                    rw [h2] at h
                    simp only [Option.some.injEq] at h
                    subst h
                    obtain ⟨tk2, e2, hall⟩ :=
                      printStructDefs_emits ext fuel structs h0 rest _ _ h2
                    refine ⟨tk1 ++ tk2, EmitsOnce.seq ext structs _ _ _ _ _ e1 e2, ?_⟩
                    intro j hj
                    rw [emitted_append, ← List.append_assoc]
                    rcases List.mem_cons.mp hj with hj | hj
                    · subst hj; exact List.mem_append_left _ hi1
                    · exact hall j hj

/-- C23: when the loop of `Program::print` over the struct list completes (every lookup
finds its struct and the recursion of `printStruct` ends), its text is a sequence of
pieces, each a line end or the definition of a struct of the list, in which the definition
of every struct of the list occurs exactly once; and the `isPrinted` flag of every struct
is set after it. -/
theorem printStructDefs_once (ext : Ext) (fuel : Nat) (p : Program) (r : Str × List Struct)
    (h : printStructDefs ext fuel (List.range p.structs.length) p.unsetAllInit.structs
      = some r) :
    ∃ tokens : List (Option Nat),
      r.1 = renderTokens ext p.unsetAllInit.structs tokens ∧
      (emitted tokens).Perm (List.range p.structs.length) ∧
      r.2.length = p.structs.length ∧
      ∀ s ∈ r.2, s.isPrinted = true := by
  have h0 : ∀ s ∈ p.unsetAllInit.structs, s.isPrinted = false := by
    intro s hs
    simp only [Program.unsetAllInit, List.mem_map] at hs
    obtain ⟨s0, -, rfl⟩ := hs
    rfl
  have hlen : p.unsetAllInit.structs.length = p.structs.length := by
    simp [Program.unsetAllInit]
  rw [← markPrinted_nil p.unsetAllInit.structs] at h
  obtain ⟨tokens, ⟨ht, hstate, hnd, hmem⟩, hall⟩ :=
    printStructDefs_emits ext fuel p.unsetAllInit.structs h0 _ [] r h
  simp only [List.nil_append] at hstate hall
  refine ⟨tokens, ht, ?_, ?_, ?_⟩
  · rw [List.perm_ext_iff_of_nodup hnd (List.nodup_range _)]
    intro j
    constructor
    · intro hj
      rw [List.mem_range, ← hlen]
      exact (hmem j hj).2
    · intro hj
      exact hall j hj
  · rw [hstate, markPrinted_length, hlen]
  · intro s hs
    rw [hstate] at hs
    obtain ⟨i, hi⟩ := List.mem_iff_getElem?.mp hs
    rw [markPrinted_getElem?] at hi
    cases hq : p.unsetAllInit.structs[i]? with
    | none => rw [hq] at hi; cases hi
    | some s0 =>
        rw [hq] at hi
        have hlt : i < p.structs.length := by
          rw [← hlen]; exact (List.getElem?_eq_some.mp hq).1
        have hin : i ∈ emitted tokens := hall i (List.mem_range.mpr hlt)
        simp only [Option.map_some', hin, if_true, Option.some.injEq] at hi
        subst hi
        rfl

/-- Witness for C23: the two structs of the example program; the definitions come out in
the order of the list. -/
theorem printStructDefs_once_witness :
    ∃ r tokens, printStructDefs exampleExt 1 (List.range exampleProgram.structs.length)
        exampleProgram.unsetAllInit.structs = some r ∧
      r.1 = renderTokens exampleExt exampleProgram.unsetAllInit.structs tokens ∧
      (emitted tokens).Perm (List.range exampleProgram.structs.length) ∧
      r.1 = "struct s_outer \x7b\x7d;\nstruct s_inner \x7b\x7d;\n".toList := by
  cases hr : printStructDefs exampleExt 1 (List.range exampleProgram.structs.length)
      exampleProgram.unsetAllInit.structs with
  | none =>
      have : (printStructDefs exampleExt 1 (List.range exampleProgram.structs.length)
        exampleProgram.unsetAllInit.structs).isSome = true := by decide
      rw [hr] at this
      cases this
  | some r =>
      obtain ⟨tokens, h1, h2, -⟩ := printStructDefs_once exampleExt 1 exampleProgram r hr
      have ht : (printStructDefs exampleExt 1 (List.range exampleProgram.structs.length)
          exampleProgram.unsetAllInit.structs).map Prod.fst =
          some "struct s_outer \x7b\x7d;\nstruct s_inner \x7b\x7d;\n".toList := by decide
      rw [hr] at ht
      exact ⟨r, tokens, rfl, h1, h2, Option.some.inj ht⟩

end Llvm2c
